import Mathlib

/-!
# rocketpool-go: Protocol DAO, auction-lot, minipool and network bindings

A shallow embedding of `dao/protocol/proposals.go`, `dao/protocol/settings.go`,
`auction/lot.go`, `minipool/common.go`, `network/withdrawal.go`, `tokens/rpl.go`
and `tests/utils.go`.

* Go's `*big.Int` is `Option Int` (`none` is the nil pointer), `uint64` is a
  `Nat` below `2 ^ 64`, a byte slice is a `List Nat` of byte values.
* A Go function that can panic returns an `Outcome`; a `(result, error)` pair
  is a Lean pair whose second component is `Option GoError` (`none` is the nil
  error) and a slice result that can be nil is an `Option`.
* Remote operations (contract lookup, gas estimation, transaction submission,
  contract reads) are recorded in a trace, and their answers come from a
  `World` that may answer differently at each point of the trace.
* A loop that need not end takes a fuel argument and gives `none` when the fuel
  runs out; the parts of package `core` that are not among the sources (the
  batch engine, the transaction builder) are modelled from the specification.
-/

namespace RocketpoolGo

/-! ## Bytes and big integers (go-ethereum `common`, `common/math`, Go `math/big`) -/

/-- A Go byte slice, most significant byte first where it holds a number. -/
abbrev Bytes := List Nat

/-- Counts the bits of `n` by halving it until it is zero, at most `fuel`
times. -/
def bitLenAux : Nat → Nat → Nat
  | 0, _ => 0
  | fuel + 1, n => if n = 0 then 0 else bitLenAux fuel (n / 2) + 1

/-- The Go `x.BitLen()` of the absolute value `n`: the number of bits needed to
write `n`, and `0` for `0`. -/
def bitLen (n : Nat) : Nat :=
  bitLenAux n n

/-- Writes the low `n` bytes of `x` big-endian into a buffer of `n` bytes, as
`math.ReadBits(bigint, buf)` does on a zeroed buffer of length `n`: the last
byte is the lowest byte of `x`, the value is shifted right by 8 bits, and so on
towards the front of the buffer. -/
def ReadBits : Nat → Nat → Bytes
  | 0, _ => []
  | n + 1, x => ReadBits n (x / 256) ++ [x % 256]

/-- The Go `x.Bytes()`: the absolute value of `x` as a big-endian byte slice
without leading zero bytes. -/
def bigBytes (x : Int) : Bytes :=
  ReadBits ((bitLen x.natAbs + 7) / 8) x.natAbs

/-- The Go `new(big.Int).SetBytes(buf)`: reads a byte slice as a big-endian
unsigned integer. -/
def SetBytes (buf : Bytes) : Nat :=
  buf.foldl (fun acc b => acc * 256 + b) 0

/-- The constant `tt256m1` of go-ethereum `common/math`: `2 ^ 256 - 1`. -/
def tt256m1 : Int := ((2 ^ 256 - 1 : Nat) : Int)

/-- The go-ethereum `math.U256(x)`: `x.And(x, tt256m1)`, the 256-bit two's
complement of `x`. -/
def U256 (x : Int) : Int :=
  Int.land x tt256m1

/-- The go-ethereum `math.PaddedBigBytes(bigint, n)`: the big-endian bytes of
`bigint`, left-padded with zero bytes to at least `n` bytes. -/
def PaddedBigBytes (bigint : Int) (n : Nat) : Bytes :=
  if bitLen bigint.natAbs / 8 ≥ n then bigBytes bigint
  else ReadBits n bigint.natAbs

/-- The go-ethereum `math.U256Bytes(n)`: `PaddedBigBytes(U256(n), 32)`. -/
def U256Bytes (n : Int) : Bytes :=
  PaddedBigBytes (U256 n) 32

/-- The go-ethereum `common.LeftPadBytes(slice, l)`. -/
def LeftPadBytes (slice : Bytes) (l : Nat) : Bytes :=
  if l ≤ slice.length then slice
  else List.replicate (l - slice.length) 0 ++ slice

/-- The go-ethereum `common.Address`: an array of 20 bytes. -/
structure Address where
  bytes : Bytes
  size_eq : bytes.length = 20
  deriving DecidableEq

/-- The go-ethereum `common.Hash`: an array of 32 bytes. -/
structure Hash where
  bytes : Bytes
  size_eq : bytes.length = 32
  deriving DecidableEq

/-- The zero hash `common.Hash{}`. -/
def Hash.zero : Hash := ⟨List.replicate 32 0, by simp⟩

/-! ## Go values, errors and outcomes -/

/-- A Go value of type `any`, by its dynamic type, as far as the type
assertions of `abiEncodeMultiValues` tell values apart. -/
inductive AnyValue where
  /-- A `*big.Int`; `none` is the nil pointer of that type. -/
  | bigInt (p : Option Int)
  | bool (b : Bool)
  | address (a : Address)
  /-- A value of any other dynamic type (the untyped nil included). -/
  | other (typeName : String)
  deriving DecidableEq

/-- Go errors of the modelled functions. -/
inductive GoError where
  /-- An error made by a collaborator (contract lookup, call, ABI packing, node). -/
  | external (msg : String)
  /-- The error `settingTypes and values must be the same length`. -/
  | lengthMismatch
  /-- The error `value %d is not a *big.Int, but the setting type is Uint256`. -/
  | notBigInt (i : Nat)
  /-- The error `value %d is not a bool, but the setting type is Bool`. -/
  | notBool (i : Nat)
  /-- The error `value %d is not an address, but the setting type is Address`. -/
  | notAddress (i : Nat)
  /-- The error `unknown proposal setting type [%v]`. -/
  | unknownSettingType (settingType : Nat)
  /-- An error made by `fmt.Errorf(text + ": %w", err)`; it wraps `err`. -/
  | wrapped (text : String) (err : GoError)
  /-- An error made by `fmt.Errorf(text)`; it wraps nothing. -/
  | errorf (text : String)
  deriving DecidableEq

/-- The outcome of running a Go function: it returns, or it panics. -/
inductive Outcome (α : Type) where
  | returned (a : α)
  | panicked
  deriving DecidableEq

/-! ## `abiEncodeMultiValues` (dao/protocol/proposals.go) -/

/-- The three constants of `types.ProposalSettingType` (a `uint8`) that
`abiEncodeMultiValues` switches on. Their declaration is in the `types`
package; the Go compiler accepts the switch only if they are distinct. -/
structure SettingTypeConsts where
  ProposalSettingType_Uint256 : Nat
  ProposalSettingType_Bool : Nat
  ProposalSettingType_Address : Nat
  uint256_ne_bool : ProposalSettingType_Uint256 ≠ ProposalSettingType_Bool
  uint256_ne_address : ProposalSettingType_Uint256 ≠ ProposalSettingType_Address
  bool_ne_address : ProposalSettingType_Bool ≠ ProposalSettingType_Address

/-- The body of the `switch settingType` of `abiEncodeMultiValues` for entry
`i`: the encoded argument, the error the function returns, or a panic (the nil
pointer dereference of `big.NewInt(0).Set(arg)` for a nil `*big.Int`). -/
def encodeArg (c : SettingTypeConsts) (i : Nat) (settingType : Nat) (value : AnyValue) :
    Outcome (Except GoError Bytes) :=
  if settingType = c.ProposalSettingType_Uint256 then
    match value with
    | .bigInt (some arg) => .returned (.ok (U256Bytes arg))
    | .bigInt none => .panicked
    | _ => .returned (.error (.notBigInt i))
  else if settingType = c.ProposalSettingType_Bool then
    match value with
    | .bool arg =>
      if arg then .returned (.ok (PaddedBigBytes 1 32))
      else .returned (.ok (PaddedBigBytes 0 32))
    | _ => .returned (.error (.notBool i))
  else if settingType = c.ProposalSettingType_Address then
    match value with
    | .address arg => .returned (.ok (LeftPadBytes arg.bytes 32))
    | _ => .returned (.error (.notAddress i))
  else
    .returned (.error (.unknownSettingType settingType))

/-- The loop `for i, settingType := range settingTypes` of
`abiEncodeMultiValues`, from index `i` on, over the remaining setting types:
`values[i]` is read by index (out of range panics) and the encoded argument is
stored in `results[i]`. -/
def encodeLoop (c : SettingTypeConsts) (values : List AnyValue) :
    Nat → List Nat → List Bytes → Outcome (Option (List Bytes) × Option GoError)
  | _, [], results => .returned (some results, none)
  | i, settingType :: rest, results =>
    match values[i]? with
    | none => .panicked
    | some value =>
      match encodeArg c i settingType value with
      | .panicked => .panicked
      | .returned (.error err) => .returned (none, some err)
      | .returned (.ok encodedArg) => encodeLoop c values (i + 1) rest (results.set i encodedArg)

/-- The function `abiEncodeMultiValues(settingTypes, values)`: the ABI encoding
of multiple values for a `ProposeSettingMulti` call. -/
def abiEncodeMultiValues (c : SettingTypeConsts) (settingTypes : List Nat)
    (values : List AnyValue) : Outcome (Option (List Bytes) × Option GoError) :=
  let settingCount := settingTypes.length
  if settingCount ≠ values.length then
    .returned (none, some .lengthMismatch)
  else if settingCount = 0 then
    .returned (some [], none)
  else
    encodeLoop c values 0 settingTypes (List.replicate settingCount [])

/-- The constants as the `iota` enumeration 0, 1, 2. -/
def iotaConsts : SettingTypeConsts := ⟨0, 1, 2, by decide, by decide, by decide⟩

/-- The address 0x0102...14. -/
def sampleAddress : Address := ⟨(List.range 20).map (· + 1), by decide⟩

/-- The encoding of a value as an entry of the result: the 256-bit number for a
non-nil `*big.Int`, the number 1 or 0 on 32 bytes for a bool, the address
left-padded to 32 bytes; nothing for any other value. -/
def encodingOf : AnyValue → Option Bytes
  | .bigInt (some x) => some (U256Bytes x)
  | .bool b => some (PaddedBigBytes (if b then 1 else 0) 32)
  | .address a => some (LeftPadBytes a.bytes 32)
  | _ => none

/-- A setting type that is one of the three known constants, with a value of
the matching Go type (a non-nil `*big.Int`, a `bool`, an address). -/
def ValidEntry (c : SettingTypeConsts) (settingType : Nat) (value : AnyValue) : Prop :=
  (settingType = c.ProposalSettingType_Uint256 ∧ ∃ x, value = .bigInt (some x)) ∨
  (settingType = c.ProposalSettingType_Bool ∧ ∃ b, value = .bool b) ∨
  (settingType = c.ProposalSettingType_Address ∧ ∃ a, value = .address a)

/-- The number that a byte string denotes when read big-endian: the first byte
is the most significant one. It is stated from the positional notation, byte
`b` at `k` bytes from the end counting `b * 256 ^ k`, and not from the
functions of the code. -/
def bigEndianValue : Bytes → Nat
  | [] => 0
  | b :: bs => b * 256 ^ bs.length + bigEndianValue bs

/-- The entry `e` is the encoding of the value, told from the contract ABI and
not from the helper functions of the code. An unsigned 256-bit integer is a
word of 32 bytes (each below 256) that denotes, big-endian, the integer modulo
`2 ^ 256`; a bool is the 32-byte word with last byte 1 or 0 and zero bytes
before it; an address is its 20 bytes after 12 zero bytes. No entry encodes a
nil `*big.Int` or a value of another type. -/
def IsAbiWord : AnyValue → Bytes → Prop
  | .bigInt (some x), e =>
    e.length = 32 ∧ (∀ b ∈ e, b < 256) ∧ (bigEndianValue e : Int) = x % 2 ^ 256
  | .bool b, e => e = List.replicate 31 0 ++ [if b then 1 else 0]
  | .address a, e => e = List.replicate 12 0 ++ a.bytes
  | _, _ => False

/-! ## Collaborators of the Protocol DAO proposals binding -/

/-- The `types.VotingTreeNode` of a proposal's voting tree. -/
structure VotingTreeNode where
  Sum : Option Int
  Hash : Hash
  deriving DecidableEq

/-- The `bind.TransactOpts` signing options, passed through unchanged. -/
structure TransactOpts where
  From : Address
  Nonce : Option Int
  Value : Option Int
  GasLimit : Nat
  deriving DecidableEq

/-- An argument passed to a contract method or to the ABI packer. -/
inductive Arg where
  | string (s : String)
  | strings (l : List String)
  | bytes (b : Bytes)
  | bytesList (l : Option (List Bytes))
  | settingTypes (l : List Nat)
  | uint32 (n : Nat)
  | bigInt (p : Option Int)
  | bool (b : Bool)
  | address (a : Address)
  | treeNodes (l : List VotingTreeNode)
  deriving DecidableEq

/-- The `rocketpool.GasInfo` of a gas estimation. -/
structure GasInfo where
  EstGasLimit : Nat
  SafeGasLimit : Nat
  deriving DecidableEq

/-- The zero value `rocketpool.GasInfo{}`. -/
def GasInfo.zero : GasInfo := ⟨0, 0⟩

/-- A submitted transaction, as far as the binding reads it: `tx.Hash()`. -/
structure Transaction where
  Hash : Hash
  deriving DecidableEq

/-- The `rocketpool.Contract` returned by the contract lookup: its address and
its ABI packer `ABI.Pack(method, args...)`, a local computation that returns a
payload or an error, or panics. -/
structure Contract where
  address : Address
  pack : String → List Arg → Outcome (Except GoError Bytes)

/-- What a binding function does besides computing its result, in order: the
remote operations (contract lookup, proposal-count read, gas estimation,
transaction submission) and the local building of a payload by the ABI
packer. -/
inductive Op where
  | getContract (name : String)
  | getProposalCount
  | abiPack (contract : Address) (method : String) (args : List Arg)
  | getTransactionGasInfo (contract : Address) (opts : Option TransactOpts) (method : String)
      (args : List Arg)
  | transact (contract : Address) (opts : Option TransactOpts) (method : String)
      (args : List Arg)
  deriving DecidableEq

/-- Whether the operation submits a transaction. -/
def Op.isTransact : Op → Bool
  | .transact _ _ _ _ => true
  | _ => false

/-- Whether the operation builds a payload. -/
def Op.isAbiPack : Op → Bool
  | .abiPack _ _ _ => true
  | _ => false

/-- Whether the operation is the contract lookup or `GetTransactionGasInfo`. -/
def Op.isLookupOrGasInfo : Op → Bool
  | .getContract _ => true
  | .getTransactionGasInfo _ _ _ _ => true
  | _ => false

/-- Whether the operation is remote (everything but the local ABI packing). -/
def Op.isRemote : Op → Bool
  | .abiPack _ _ _ => false
  | _ => true

/-- The answers of the node and of the `rocketpool.RocketPool` manager to the
remote operations; each may depend on everything done so far. The collaborators
are taken to return (a result or an error). -/
structure World where
  getContract : List Op → String → Except GoError Contract
  /-- The `dao.GetProposalCount(rp, nil)` read; the count is a `uint64`. -/
  getProposalCount : List Op → Except GoError Nat
  getTransactionGasInfo : List Op → Contract → Option TransactOpts → String → List Arg →
    GasInfo × Option GoError
  transact : List Op → Contract → Option TransactOpts → String → List Arg →
    Except GoError Transaction

/-- The Go conversion `int64(x)` of a `uint64` value `x`: the same 64 bits read
as a two's complement number. -/
def int64 (x : Nat) : Int :=
  if x % 2 ^ 64 < 2 ^ 63 then ((x % 2 ^ 64 : Nat) : Int) else ((x % 2 ^ 64 : Nat) : Int) - 2 ^ 64

/-- The Go `big.NewInt(x)`: a new (non-nil) `*big.Int` with the value `x`. -/
def big_NewInt (x : Int) : Option Int := some x

/-- The Go `x.Uint64()` of a non-nil `*big.Int`: the low 64 bits of the absolute
value of `x` (the sign is ignored). It is the decoding of a wire integer as
`uint64`. -/
def big_Uint64 (x : Int) : Nat :=
  x.natAbs % 2 ^ 64

/-- The call `rp.GetContract("rocketDAOProtocolProposals", opts)` of
`getRocketDAOProtocolProposals` (the mutex around it is not modelled). -/
def getRocketDAOProtocolProposals (w : World) (trace : List Op) :
    Except GoError Contract × List Op :=
  (w.getContract trace "rocketDAOProtocolProposals",
    trace ++ [.getContract "rocketDAOProtocolProposals"])

/-- The call `dao.GetProposalCount(rp, nil)`. -/
def GetProposalCount (w : World) (trace : List Op) : Except GoError Nat × List Op :=
  (w.getProposalCount trace, trace ++ [.getProposalCount])

/-- The call `contract.GetTransactionGasInfo(opts, method, args...)`. -/
def Contract.GetTransactionGasInfo (w : World) (contract : Contract)
    (opts : Option TransactOpts) (method : String) (args : List Arg) (trace : List Op) :
    (GasInfo × Option GoError) × List Op :=
  (w.getTransactionGasInfo trace contract opts method args,
    trace ++ [.getTransactionGasInfo contract.address opts method args])

/-- The call `contract.Transact(opts, method, args...)`. -/
def Contract.Transact (w : World) (contract : Contract) (opts : Option TransactOpts)
    (method : String) (args : List Arg) (trace : List Op) :
    Except GoError Transaction × List Op :=
  (w.transact trace contract opts method args,
    trace ++ [.transact contract.address opts method args])

/-- The call `contract.ABI.Pack(method, args...)`. -/
def Contract.Pack (contract : Contract) (method : String) (args : List Arg) (trace : List Op) :
    Outcome (Except GoError Bytes) × List Op :=
  (contract.pack method args, trace ++ [.abiPack contract.address method args])

/-! ## The proposals binding (dao/protocol/proposals.go) -/

/-- `EstimateProposalGas`: estimate the gas of a proposal submission. -/
def EstimateProposalGas (w : World) (message : String) (payload : Bytes) (blockNumber : Nat)
    (treeNodes : List VotingTreeNode) (opts : Option TransactOpts) (trace : List Op) :
    (GasInfo × Option GoError) × List Op :=
  match getRocketDAOProtocolProposals w trace with
  | (.error err, trace) => ((GasInfo.zero, some err), trace)
  | (.ok rocketDAOProtocolProposals, trace) =>
    rocketDAOProtocolProposals.GetTransactionGasInfo w opts "propose"
      [.string message, .bytes payload, .uint32 blockNumber, .treeNodes treeNodes] trace

/-- `SubmitProposal`: submit a proposal; returns the ID of the new proposal (a
`uint64`, so the addition wraps at `2 ^ 64`) and the transaction hash. -/
def SubmitProposal (w : World) (message : String) (payload : Bytes) (blockNumber : Nat)
    (treeNodes : List VotingTreeNode) (opts : Option TransactOpts) (trace : List Op) :
    (Nat × Hash × Option GoError) × List Op :=
  match getRocketDAOProtocolProposals w trace with
  | (.error err, trace) => ((0, Hash.zero, some err), trace)
  | (.ok rocketDAOProtocolProposals, trace) =>
    match GetProposalCount w trace with
    | (.error err, trace) => ((0, Hash.zero, some err), trace)
    | (.ok proposalCount, trace) =>
      match rocketDAOProtocolProposals.Transact w opts "propose"
          [.string message, .bytes payload, .uint32 blockNumber, .treeNodes treeNodes] trace with
      | (.error err, trace) =>
        ((0, Hash.zero, some (.wrapped "error submitting Protocol DAO proposal" err)), trace)
      | (.ok tx, trace) => (((proposalCount + 1) % 2 ^ 64, tx.Hash, none), trace)

/-- `EstimateProposeSetMultiGas`. -/
def EstimateProposeSetMultiGas (w : World) (c : SettingTypeConsts) (message : String)
    (contractNames settingPaths : List String) (settingTypes : List Nat)
    (values : List AnyValue) (blockNumber : Nat) (treeNodes : List VotingTreeNode)
    (opts : Option TransactOpts) (trace : List Op) :
    Outcome (GasInfo × Option GoError) × List Op :=
  match getRocketDAOProtocolProposals w trace with
  | (.error err, trace) => (.returned (GasInfo.zero, some err), trace)
  | (.ok rocketDAOProtocolProposals, trace) =>
    match abiEncodeMultiValues c settingTypes values with
    | .panicked => (.panicked, trace)
    | .returned (_, some err) =>
      (.returned (GasInfo.zero, some (.wrapped "error ABI encoding values" err)), trace)
    | .returned (encodedValues, none) =>
      match rocketDAOProtocolProposals.Pack "proposalSettingMulti"
          [.strings contractNames, .strings settingPaths, .settingTypes settingTypes,
            .bytesList encodedValues] trace with
      | (.panicked, trace) => (.panicked, trace)
      | (.returned (.error err), trace) =>
        (.returned (GasInfo.zero,
          some (.wrapped "error setting multi-set proposal payload" err)), trace)
      | (.returned (.ok payload), trace) =>
        let r := EstimateProposalGas w message payload blockNumber treeNodes opts trace
        (.returned r.1, r.2)

/-- `ProposeSetMulti`: submit a proposal to update multiple settings at once. -/
def ProposeSetMulti (w : World) (c : SettingTypeConsts) (message : String)
    (contractNames settingPaths : List String) (settingTypes : List Nat)
    (values : List AnyValue) (blockNumber : Nat) (treeNodes : List VotingTreeNode)
    (opts : Option TransactOpts) (trace : List Op) :
    Outcome (Nat × Hash × Option GoError) × List Op :=
  match getRocketDAOProtocolProposals w trace with
  | (.error err, trace) => (.returned (0, Hash.zero, some err), trace)
  | (.ok rocketDAOProtocolProposals, trace) =>
    match abiEncodeMultiValues c settingTypes values with
    | .panicked => (.panicked, trace)
    | .returned (_, some err) =>
      (.returned (0, Hash.zero, some (.wrapped "error ABI encoding values" err)), trace)
    | .returned (encodedValues, none) =>
      match rocketDAOProtocolProposals.Pack "proposalSettingMulti"
          [.strings contractNames, .strings settingPaths, .settingTypes settingTypes,
            .bytesList encodedValues] trace with
      | (.panicked, trace) => (.panicked, trace)
      | (.returned (.error err), trace) =>
        (.returned (0, Hash.zero,
          some (.wrapped "error setting multi-set proposal payload" err)), trace)
      | (.returned (.ok payload), trace) =>
        let r := SubmitProposal w message payload blockNumber treeNodes opts trace
        (.returned r.1, r.2)

/-- `EstimateProposeSetBoolGas`. -/
def EstimateProposeSetBoolGas (w : World) (message contractName settingPath : String) (value : Bool) (blockNumber : Nat)
    (treeNodes : List VotingTreeNode) (opts : Option TransactOpts) (trace : List Op) :
    Outcome (GasInfo × Option GoError) × List Op :=
  match getRocketDAOProtocolProposals w trace with
  | (.error err, trace) => (.returned (GasInfo.zero, some err), trace)
  | (.ok rocketDAOProtocolProposals, trace) =>
    match rocketDAOProtocolProposals.Pack "proposalSettingBool"
        [.string contractName, .string settingPath, .bool value] trace with
    | (.panicked, trace) => (.panicked, trace)
    | (.returned (.error err), trace) =>
      (.returned (GasInfo.zero,
        some (.wrapped "error setting bool setting proposal payload" err)), trace)
    | (.returned (.ok payload), trace) =>
      let r := EstimateProposalGas w message payload blockNumber treeNodes opts trace
      (.returned r.1, r.2)

/-- `EstimateProposeSetUintGas`. -/
def EstimateProposeSetUintGas (w : World) (message contractName settingPath : String)
    (value : Option Int) (blockNumber : Nat)
    (treeNodes : List VotingTreeNode) (opts : Option TransactOpts) (trace : List Op) :
    Outcome (GasInfo × Option GoError) × List Op :=
  match getRocketDAOProtocolProposals w trace with
  | (.error err, trace) => (.returned (GasInfo.zero, some err), trace)
  | (.ok rocketDAOProtocolProposals, trace) =>
    match rocketDAOProtocolProposals.Pack "proposalSettingUint"
        [.string contractName, .string settingPath, .bigInt value] trace with
    | (.panicked, trace) => (.panicked, trace)
    | (.returned (.error err), trace) =>
      (.returned (GasInfo.zero,
        some (.wrapped "error encoding set uint setting proposal payload" err)), trace)
    | (.returned (.ok payload), trace) =>
      let r := EstimateProposalGas w message payload blockNumber treeNodes opts trace
      (.returned r.1, r.2)

/-- `EstimateProposeSetAddressGas`. -/
def EstimateProposeSetAddressGas (w : World) (message contractName settingPath : String)
    (value : Address) (blockNumber : Nat)
    (treeNodes : List VotingTreeNode) (opts : Option TransactOpts) (trace : List Op) :
    Outcome (GasInfo × Option GoError) × List Op :=
  match getRocketDAOProtocolProposals w trace with
  | (.error err, trace) => (.returned (GasInfo.zero, some err), trace)
  | (.ok rocketDAOProtocolProposals, trace) =>
    match rocketDAOProtocolProposals.Pack "proposalSettingAddress"
        [.string contractName, .string settingPath, .address value] trace with
    | (.panicked, trace) => (.panicked, trace)
    | (.returned (.error err), trace) =>
      (.returned (GasInfo.zero,
        some (.wrapped "error encoding set address setting proposal payload" err)), trace)
    | (.returned (.ok payload), trace) =>
      let r := EstimateProposalGas w message payload blockNumber treeNodes opts trace
      (.returned r.1, r.2)

/-- `EstimateProposeSetRewardsPercentageGas` (its `settingPath` parameter is not used). -/
def EstimateProposeSetRewardsPercentageGas (w : World) (message contractName _settingPath : String)
    (percentage : Option Int) (blockNumber : Nat)
    (treeNodes : List VotingTreeNode) (opts : Option TransactOpts) (trace : List Op) :
    Outcome (GasInfo × Option GoError) × List Op :=
  match getRocketDAOProtocolProposals w trace with
  | (.error err, trace) => (.returned (GasInfo.zero, some err), trace)
  | (.ok rocketDAOProtocolProposals, trace) =>
    match rocketDAOProtocolProposals.Pack "proposalSettingRewardsClaimer"
        [.string contractName, .bigInt percentage] trace with
    | (.panicked, trace) => (.panicked, trace)
    | (.returned (.error err), trace) =>
      (.returned (GasInfo.zero,
        some (.wrapped "error encoding set rewards-claimer percent proposal payload" err)), trace)
    | (.returned (.ok payload), trace) =>
      let r := EstimateProposalGas w message payload blockNumber treeNodes opts trace
      (.returned r.1, r.2)

/-- `EstimateProposeSpendTreasuryGas`. -/
def EstimateProposeSpendTreasuryGas (w : World) (message invoiceID : String) (recipient : Address)
    (amount : Option Int) (blockNumber : Nat)
    (treeNodes : List VotingTreeNode) (opts : Option TransactOpts) (trace : List Op) :
    Outcome (GasInfo × Option GoError) × List Op :=
  match getRocketDAOProtocolProposals w trace with
  | (.error err, trace) => (.returned (GasInfo.zero, some err), trace)
  | (.ok rocketDAOProtocolProposals, trace) =>
    match rocketDAOProtocolProposals.Pack "proposalSpendTreasury"
        [.string invoiceID, .address recipient, .bigInt amount] trace with
    | (.panicked, trace) => (.panicked, trace)
    | (.returned (.error err), trace) =>
      (.returned (GasInfo.zero,
        some (.wrapped "error encoding set spend-treasury percent proposal payload" err)), trace)
    | (.returned (.ok payload), trace) =>
      let r := EstimateProposalGas w message payload blockNumber treeNodes opts trace
      (.returned r.1, r.2)

/-- `EstimateCancelProposalGas`; `proposalId` is a `uint64`. -/
def EstimateCancelProposalGas (w : World) (proposalId : Nat)
    (opts : Option TransactOpts) (trace : List Op) : (GasInfo × Option GoError) × List Op :=
  match getRocketDAOProtocolProposals w trace with
  | (.error err, trace) => ((GasInfo.zero, some err), trace)
  | (.ok rocketDAOProtocolProposals, trace) =>
    rocketDAOProtocolProposals.GetTransactionGasInfo w opts "cancel"
      [.bigInt (big_NewInt (int64 proposalId))] trace

/-- `CancelProposal`; `proposalId` is a `uint64`. -/
def CancelProposal (w : World) (proposalId : Nat)
    (opts : Option TransactOpts) (trace : List Op) : (Hash × Option GoError) × List Op :=
  match getRocketDAOProtocolProposals w trace with
  | (.error err, trace) => ((Hash.zero, some err), trace)
  | (.ok rocketDAOProtocolProposals, trace) =>
    match rocketDAOProtocolProposals.Transact w opts "cancel"
        [.bigInt (big_NewInt (int64 proposalId))] trace with
    | (.error err, trace) =>
      ((Hash.zero,
        some (.wrapped ("error cancelling Protocol DAO proposal " ++ toString proposalId) err)), trace)
    | (.ok tx, trace) => ((tx.Hash, none), trace)

/-- `EstimateVoteOnProposalGas`. -/
def EstimateVoteOnProposalGas (w : World) (proposalId : Nat) (support : Bool)
    (opts : Option TransactOpts) (trace : List Op) : (GasInfo × Option GoError) × List Op :=
  match getRocketDAOProtocolProposals w trace with
  | (.error err, trace) => ((GasInfo.zero, some err), trace)
  | (.ok rocketDAOProtocolProposals, trace) =>
    rocketDAOProtocolProposals.GetTransactionGasInfo w opts "vote"
      [.bigInt (big_NewInt (int64 proposalId)), .bool support] trace

/-- `VoteOnProposal`; `proposalId` is a `uint64`. -/
def VoteOnProposal (w : World) (proposalId : Nat) (support : Bool)
    (opts : Option TransactOpts) (trace : List Op) : (Hash × Option GoError) × List Op :=
  match getRocketDAOProtocolProposals w trace with
  | (.error err, trace) => ((Hash.zero, some err), trace)
  | (.ok rocketDAOProtocolProposals, trace) =>
    match rocketDAOProtocolProposals.Transact w opts "vote"
        [.bigInt (big_NewInt (int64 proposalId)), .bool support] trace with
    | (.error err, trace) =>
      ((Hash.zero,
        some (.wrapped ("error voting on Protocol DAO proposal " ++ toString proposalId) err)), trace)
    | (.ok tx, trace) => ((tx.Hash, none), trace)

/-- `EstimateExecuteProposalGas`. -/
def EstimateExecuteProposalGas (w : World) (proposalId : Nat)
    (opts : Option TransactOpts) (trace : List Op) : (GasInfo × Option GoError) × List Op :=
  match getRocketDAOProtocolProposals w trace with
  | (.error err, trace) => ((GasInfo.zero, some err), trace)
  | (.ok rocketDAOProtocolProposals, trace) =>
    rocketDAOProtocolProposals.GetTransactionGasInfo w opts "execute"
      [.bigInt (big_NewInt (int64 proposalId))] trace

/-- `ExecuteProposal`; `proposalId` is a `uint64`. -/
def ExecuteProposal (w : World) (proposalId : Nat)
    (opts : Option TransactOpts) (trace : List Op) : (Hash × Option GoError) × List Op :=
  match getRocketDAOProtocolProposals w trace with
  | (.error err, trace) => ((Hash.zero, some err), trace)
  | (.ok rocketDAOProtocolProposals, trace) =>
    match rocketDAOProtocolProposals.Transact w opts "execute"
        [.bigInt (big_NewInt (int64 proposalId))] trace with
    | (.error err, trace) =>
      ((Hash.zero,
        some (.wrapped ("error executing Protocol DAO proposal " ++ toString proposalId) err)), trace)
    | (.ok tx, trace) => ((tx.Hash, none), trace)

/-! ## The auction lot binding (auction/lot.go) -/

/-- The `core.Contract` of the newer binding API, as far as a lot refers to it. -/
structure CoreContract where
  name : String
  address : Address
  deriving DecidableEq

/-- The `core.Parameter[T]`: the wire integer `RawValue` (a `*big.Int`); the
host value is computed from it on demand. -/
structure Parameter where
  RawValue : Option Int
  deriving DecidableEq

/-- Details for auction lots (`AuctionLotDetails`). -/
structure AuctionLotDetails where
  Index : Parameter
  Exists : Bool
  StartBlock : Parameter
  EndBlock : Parameter
  StartPrice : Parameter
  ReservePrice : Parameter
  PriceAtCurrentBlock : Parameter
  PriceByTotalBids : Parameter
  CurrentPrice : Parameter
  TotalRplAmount : Option Int
  ClaimedRplAmount : Option Int
  RemainingRplAmount : Option Int
  TotalBidAmount : Option Int
  IsCleared : Bool
  RplRecovered : Bool
  deriving DecidableEq

/-- Binding for auction lots (`AuctionLot`). -/
structure AuctionLot where
  Details : AuctionLotDetails
  mgr : CoreContract
  deriving DecidableEq

/-- The fields of `AuctionLotDetails`, to name the destination of a read. -/
inductive DetailsField where
  | Index | Exists | StartBlock | EndBlock | StartPrice | ReservePrice
  | PriceAtCurrentBlock | PriceByTotalBids | CurrentPrice | TotalRplAmount
  | ClaimedRplAmount | RemainingRplAmount | TotalBidAmount | IsCleared | RplRecovered
  deriving DecidableEq

/-- The fields of `MinipoolCommonDetails` (minipool/common.go), to name the
destination of a read. -/
inductive MinipoolField where
  | Address | Version | NodeAddress | Status | StatusBlock | StatusTime | IsFinalised
  | NodeFee | NodeDepositBalance | NodeRefundBalance | NodeDepositAssigned
  | UserDepositBalance | UserDepositAssigned | UserDepositAssignedTime
  | IsUseLatestDelegateEnabled | DelegateAddress | PreviousDelegateAddress
  | EffectiveDelegateAddress | PenaltyCount
  | Exists | Pubkey | WithdrawalCredentials | RplSlashed | DepositType
  | IsBondReduceCancelled | ReduceBondTime | ReduceBondValue | LastBondReductionTime
  | LastBondReductionPrevValue | LastBondReductionPrevNodeFee
  | QueuePosition
  deriving DecidableEq

/-- The destination pointer of a queued read: the address of a field of the
lot's `Details` or of a minipool's details (the `RawValue` inside it for a
`Parameter` field), or a variable of the caller. -/
inductive Slot where
  | details (field : DetailsField)
  | caller (ident : Nat)
  | minipool (field : MinipoolField)
  deriving DecidableEq

/-- One queued call request of a batch. -/
structure Call where
  target : CoreContract
  method : String
  args : List Arg
  output : Slot
  deriving DecidableEq

/-- The `batch.MultiCaller`, as far as the bindings use it: the ordered queue
of call requests, and whether the batch is "already closed for submission"
(spec 4.2); a batch that is not closed is open. -/
structure MultiCaller where
  calls : List Call
  closed : Bool
  deriving DecidableEq

/-- The "queuing error" of spec 4.2, reported when a read is enqueued on a
batch that "is already closed for submission". -/
inductive QueuingError where
  | BatchClosed
  deriving DecidableEq

/-- Modelled from the spec: `core.AddCall(mc, contract, output, method, args...)`
of package `core`, which is not among the sources. Spec 4.2: it "appends
exactly one CallRequest to the given Batch, referencing this field's fixed
method/arguments and the caller's destination slot; does not execute anything
itself and has no return value other than a queuing error if the batch is
already closed for submission". The result is the batch as the call leaves it
and the queuing error, if any: a closed batch is left as it is. -/
def AddCall (mc : MultiCaller) (contract : CoreContract) (output : Slot) (method : String)
    (args : List Arg) : MultiCaller × Option QueuingError :=
  if mc.closed then (mc, some .BatchClosed)
  else ({ mc with calls := mc.calls ++ [⟨contract, method, args, output⟩] }, none)

/-- The contract name constant `rocketpool.ContractName_RocketAuctionManager`. -/
def ContractName_RocketAuctionManager : String := "rocketAuctionManager"

/-- The `rocketpool.RocketPool` manager of the newer API, as far as
`NewAuctionLot` uses it: the lookup `rp.GetContract(name)`. -/
structure RocketPool where
  GetContract : String → Except GoError CoreContract

/-- `NewAuctionLot`: creates a new lot binding; `index` is a `uint64`. The
fields not named in the composite literal have their zero values. -/
def NewAuctionLot (rp : RocketPool) (index : Nat) : Except GoError AuctionLot :=
  match rp.GetContract ContractName_RocketAuctionManager with
  | .error err => .error (.wrapped "error getting auction manager contract" err)
  | .ok mgr =>
    .ok
      { Details :=
          { Index := { RawValue := big_NewInt (int64 index) }
            Exists := false
            StartBlock := ⟨none⟩
            EndBlock := ⟨none⟩
            StartPrice := ⟨none⟩
            ReservePrice := ⟨none⟩
            PriceAtCurrentBlock := ⟨none⟩
            PriceByTotalBids := ⟨none⟩
            CurrentPrice := ⟨none⟩
            TotalRplAmount := none
            ClaimedRplAmount := none
            RemainingRplAmount := none
            TotalBidAmount := none
            IsCleared := false
            RplRecovered := false }
        mgr := mgr }

/-- `GetLotExists`: check whether or not the lot exists. A method with the
pointer receiver `c` returns the lot as it leaves it, and the batch. The call
`core.AddCall(...)` is an expression statement of a method without results:
what it reports is dropped. -/
def AuctionLot.GetLotExists (c : AuctionLot) (mc : MultiCaller) : AuctionLot × MultiCaller :=
  (c, (AddCall mc c.mgr (.details .Exists) "getLotExists" [.bigInt c.Details.Index.RawValue]).1)

/-- `GetLotStartBlock`: get the lot's start block. -/
def AuctionLot.GetLotStartBlock (c : AuctionLot) (mc : MultiCaller) : AuctionLot × MultiCaller :=
  (c, (AddCall mc c.mgr (.details .StartBlock) "getLotStartBlock"
    [.bigInt c.Details.Index.RawValue]).1)

/-- `GetLotEndBlock`: get the lot's end block. -/
def AuctionLot.GetLotEndBlock (c : AuctionLot) (mc : MultiCaller) : AuctionLot × MultiCaller :=
  (c, (AddCall mc c.mgr (.details .EndBlock) "getLotEndBlock"
    [.bigInt c.Details.Index.RawValue]).1)

/-- `GetLotStartPrice`: get the lot's starting price. -/
def AuctionLot.GetLotStartPrice (c : AuctionLot) (mc : MultiCaller) : AuctionLot × MultiCaller :=
  (c, (AddCall mc c.mgr (.details .StartPrice) "getLotStartPrice"
    [.bigInt c.Details.Index.RawValue]).1)

/-- `GetLotReservePrice`: get the lot's reserve price. -/
def AuctionLot.GetLotReservePrice (c : AuctionLot) (mc : MultiCaller) :
    AuctionLot × MultiCaller :=
  (c, (AddCall mc c.mgr (.details .ReservePrice) "getLotReservePrice"
    [.bigInt c.Details.Index.RawValue]).1)

/-- `GetLotPriceAtCurrentBlock`. -/
def AuctionLot.GetLotPriceAtCurrentBlock (c : AuctionLot) (mc : MultiCaller) :
    AuctionLot × MultiCaller :=
  (c, (AddCall mc c.mgr (.details .PriceAtCurrentBlock) "getLotPriceAtCurrentBlock"
    [.bigInt c.Details.Index.RawValue]).1)

/-- `GetLotPriceByTotalBids`: get the price of the lot by the total bids. -/
def AuctionLot.GetLotPriceByTotalBids (c : AuctionLot) (mc : MultiCaller) :
    AuctionLot × MultiCaller :=
  (c, (AddCall mc c.mgr (.details .PriceByTotalBids) "getLotPriceByTotalBids"
    [.bigInt c.Details.Index.RawValue]).1)

/-- `GetLotCurrentPrice`: get the price of the lot at the current block. -/
def AuctionLot.GetLotCurrentPrice (c : AuctionLot) (mc : MultiCaller) :
    AuctionLot × MultiCaller :=
  (c, (AddCall mc c.mgr (.details .CurrentPrice) "getLotCurrentPrice"
    [.bigInt c.Details.Index.RawValue]).1)

/-- `GetLotTotalRplAmount`: get the lot's total RPL. -/
def AuctionLot.GetLotTotalRplAmount (c : AuctionLot) (mc : MultiCaller) :
    AuctionLot × MultiCaller :=
  (c, (AddCall mc c.mgr (.details .TotalRplAmount) "getLotTotalRPLAmount"
    [.bigInt c.Details.Index.RawValue]).1)

/-- `GetLotClaimedRplAmount`: get the amount of RPL claimed for the lot. -/
def AuctionLot.GetLotClaimedRplAmount (c : AuctionLot) (mc : MultiCaller) :
    AuctionLot × MultiCaller :=
  (c, (AddCall mc c.mgr (.details .ClaimedRplAmount) "getLotClaimedRPLAmount"
    [.bigInt c.Details.Index.RawValue]).1)

/-- `GetLotRemainingRplAmount`: get the amount of RPL remaining for the lot. -/
def AuctionLot.GetLotRemainingRplAmount (c : AuctionLot) (mc : MultiCaller) :
    AuctionLot × MultiCaller :=
  (c, (AddCall mc c.mgr (.details .RemainingRplAmount) "getLotRemainingRPLAmount"
    [.bigInt c.Details.Index.RawValue]).1)

/-- `GetLotTotalBidAmount`: get the lot's total bid amount. -/
def AuctionLot.GetLotTotalBidAmount (c : AuctionLot) (mc : MultiCaller) :
    AuctionLot × MultiCaller :=
  (c, (AddCall mc c.mgr (.details .TotalBidAmount) "getLotTotalBidAmount"
    [.bigInt c.Details.Index.RawValue]).1)

/-- `GetLotIsCleared`: check if the lot has been cleared already. -/
def AuctionLot.GetLotIsCleared (c : AuctionLot) (mc : MultiCaller) : AuctionLot × MultiCaller :=
  (c, (AddCall mc c.mgr (.details .IsCleared) "getLotIsCleared"
    [.bigInt c.Details.Index.RawValue]).1)

/-- `GetLotRplRecovered`: check whether RPL has been recovered by the lot. -/
def AuctionLot.GetLotRplRecovered (c : AuctionLot) (mc : MultiCaller) :
    AuctionLot × MultiCaller :=
  (c, (AddCall mc c.mgr (.details .RplRecovered) "getLotRPLRecovered"
    [.bigInt c.Details.Index.RawValue]).1)

/-- `GetLotPriceAtBlock`: get the price of the lot at the given block (a
`uint64`); the destination is the `RawValue` of the caller's `out`. -/
def AuctionLot.GetLotPriceAtBlock (c : AuctionLot) (mc : MultiCaller) (out : Slot)
    (blockNumber : Nat) : AuctionLot × MultiCaller :=
  (c, (AddCall mc c.mgr out "getLotPriceAtBlock"
    [.bigInt c.Details.Index.RawValue, .bigInt (big_NewInt (int64 blockNumber))]).1)

/-- `GetLotAddressBidAmount`: get the ETH amount bid on the lot by an address. -/
def AuctionLot.GetLotAddressBidAmount (c : AuctionLot) (mc : MultiCaller) (out : Slot)
    (bidder : Address) : AuctionLot × MultiCaller :=
  (c, (AddCall mc c.mgr out "getLotAddressBidAmount"
    [.bigInt c.Details.Index.RawValue, .address bidder]).1)

/-- `GetAllDetails`: get all basic details. -/
def AuctionLot.GetAllDetails (c : AuctionLot) (mc : MultiCaller) : AuctionLot × MultiCaller :=
  let (c, mc) := c.GetLotExists mc
  let (c, mc) := c.GetLotStartBlock mc
  let (c, mc) := c.GetLotEndBlock mc
  let (c, mc) := c.GetLotStartPrice mc
  let (c, mc) := c.GetLotReservePrice mc
  let (c, mc) := c.GetLotPriceAtCurrentBlock mc
  let (c, mc) := c.GetLotPriceByTotalBids mc
  let (c, mc) := c.GetLotCurrentPrice mc
  let (c, mc) := c.GetLotTotalRplAmount mc
  let (c, mc) := c.GetLotClaimedRplAmount mc
  let (c, mc) := c.GetLotRemainingRplAmount mc
  let (c, mc) := c.GetLotTotalBidAmount mc
  let (c, mc) := c.GetLotIsCleared mc
  c.GetLotRplRecovered mc

/-- Going from the trace `before` to the trace `after`, a function has only
added contract lookups, `GetTransactionGasInfo` calls and local payload
building: every remote operation added is one of the first two, and no added
operation submits a transaction. -/
def EstimatesOnly (before after : List Op) : Prop :=
  ∃ added : List Op, after = before ++ added ∧
    ∀ op ∈ added, op.isTransact = false ∧ (op.isRemote = true → op.isLookupOrGasInfo = true)

/-- The result `r` of a read method of the lot `c` run on the batch `mc`: exactly
one call request is appended to the end of the batch, it targets the auction
manager with the given method name and destination and has the lot index as
first argument; the requests already queued are unchanged and in order, the
batch is as open or closed as it was, and the lot's `Details` are unchanged. -/
def AppendsOneRead (c : AuctionLot) (mc : MultiCaller) (method : String) (output : Slot)
    (r : AuctionLot × MultiCaller) : Prop :=
  ∃ call : Call, r.2.calls = mc.calls ++ [call] ∧ call.target = c.mgr ∧
    call.method = method ∧ call.output = output ∧
    call.args.head? = some (.bigInt c.Details.Index.RawValue) ∧ r.1.Details = c.Details ∧
    r.2.closed = mc.closed

/-- The value at an entry does not have the Go type its setting type asks for:
it is not a `*big.Int` under Uint256, not a `bool` under Bool, not an address
under Address. -/
def TypeMismatch (c : SettingTypeConsts) (settingType : Nat) (value : AnyValue) : Prop :=
  (settingType = c.ProposalSettingType_Uint256 ∧ ∀ p, value ≠ .bigInt p) ∨
  (settingType = c.ProposalSettingType_Bool ∧ ∀ b, value ≠ .bool b) ∨
  (settingType = c.ProposalSettingType_Address ∧ ∀ a, value ≠ .address a)

/-- The error of `abiEncodeMultiValues` that names the entry `i` whose value
does not have the type of `settingType`. -/
def NamesIndex (c : SettingTypeConsts) (settingType : Nat) (i : Nat) (err : GoError) : Prop :=
  (settingType = c.ProposalSettingType_Uint256 ∧ err = .notBigInt i) ∨
  (settingType = c.ProposalSettingType_Bool ∧ err = .notBool i) ∨
  (settingType = c.ProposalSettingType_Address ∧ err = .notAddress i)

/-! ## Batch execution and transaction requests (package `core`, from the spec) -/

/-- The decoded return value of one call of a batch. -/
inductive ReturnValue where
  | bool (b : Bool)
  | uint (n : Int)
  | address (a : Address)
  | bytes (b : Bytes)
  deriving DecidableEq

/-- The errors of the spec's taxonomy (section 7) that the modelled parts of
package `core` report. -/
inductive CoreError where
  /-- The return value at position `index` does not have the shape of its
  destination `slot`. -/
  | DecodeError (index : Nat) (slot : Slot)
  /-- The node did not answer the batch call by call. -/
  | BatchExecutionError
  /-- A write was asked of a read-only method. -/
  | NotWritable (method : String)
  deriving DecidableEq

/-- Modelled from the spec: the decoding of a return value into a field of the
lot's `Details` by the batch engine of package `core`, which is not among the
sources. Spec 4.3: "each CallRequest's raw return bytes are decoded strictly
according to the destination slot's declared shape": a bool for a `bool`
field, an unsigned integer for a `*big.Int` field and for the `RawValue` of a
`Parameter`; `none` is a decode mismatch. -/
def AuctionLotDetails.store (d : AuctionLotDetails) (field : DetailsField) (v : ReturnValue) :
    Option AuctionLotDetails :=
  match field, v with
  | .Index, .uint n => some { d with Index := ⟨some n⟩ }
  | .Exists, .bool b => some { d with Exists := b }
  | .StartBlock, .uint n => some { d with StartBlock := ⟨some n⟩ }
  | .EndBlock, .uint n => some { d with EndBlock := ⟨some n⟩ }
  | .StartPrice, .uint n => some { d with StartPrice := ⟨some n⟩ }
  | .ReservePrice, .uint n => some { d with ReservePrice := ⟨some n⟩ }
  | .PriceAtCurrentBlock, .uint n => some { d with PriceAtCurrentBlock := ⟨some n⟩ }
  | .PriceByTotalBids, .uint n => some { d with PriceByTotalBids := ⟨some n⟩ }
  | .CurrentPrice, .uint n => some { d with CurrentPrice := ⟨some n⟩ }
  | .TotalRplAmount, .uint n => some { d with TotalRplAmount := some n }
  | .ClaimedRplAmount, .uint n => some { d with ClaimedRplAmount := some n }
  | .RemainingRplAmount, .uint n => some { d with RemainingRplAmount := some n }
  | .TotalBidAmount, .uint n => some { d with TotalBidAmount := some n }
  | .IsCleared, .bool b => some { d with IsCleared := b }
  | .RplRecovered, .bool b => some { d with RplRecovered := b }
  | _, _ => none

/-- Modelled from the spec: one step of the batch execution, the write of the
return value at position `index` into the destination of the request at the
same position. A destination outside the lot's `Details` is reported with its
value; a decode mismatch is a `DecodeError` naming the slot. -/
def storeResult (st : AuctionLotDetails × List (Slot × ReturnValue)) (index : Nat) (call : Call)
    (v : ReturnValue) : Except CoreError (AuctionLotDetails × List (Slot × ReturnValue)) :=
  match call.output with
  | .details field =>
    match st.1.store field v with
    | some d => .ok (d, st.2)
    | none => .error (.DecodeError index call.output)
  | slot => .ok (st.1, st.2 ++ [(slot, v)])

/-- Modelled from the spec: the scatter of the results of a batch "back into
each caller-supplied destination in request order" (spec 2, 4.3), from position
`index` on; it is fail-fast. -/
def executeFrom : Nat → List Call → List ReturnValue →
    AuctionLotDetails × List (Slot × ReturnValue) →
    Except CoreError (AuctionLotDetails × List (Slot × ReturnValue))
  | _, [], [], st => .ok st
  | index, call :: calls, v :: results, st =>
    match storeResult st index call v with
    | .error err => .error err
    | .ok st => executeFrom (index + 1) calls results st
  | _, _, _, _ => .error .BatchExecutionError

/-- Modelled from the spec: `Execute(batch)` of the Multicaller (spec 4.3),
which is not among the sources, for a batch whose requests the node answered
with `results`, in request order. On success every destination holds its
result: the lot with its `Details` written, and the writes to destinations
outside the lot. On an error no destination is returned. -/
def Execute (c : AuctionLot) (mc : MultiCaller) (results : List ReturnValue) :
    Except CoreError (AuctionLot × List (Slot × ReturnValue)) :=
  match executeFrom 0 mc.calls results (c.Details, []) with
  | .error err => .error err
  | .ok st => .ok ({ c with Details := st.1 }, st.2)

/-- Modelled from the spec: the host value of a `core.Parameter[float64]`,
the wire integer with "1e18 fixed-point scaling for ratios" (spec 3), as an
exact rational number; `none` while the wire integer is not set. -/
def Parameter.ratio (p : Parameter) : Option ℚ :=
  p.RawValue.map (fun raw => (raw : ℚ) / 10 ^ 18)

/-- Modelled from the spec: the host value of a `core.Parameter[uint64]`, the
wire integer itself when it fits a `uint64` (spec 4.1: "values that do not fit
the host numeric width fail ... rather than silently truncating"); `none` while
the wire integer is not set or when it does not fit. -/
def Parameter.uint64 (p : Parameter) : Option Nat :=
  match p.RawValue with
  | none => none
  | some raw => if 0 ≤ raw ∧ raw < 2 ^ 64 then some raw.toNat else none

/-- The transaction request of the spec (`core.TransactionInfo`): target,
method, arguments and signing options. -/
structure TransactionInfo where
  target : CoreContract
  method : String
  args : List Arg
  opts : Option TransactOpts
  deriving DecidableEq

/-- Modelled from the spec: `core.NewTransactionInfo(contract, method, opts,
parameters...)` of package `core`, which is not among the sources. Spec 4.2,
`BuildWrite`: "returns a TransactionRequest ready for the orchestrator; fails
with `NotWritable` if the field represents a read-only method. Side effect:
none until ... the TransactionRequest is submitted." Which methods of a
contract are read-only is given by `readOnly`. -/
def NewTransactionInfo (readOnly : CoreContract → String → Bool) (contract : CoreContract)
    (method : String) (opts : Option TransactOpts) (args : List Arg) :
    Except CoreError TransactionInfo :=
  if readOnly contract method then .error (.NotWritable method)
  else .ok ⟨contract, method, args, opts⟩

/-- `PlaceBid`: get info for placing a bid on a lot. A method with the pointer
receiver `c` returns the lot as it leaves it, and its result. -/
def AuctionLot.PlaceBid (readOnly : CoreContract → String → Bool) (c : AuctionLot)
    (opts : Option TransactOpts) : AuctionLot × Except CoreError TransactionInfo :=
  (c, NewTransactionInfo readOnly c.mgr "placeBid" opts [.bigInt c.Details.Index.RawValue])

/-- `ClaimBid`: get info for claiming RPL from a lot that was bid on. -/
def AuctionLot.ClaimBid (readOnly : CoreContract → String → Bool) (c : AuctionLot)
    (opts : Option TransactOpts) : AuctionLot × Except CoreError TransactionInfo :=
  (c, NewTransactionInfo readOnly c.mgr "claimBid" opts [.bigInt c.Details.Index.RawValue])

/-- `RecoverUnclaimedRpl`: get info for recovering unclaimed RPL from a lot. -/
def AuctionLot.RecoverUnclaimedRpl (readOnly : CoreContract → String → Bool) (c : AuctionLot)
    (opts : Option TransactOpts) : AuctionLot × Except CoreError TransactionInfo :=
  (c, NewTransactionInfo readOnly c.mgr "recoverUnclaimedRPL" opts
    [.bigInt c.Details.Index.RawValue])

/-! ## The minipool binding (minipool/common.go) -/

/-- The `core.Uint8Parameter[T]`: the wire value `RawValue` is a `uint8`. -/
structure Uint8Parameter where
  RawValue : Nat
  deriving DecidableEq

/-- Basic details about a minipool, version-agnostic (`MinipoolCommonDetails`);
a `core.Uint256Parameter[T]` is a `Parameter`, a validator pubkey is its bytes. -/
structure MinipoolCommonDetails where
  Address : Address
  Version : Nat
  NodeAddress : RocketpoolGo.Address
  Status : Uint8Parameter
  StatusBlock : Parameter
  StatusTime : Parameter
  IsFinalised : Bool
  NodeFee : Parameter
  NodeDepositBalance : Option Int
  NodeRefundBalance : Option Int
  NodeDepositAssigned : Bool
  UserDepositBalance : Option Int
  UserDepositAssigned : Bool
  UserDepositAssignedTime : Parameter
  IsUseLatestDelegateEnabled : Bool
  DelegateAddress : RocketpoolGo.Address
  PreviousDelegateAddress : RocketpoolGo.Address
  EffectiveDelegateAddress : RocketpoolGo.Address
  PenaltyCount : Parameter
  Exists : Bool
  Pubkey : Bytes
  WithdrawalCredentials : Hash
  RplSlashed : Bool
  DepositType : Uint8Parameter
  IsBondReduceCancelled : Bool
  ReduceBondTime : Parameter
  ReduceBondValue : Option Int
  LastBondReductionTime : Parameter
  LastBondReductionPrevValue : Option Int
  LastBondReductionPrevNodeFee : Parameter
  QueuePosition : Parameter
  deriving DecidableEq

/-- Basic binding for version-agnostic minipool contracts (`minipoolCommon`):
the embedded details and the contracts; the manager `rp` is a collaborator. -/
structure minipoolCommon where
  Details : MinipoolCommonDetails
  contract : CoreContract
  mpMgr : CoreContract
  mpQueue : CoreContract
  mpStatus : CoreContract
  deriving DecidableEq

/-- `GetExists`: check if a minipool exists. A method with the pointer receiver
`c` returns the binding as it leaves it, and the batch. -/
def minipoolCommon.GetExists (c : minipoolCommon) (mc : MultiCaller) :
    minipoolCommon × MultiCaller :=
  (c, (AddCall mc c.mpMgr (.minipool .Exists) "getMinipoolExists"
    [.address c.Details.Address]).1)

/-- `GetPubkey`: get the minipool's pubkey. -/
def minipoolCommon.GetPubkey (c : minipoolCommon) (mc : MultiCaller) :
    minipoolCommon × MultiCaller :=
  (c, (AddCall mc c.mpMgr (.minipool .Pubkey) "getMinipoolPubkey"
    [.address c.Details.Address]).1)

/-- `GetWithdrawalCredentials`: get the minipool's 0x01-based withdrawal
credentials. -/
def minipoolCommon.GetWithdrawalCredentials (c : minipoolCommon) (mc : MultiCaller) :
    minipoolCommon × MultiCaller :=
  (c, (AddCall mc c.mpMgr (.minipool .WithdrawalCredentials) "getMinipoolWithdrawalCredentials"
    [.address c.Details.Address]).1)

/-- `GetRplSlashed`: check if the minipool's RPL has been slashed. The
destination in the source is `&c.WithdrawalCredentials`. -/
def minipoolCommon.GetRplSlashed (c : minipoolCommon) (mc : MultiCaller) :
    minipoolCommon × MultiCaller :=
  (c, (AddCall mc c.mpMgr (.minipool .WithdrawalCredentials) "getMinipoolRPLSlashed"
    [.address c.Details.Address]).1)

/-- `GetDepositType`: get the minipool's deposit type. -/
def minipoolCommon.GetDepositType (c : minipoolCommon) (mc : MultiCaller) :
    minipoolCommon × MultiCaller :=
  (c, (AddCall mc c.mpMgr (.minipool .DepositType) "getMinipoolDepositType"
    [.address c.Details.Address]).1)

/-! ## Network withdrawal credentials (network/withdrawal.go) -/

/-- The `bind.CallOpts` of a read, passed through unchanged. -/
structure CallOpts where
  BlockNumber : Option Int
  deriving DecidableEq

/-- The `bind.BoundContract` returned by the contract lookup of the older API. -/
structure BoundContract where
  address : Address
  deriving DecidableEq

/-- The manager and node as `network/withdrawal.go` uses them: the lookup
`rp.GetContract(name)` and the read `contract.Call(opts, result, method)` for a
result of type `common.Hash`, which gives the 32 bytes the contract call
produced, or an error. -/
structure WithdrawalNode where
  GetContract : String → Except GoError BoundContract
  Call : BoundContract → Option CallOpts → String → Except GoError Hash

/-- The lookup `getRocketNetworkWithdrawal` (the mutex around it is not
modelled). -/
def getRocketNetworkWithdrawal (rp : WithdrawalNode) : Except GoError BoundContract :=
  rp.GetContract "rocketNetworkWithdrawal"

/-- `GetWithdrawalCredentials`: get the current network validator withdrawal
credentials. -/
def GetWithdrawalCredentials (rp : WithdrawalNode) (opts : Option CallOpts) :
    Hash × Option GoError :=
  match getRocketNetworkWithdrawal rp with
  | .error err => (Hash.zero, some err)
  | .ok rocketNetworkWithdrawal =>
    match rp.Call rocketNetworkWithdrawal opts "getWithdrawalCredentials" with
    | .error err =>
      (Hash.zero, some (.wrapped "Could not get network withdrawal credentials" err))
    | .ok withdrawalCredentials => (withdrawalCredentials, none)

/-! ## The prestake event scan (minipool/common.go, `GetPrestakeEvent`) -/

/-- The constant `eventScanInterval` (a `uint64`). -/
def eventScanInterval : Nat := 10000

/-- The Go subtraction `a - b` of two `uint64` values: it wraps around below 0. -/
def sub64 (a b : Nat) : Nat :=
  (a % 2 ^ 64 + 2 ^ 64 - b % 2 ^ 64) % 2 ^ 64

/-- The Go addition `a + b` of two `uint64` values: it wraps around at `2 ^ 64`. -/
def add64 (a b : Nat) : Nat :=
  (a + b) % 2 ^ 64

/-- The Go `x.Int64()` of a non-nil `*big.Int`: the low 64 bits of the absolute
value as an `int64`, negated (with wrap-around) for a negative `x`. -/
def big_Int64 (x : Int) : Int :=
  if 0 ≤ x then int64 (x.natAbs % 2 ^ 64) else int64 (sub64 0 (x.natAbs % 2 ^ 64))

/-- The go-ethereum `common.BytesToHash(b)`: the last 32 bytes of `b`,
left-padded with zero bytes. -/
def BytesToHash (b : Bytes) : Hash :=
  ⟨List.replicate (32 - b.length) 0 ++ b.drop (b.length - 32), by
    simp only [List.length_append, List.length_replicate, List.length_drop]
    omega⟩

/-- A log of the node (`gethtypes.Log`), as far as it is read. -/
structure Log where
  Address : Address
  Topics : List Hash
  Data : Bytes
  BlockNumber : Nat
  deriving DecidableEq

/-- The data from a minipool's MinipoolPrestaked event (`MinipoolPrestakeEvent`). -/
structure MinipoolPrestakeEvent where
  Pubkey : Bytes
  Signature : Bytes
  DepositDataRoot : Hash
  Amount : Option Int
  WithdrawalCredentials : Bytes
  Time : Option Int
  deriving DecidableEq

/-- The zero-valued event made by `new(MinipoolPrestakeEvent)`. -/
def MinipoolPrestakeEvent.new : MinipoolPrestakeEvent :=
  ⟨[], [], Hash.zero, none, [], none⟩

/-- A Go `time.Time`: the zero value, or `time.Unix(sec, 0)`. -/
inductive GoTime where
  | zero
  | unix (sec : Int)
  deriving DecidableEq

/-- Formatted MinipoolPrestaked event data (`PrestakeData`). -/
structure PrestakeData where
  Pubkey : Bytes
  WithdrawalCredentials : Hash
  Amount : Option Int
  Signature : Bytes
  DepositDataRoot : Hash
  Time : GoTime
  deriving DecidableEq

/-- The empty data `PrestakeData{}`: a zero pubkey of 48 bytes, a zero signature
of 96 bytes, zero hashes, a nil amount and the zero time. -/
def PrestakeData.empty : PrestakeData :=
  ⟨List.replicate 48 0, Hash.zero, none, List.replicate 96 0, Hash.zero, .zero⟩

/-- The collaborators of `GetPrestakeEvent`, none of them among the sources:
the node's current block number (a `uint64`), the query of the deploy block
(what `fromBlockBig` points to afterwards), `utils.GetLogs` for a window,
`UnpackLog` (the event as the call leaves it, and the error it returns), and
the conversions `c.Address.Hex()`, `types.BytesToValidatorPubkey` and
`types.BytesToValidatorSignature`. -/
structure PrestakeNode where
  BlockNumber : Except GoError Nat
  QueryDeployBlock : Option CallOpts → Except GoError (Option Int)
  GetLogs : List Address → Option Int → Int → Int → Except GoError (List Log)
  UnpackLog : Log → MinipoolPrestakeEvent × Option GoError
  AddressHex : Address → String
  BytesToValidatorPubkey : Bytes → Bytes
  BytesToValidatorSignature : Bytes → Bytes

/-- The loop `for i := currentBlock; i >= fromBlock; i -= eventScanInterval` of
`GetPrestakeEvent`, the backwards scan through blocks to find the event, in
`uint64` arithmetic, for at most `fuel` evaluations of the loop condition
(`none`: the loop has not ended by then). It gives the log found (`none` when
the loop ends without one) or the error returned from inside the loop, and the
number of windows scanned, counted from `windows`. -/
def scanLoop (n : PrestakeNode) (address : Address) (intervalSize : Option Int)
    (fromBlock : Nat) : Nat → Nat → Nat → Option (Except GoError (Option Log) × Nat)
  | 0, _, _ => none
  | fuel + 1, i, windows =>
    if i ≥ fromBlock then
      let from_ := add64 (sub64 i eventScanInterval) 1
      let from_ := if from_ < fromBlock then fromBlock else from_
      match n.GetLogs [address] intervalSize (from_ : Int) (i : Int) with
      | .error err =>
        some (.error (.wrapped
          ("error getting prestake logs for minipool " ++ n.AddressHex address) err), windows + 1)
      | .ok [] => scanLoop n address intervalSize fromBlock fuel (sub64 i eventScanInterval)
          (windows + 1)
      | .ok (log :: _) => some (.ok (some log), windows + 1)
    else some (.ok none, windows)

/-- `GetPrestakeEvent`: get the data from this minipool's MinipoolPrestaked
event; `fuel` bounds the scan loop (`none`: the function has not returned by
then). After the loop the variable `err` is the one assigned by the deploy
block query (nil at this point: the loop declares its own `err`), and the
result of `UnpackLog` is not assigned to it. -/
def minipoolCommon.GetPrestakeEvent (n : PrestakeNode) (c : minipoolCommon)
    (intervalSize : Option Int) (opts : Option CallOpts) (fuel : Nat) :
    Option (Outcome (PrestakeData × Option GoError)) :=
  match n.BlockNumber with
  | .error err =>
    some (.returned (PrestakeData.empty, some (.wrapped
      ("error getting current block " ++ n.AddressHex c.Details.Address) err)))
  | .ok currentBlock =>
    match n.QueryDeployBlock opts with
    | .error err =>
      some (.returned (PrestakeData.empty, some (.wrapped
        ("error getting deploy block " ++ n.AddressHex c.Details.Address) err)))
    | .ok none => some .panicked
    | .ok (some fromBlockBig) =>
      let err : Option GoError := none
      let fromBlock := big_Uint64 fromBlockBig
      match scanLoop n c.Details.Address intervalSize fromBlock fuel currentBlock 0 with
      | none => none
      | some (.error loopErr, _) => some (.returned (PrestakeData.empty, some loopErr))
      | some (.ok none, _) =>
        some (.returned (PrestakeData.empty, some (.errorf
          ("error finding prestake log for minipool " ++ n.AddressHex c.Details.Address))))
      | some (.ok (some log), _) =>
        let prestakeEvent := (n.UnpackLog log).1
        match err with
        | some err =>
          some (.returned (PrestakeData.empty,
            some (.wrapped "error unpacking prestake data" err)))
        | none =>
          match prestakeEvent.Time with
          | none => some .panicked
          | some time =>
            some (.returned
              ({ Pubkey := n.BytesToValidatorPubkey prestakeEvent.Pubkey
                 WithdrawalCredentials := BytesToHash prestakeEvent.WithdrawalCredentials
                 Amount := prestakeEvent.Amount
                 Signature := n.BytesToValidatorSignature prestakeEvent.Signature
                 DepositDataRoot := prestakeEvent.DepositDataRoot
                 Time := .unix (big_Int64 time) }, none))

/-! ## Protocol DAO settings (dao/protocol/settings.go) -/

/-- The Go type of a setting binding: `ProtocolDaoBoolSetting`,
`ProtocolDaoUintSetting`, or `ProtocolDaoCompoundSetting[T]` with the name of
`T`. -/
inductive SettingType where
  | Bool
  | Uint
  | Compound (dataType : String)
  deriving DecidableEq

/-- A setting binding, as the constructors `newBoolSetting`, `newUintSetting`
and `newCompoundSetting[T]` (declared in another file of the package) make it:
it is kept as its Go type, the settings contract and the setting path it was
made from. -/
structure Setting where
  kind : SettingType
  contract : CoreContract
  path : String
  deriving DecidableEq

/-- The call `newBoolSetting(contract, pdaoMgr, path)`. -/
def newBoolSetting (contract : CoreContract) (path : String) : Setting :=
  ⟨.Bool, contract, path⟩

/-- The call `newUintSetting(contract, pdaoMgr, path)`. -/
def newUintSetting (contract : CoreContract) (path : String) : Setting :=
  ⟨.Uint, contract, path⟩

/-- The call `newCompoundSetting[T](contract, pdaoMgr, path)`. -/
def newCompoundSetting (dataType : String) (contract : CoreContract) (path : String) :
    Setting :=
  ⟨.Compound dataType, contract, path⟩

/-- Binding for Protocol DAO settings (`ProtocolDaoSettings`): the eight
category structs, each as the list of its fields (name and setting) in
declaration order, and the eight settings contracts; the internal fields `rp`
and `pdaoMgr` are collaborators. -/
structure ProtocolDaoSettings where
  Auction : List (String × Setting)
  Deposit : List (String × Setting)
  Inflation : List (String × Setting)
  Minipool : List (String × Setting)
  Network : List (String × Setting)
  Proposals : List (String × Setting)
  Node : List (String × Setting)
  Rewards : List (String × Setting)
  dps_auction : CoreContract
  dps_deposit : CoreContract
  dps_inflation : CoreContract
  dps_minipool : CoreContract
  dps_network : CoreContract
  dps_node : CoreContract
  dps_proposals : CoreContract
  dps_rewards : CoreContract
  deriving DecidableEq

/-- The contract names passed to `rp.GetContracts` by `newProtocolDaoSettings`
(the `rocketpool.ContractName_RocketDAOProtocolSettings...` constants). -/
def settingsContractNames : List String :=
  ["rocketDAOProtocolSettingsAuction", "rocketDAOProtocolSettingsDeposit",
    "rocketDAOProtocolSettingsInflation", "rocketDAOProtocolSettingsMinipool",
    "rocketDAOProtocolSettingsNetwork", "rocketDAOProtocolSettingsNode",
    "rocketDAOProtocolSettingsProposals", "rocketDAOProtocolSettingsRewards"]

/-- `newProtocolDaoSettings`: creates a new ProtocolDaoSettings binding from the
contracts that `rp.GetContracts` returns; indexing `contracts[0]` to
`contracts[7]` panics when fewer are returned. -/
def newProtocolDaoSettings (GetContracts : List String → Except GoError (List CoreContract)) :
    Outcome (Except GoError ProtocolDaoSettings) :=
  match GetContracts settingsContractNames with
  | .error err =>
    .returned (.error (.wrapped "error getting protocol DAO settings contracts" err))
  | .ok contracts =>
    match contracts[0]?, contracts[1]?, contracts[2]?, contracts[3]?, contracts[4]?,
      contracts[5]?, contracts[6]?, contracts[7]? with
    | some dps_auction, some dps_deposit, some dps_inflation, some dps_minipool,
      some dps_network, some dps_node, some dps_proposals, some dps_rewards =>
      .returned (.ok
        { dps_auction := dps_auction
          dps_deposit := dps_deposit
          dps_inflation := dps_inflation
          dps_minipool := dps_minipool
          dps_network := dps_network
          dps_node := dps_node
          dps_proposals := dps_proposals
          dps_rewards := dps_rewards
          Auction := [
            ("IsCreateLotEnabled", newBoolSetting dps_auction "auction.lot.create.enabled"),
            ("IsBidOnLotEnabled", newBoolSetting dps_auction "auction.lot.bidding.enabled"),
            ("LotMinimumEthValue", newUintSetting dps_auction "auction.lot.value.minimum"),
            ("LotMaximumEthValue", newUintSetting dps_auction "auction.lot.value.maximum"),
            ("LotDuration", newCompoundSetting "uint64" dps_auction "auction.lot.duration"),
            ("LotStartingPriceRatio", newCompoundSetting "float64" dps_auction "auction.price.start"),
            ("LotReservePriceRatio", newCompoundSetting "float64" dps_auction "auction.price.reserve") ]
          Deposit := [
            ("IsDepositingEnabled", newBoolSetting dps_deposit "deposit.enabled"),
            ("AreDepositAssignmentsEnabled", newBoolSetting dps_deposit "deposit.assign.enabled"),
            ("MinimumDeposit", newUintSetting dps_deposit "deposit.minimum"),
            ("MaximumDepositPoolSize", newUintSetting dps_deposit "deposit.pool.maximum"),
            ("MaximumAssignmentsPerDeposit", newCompoundSetting "uint64" dps_deposit "deposit.assign.maximum"),
            ("MaximumSocialisedAssignmentsPerDeposit", newCompoundSetting "uint64" dps_deposit "deposit.assign.socialised.maximum"),
            ("DepositFee", newCompoundSetting "float64" dps_deposit "deposit.fee") ]
          Inflation := [
            ("IntervalRate", newCompoundSetting "float64" dps_inflation "rpl.inflation.interval.rate"),
            ("StartTime", newCompoundSetting "time.Time" dps_inflation "rpl.inflation.interval.start") ]
          Minipool := [
            ("IsSubmitWithdrawableEnabled", newBoolSetting dps_minipool "minipool.submit.withdrawable.enabled"),
            ("LaunchTimeout", newCompoundSetting "time.Duration" dps_minipool "minipool.launch.timeout"),
            ("IsBondReductionEnabled", newBoolSetting dps_minipool "minipool.bond.reduction.enabled"),
            ("MaximumCount", newCompoundSetting "uint64" dps_minipool "minipool.maximum.count"),
            ("UserDistributeWindowStart", newCompoundSetting "time.Duration" dps_minipool "minipool.user.distribute.window.start"),
            ("UserDistributeWindowLength", newCompoundSetting "time.Duration" dps_minipool "minipool.user.distribute.window.length") ]
          Network := [
            ("OracleDaoConsensusThreshold", newCompoundSetting "float64" dps_network "network.consensus.threshold"),
            ("NodePenaltyThreshold", newCompoundSetting "float64" dps_network "network.penalty.threshold"),
            ("PerPenaltyRate", newCompoundSetting "float64" dps_network "network.penalty.per.rate"),
            ("IsSubmitBalancesEnabled", newBoolSetting dps_network "network.submit.balances.enabled"),
            ("SubmitBalancesFrequency", newCompoundSetting "uint64" dps_network "network.submit.balances.frequency"),
            ("IsSubmitPricesEnabled", newBoolSetting dps_network "network.submit.prices.enabled"),
            ("SubmitPricesFrequency", newCompoundSetting "uint64" dps_network "network.submit.prices.frequency"),
            ("MinimumNodeFee", newCompoundSetting "float64" dps_network "network.node.fee.minimum"),
            ("TargetNodeFee", newCompoundSetting "float64" dps_network "network.node.fee.target"),
            ("MaximumNodeFee", newCompoundSetting "float64" dps_network "network.node.fee.maximum"),
            ("NodeFeeDemandRange", newUintSetting dps_network "network.node.fee.demand.range"),
            ("TargetRethCollateralRate", newCompoundSetting "float64" dps_network "network.reth.collateral.target"),
            ("NetworkPenaltyThreshold", newCompoundSetting "float64" dps_network "network.penalty.threshold"),
            ("NetworkPenaltyPerRate", newCompoundSetting "float64" dps_network "network.penalty.per.rate"),
            ("IsSubmitRewardsEnabled", newBoolSetting dps_network "network.submit.rewards.enabled") ]
          Proposals := [
            ("VoteTime", newCompoundSetting "time.Duration" dps_proposals "proposal.vote.time"),
            ("VoteDelayTime", newCompoundSetting "time.Duration" dps_proposals "proposal.vote.delay.time"),
            ("ExecuteTime", newCompoundSetting "time.Duration" dps_proposals "proposal.execute.time"),
            ("ProposalBond", newUintSetting dps_proposals "proposal.bond"),
            ("ChallengeBond", newUintSetting dps_proposals "proposal.challenge.bond"),
            ("ChallengePeriod", newCompoundSetting "time.Duration" dps_proposals "proposal.challenge.period"),
            ("ProposalQuorum", newCompoundSetting "float64" dps_proposals "proposal.quorum"),
            ("ProposalVetoQuorum", newCompoundSetting "float64" dps_proposals "proposal.veto.quorum"),
            ("PropoaslMaxBlockAge", newCompoundSetting "uint64" dps_proposals "proposal.max.block.age") ]
          Node := [
            ("IsRegistrationEnabled", newBoolSetting dps_node "node.registration.enabled"),
            ("IsSmoothingPoolRegistrationEnabled", newBoolSetting dps_node "node.smoothing.pool.registration.enabled"),
            ("IsDepositingEnabled", newBoolSetting dps_node "node.deposit.enabled"),
            ("AreVacantMinipoolsEnabled", newBoolSetting dps_node "node.vacant.minipools.enabled"),
            ("MinimumPerMinipoolStake", newCompoundSetting "float64" dps_node "node.per.minipool.stake.minimum"),
            ("MaximumPerMinipoolStake", newCompoundSetting "float64" dps_node "node.per.minipool.stake.maximum") ]
          Rewards := [
            ("IntervalTime", newCompoundSetting "time.Duration" dps_rewards "rpl.rewards.claim.period.time") ] })
    | _, _, _, _, _, _, _, _ => .panicked

/-- A Go type as package `reflect` sees it (`reflect.Type`): a struct type with
the types of its fields, a pointer type, or another type. -/
inductive RType where
  | struct (fields : List RType)
  | ptr (elem : RType)
  | other

/-- A Go value as package `reflect` sees it (`reflect.Value`): a struct with
its fields, a pointer, a pointer to a setting binding, or another value. -/
inductive RValue where
  | struct (fields : List RValue)
  | ptr (elem : RValue)
  | setting (s : Setting)
  | other

/-- Whether `t.Kind() == reflect.Struct`. -/
def RType.isStruct : RType → Bool
  | .struct _ => true
  | _ => false

/-- The call `t.NumField()`: it panics when the kind of `t` is not Struct. -/
def RType.NumField : RType → Outcome Nat
  | .struct fields => .returned fields.length
  | _ => .panicked

/-- The type `t.Field(i).Type`: it panics when the kind of `t` is not Struct or
`i` is out of range. -/
def RType.Field : RType → Nat → Outcome RType
  | .struct fields, i =>
    match fields[i]? with
    | some t => .returned t
    | none => .panicked
  | _, _ => .panicked

/-- The call `v.Field(i)`: it panics when the kind of `v` is not Struct or `i`
is out of range. -/
def RValue.Field : RValue → Nat → Outcome RValue
  | .struct fields, i =>
    match fields[i]? with
    | some v => .returned v
    | none => .panicked
  | _, _ => .panicked

/-- The type of a category struct, as `reflect` sees it: one pointer field per
setting. -/
def categoryType (fields : List (String × Setting)) : RType :=
  .struct (fields.map (fun _ => .ptr .other))

/-- The value of a category struct, as `reflect` sees it. -/
def categoryValue (fields : List (String × Setting)) : RValue :=
  .struct (fields.map (fun f => .setting f.2))

/-- The struct type `ProtocolDaoSettings`, as `reflect` sees it: the eight
category structs in declaration order, then the ten internal pointer fields. -/
def ProtocolDaoSettings.structType (c : ProtocolDaoSettings) : RType :=
  .struct ([categoryType c.Auction, categoryType c.Deposit, categoryType c.Inflation,
    categoryType c.Minipool, categoryType c.Network, categoryType c.Proposals,
    categoryType c.Node, categoryType c.Rewards] ++ List.replicate 10 (.ptr .other))

/-- The struct value of a `ProtocolDaoSettings`, as `reflect` sees it. -/
def ProtocolDaoSettings.structValue (c : ProtocolDaoSettings) : RValue :=
  .struct ([categoryValue c.Auction, categoryValue c.Deposit, categoryValue c.Inflation,
    categoryValue c.Minipool, categoryValue c.Network, categoryValue c.Proposals,
    categoryValue c.Node, categoryValue c.Rewards] ++ List.replicate 10 (.ptr .other))

/-- Which setting types satisfy the interfaces `IProtocolDaoSetting[bool]` and
`IProtocolDaoSetting[*big.Int]` (declared in another file of the package). -/
structure SettingInterfaces where
  isBoolSetting : SettingType → Bool
  isUintSetting : SettingType → Bool

/-- The inner loop `for j := 0; j < settingCount; j++` of `GetSettings`, for the
`remaining` values of `j`; its body reads `categoryFieldVal.Field(i)`, with the
index `i` of the outer loop, and tries the two type assertions on it. -/
def settingsInnerLoop (ifc : SettingInterfaces) (categoryFieldVal : RValue) (i : Nat) :
    Nat → List Setting × List Setting → Outcome (List Setting × List Setting)
  | 0, acc => .returned acc
  | remaining + 1, (boolSettings, uintSettings) =>
    match categoryFieldVal.Field i with
    | .panicked => .panicked
    | .returned (.setting setting) =>
      if ifc.isBoolSetting setting.kind then
        settingsInnerLoop ifc categoryFieldVal i remaining
          (boolSettings ++ [setting], uintSettings)
      else if ifc.isUintSetting setting.kind then
        settingsInnerLoop ifc categoryFieldVal i remaining
          (boolSettings, uintSettings ++ [setting])
      else settingsInnerLoop ifc categoryFieldVal i remaining (boolSettings, uintSettings)
    | .returned _ =>
      settingsInnerLoop ifc categoryFieldVal i remaining (boolSettings, uintSettings)

/-- The outer loop `for i := 0; i < fieldCount; i++` of `GetSettings`, from `i`
on, for the `remaining` fields. -/
def settingsOuterLoop (ifc : SettingInterfaces) (settingsType : RType) (settingsVal : RValue) :
    Nat → Nat → List Setting × List Setting → Outcome (List Setting × List Setting)
  | 0, _, acc => .returned acc
  | remaining + 1, i, acc =>
    match settingsType.Field i with
    | .panicked => .panicked
    | .returned categoryFieldType =>
      if categoryFieldType.isStruct then
        match settingsVal.Field i with
        | .panicked => .panicked
        | .returned categoryFieldVal =>
          match categoryFieldType.NumField with
          | .panicked => .panicked
          | .returned settingCount =>
            match settingsInnerLoop ifc categoryFieldVal i settingCount acc with
            | .panicked => .panicked
            | .returned acc =>
              settingsOuterLoop ifc settingsType settingsVal remaining (i + 1) acc
      else settingsOuterLoop ifc settingsType settingsVal remaining (i + 1) acc

/-- The body of `GetSettings` for the type `settingsType` and the value
`settingsVal` that `reflect.TypeOf(c)` and `reflect.ValueOf(c)` give: the lists
of bool settings and of uint settings. -/
def reflectSettings (ifc : SettingInterfaces) (settingsType : RType) (settingsVal : RValue) :
    Outcome (List Setting × List Setting) :=
  match settingsType.NumField with
  | .panicked => .panicked
  | .returned fieldCount => settingsOuterLoop ifc settingsType settingsVal fieldCount 0 ([], [])

/-- `GetSettings`: get all of the settings, organized by the type used in
proposals and bootstraps. The receiver `c` is a `*ProtocolDaoSettings`, so
`reflect.TypeOf(c)` is a pointer type and `reflect.ValueOf(c)` a pointer. -/
def ProtocolDaoSettings.GetSettings (ifc : SettingInterfaces) (c : ProtocolDaoSettings) :
    Outcome (List Setting × List Setting) :=
  reflectSettings ifc (.ptr c.structType) (.ptr c.structValue)

/-- The setting fields of the binding in declaration order, each with the name
of its category and its field name. -/
def ProtocolDaoSettings.fields (c : ProtocolDaoSettings) : List (String × String × Setting) :=
  c.Auction.map (fun f => ("Auction", f.1, f.2)) ++
  c.Deposit.map (fun f => ("Deposit", f.1, f.2)) ++
  c.Inflation.map (fun f => ("Inflation", f.1, f.2)) ++
  c.Minipool.map (fun f => ("Minipool", f.1, f.2)) ++
  c.Network.map (fun f => ("Network", f.1, f.2)) ++
  c.Proposals.map (fun f => ("Proposals", f.1, f.2)) ++
  c.Node.map (fun f => ("Node", f.1, f.2)) ++
  c.Rewards.map (fun f => ("Rewards", f.1, f.2))

/-- The setting paths of the fields of the binding, in declaration order. -/
def ProtocolDaoSettings.paths (c : ProtocolDaoSettings) : List String :=
  c.fields.map (fun f => f.2.2.path)

/-- The setting path identifies the setting: no two distinct setting fields
bound to the same settings contract carry the same setting path string. -/
def PathIdentifiesSetting (c : ProtocolDaoSettings) : Prop :=
  ∀ (i j : Nat) (f g : String × String × Setting),
    c.fields[i]? = some f → c.fields[j]? = some g → i ≠ j →
    f.2.2.contract = g.2.2.contract → f.2.2.path ≠ g.2.2.path

/-! ## The RPL token binding (tokens/rpl.go) and the test utilities (tests/utils.go) -/

/-- The contract name constant `rocketpool.ContractName_RocketTokenRPL`. -/
def ContractName_RocketTokenRPL : String := "rocketTokenRPL"

/-- The contract name constant `rocketpool.ContractName_RocketTokenRPLFixedSupply`. -/
def ContractName_RocketTokenRPLFixedSupply : String := "rocketTokenRPLFixedSupply"

/-- The contract name constant `rocketpool.ContractName_RocketDAONodeTrustedActions`. -/
def ContractName_RocketDAONodeTrustedActions : String := "rocketDAONodeTrustedActions"

/-- A field binding made by `core.NewSimpleField` or
`core.NewFormattedUint256Field`: the contract and the method it reads. -/
structure FieldBinding where
  contract : CoreContract
  method : String
  deriving DecidableEq

/-- Binding for RocketTokenRPL (`TokenRpl`); the manager `rp` and the
transaction manager `txMgr` are collaborators. -/
structure TokenRpl where
  TotalSupply : FieldBinding
  InflationInterval : FieldBinding
  InflationIntervalRate : FieldBinding
  InflationIntervalStartTime : FieldBinding
  rpl : CoreContract
  deriving DecidableEq

/-- `NewTokenRpl`: creates a new TokenRpl contract binding. -/
def NewTokenRpl (GetContract : String → Except GoError CoreContract) : Except GoError TokenRpl :=
  match GetContract ContractName_RocketTokenRPL with
  | .error err => .error (.wrapped "error getting RPL contract" err)
  | .ok rpl =>
    .ok
      { TotalSupply := ⟨rpl, "totalSupply"⟩
        InflationInterval := ⟨rpl, "getInflationIntervalTime"⟩
        InflationIntervalRate := ⟨rpl, "getInflationIntervalRate"⟩
        InflationIntervalStartTime := ⟨rpl, "getInflationIntervalStartTime"⟩
        rpl := rpl }

/-- `TokenRpl.Approve`: get info for approving RPL's usage by a spender. The
builder `c.txMgr.CreateTransactionInfo` is taken as the transaction builder of
the specification. -/
def TokenRpl.Approve (readOnly : CoreContract → String → Bool) (c : TokenRpl)
    (spender : Address) (amount : Option Int) (opts : Option TransactOpts) :
    Except CoreError TransactionInfo :=
  NewTransactionInfo readOnly c.rpl "approve" opts [.address spender, .bigInt amount]

/-- `TokenRpl.SwapFixedSupplyRplForRpl`: get info for swapping fixed-supply RPL
for new RPL tokens. -/
def TokenRpl.SwapFixedSupplyRplForRpl (readOnly : CoreContract → String → Bool) (c : TokenRpl)
    (amount : Option Int) (opts : Option TransactOpts) : Except CoreError TransactionInfo :=
  NewTransactionInfo readOnly c.rpl "swapTokens" opts [.bigInt amount]

/-- A test account (`Account`): its address and its transactor. -/
structure Account where
  Address : Address
  Transactor : Option TransactOpts
  deriving DecidableEq

/-- The node binding `node.Node`, as far as the test utilities use it. -/
structure Node where
  Address : Address
  deriving DecidableEq

/-- `MintLegacyRpl`: mint old RPL for unit testing; the error is the lookup's
(wrapped) or the builder's. -/
def MintLegacyRpl (readOnly : CoreContract → String → Bool)
    (GetContract : String → Except GoError CoreContract) (ownerAccount toAccount : Account)
    (amount : Option Int) : Except (GoError ⊕ CoreError) TransactionInfo :=
  match GetContract ContractName_RocketTokenRPLFixedSupply with
  | .error err => .error (.inl (.wrapped "error creating legacy RPL contract" err))
  | .ok fsrpl =>
    match NewTransactionInfo readOnly fsrpl "mint" ownerAccount.Transactor
        [.address toAccount.Address, .bigInt amount] with
    | .error err => .error (.inr err)
    | .ok info => .ok info

/-- A transaction creator handed to the orchestrator: a function literal of the
source, by the call in its body and the values of the variables it captures. -/
inductive Creator where
  /-- The creator `node.Register(timezone, account.Transactor)`. -/
  | Register (node : Node) (timezone : String) (opts : Option TransactOpts)
  /-- The creator `odaoMgr.BootstrapMember(id, url, nodeAccount.Address, owner.Transactor)`. -/
  | BootstrapMember (id url : String) (nodeAddress : Address) (opts : Option TransactOpts)
  /-- The creator `MintLegacyRpl(rp, owner, nodeAccount, rplBond)`. -/
  | MintLegacyRpl (ownerAccount toAccount : Account) (amount : Option Int)
  /-- The creator `fsrpl.Approve(*rplContract.Address, rplBond, nodeAccount.Transactor)`. -/
  | FsrplApprove (spender : Address) (amount : Option Int) (opts : Option TransactOpts)
  /-- The creator `rpl.SwapFixedSupplyRplForRpl(rplBond, nodeAccount.Transactor)`. -/
  | SwapFixedSupplyRplForRpl (rpl : TokenRpl) (amount : Option Int) (opts : Option TransactOpts)
  /-- The creator `rpl.Approve(*oma.Address, rplBond, nodeAccount.Transactor)`. -/
  | RplApprove (rpl : TokenRpl) (spender : Address) (amount : Option Int)
      (opts : Option TransactOpts)
  /-- The creator `odaoMgr.Join(nodeAccount.Transactor)`. -/
  | Join (opts : Option TransactOpts)
  deriving DecidableEq

/-- The amount argument of a creator's call, for the creators that have one. -/
def Creator.amount? : Creator → Option (Option Int)
  | .MintLegacyRpl _ _ amount => some amount
  | .FsrplApprove _ amount _ => some amount
  | .SwapFixedSupplyRplForRpl _ amount _ => some amount
  | .RplApprove _ _ amount _ => some amount
  | _ => none

/-- A hand-off of write requests to the orchestrator: the call
`rp.CreateAndWaitForTransaction(creator, flag, opts)` or
`rp.BatchCreateAndWaitForTransactions(creators, flag, opts)`. -/
inductive Handoff where
  | CreateAndWaitForTransaction (creator : Creator) (flag : Bool) (opts : Option TransactOpts)
  | BatchCreateAndWaitForTransactions (creators : List Creator) (flag : Bool)
      (opts : Option TransactOpts)
  deriving DecidableEq

/-- The creators of a hand-off, in order. -/
def Handoff.creators : Handoff → List Creator
  | .CreateAndWaitForTransaction creator _ _ => [creator]
  | .BatchCreateAndWaitForTransactions creators _ _ => creators

/-- The collaborators of the test utilities, none of them among the sources:
the binding constructors `oracle.NewOracleDaoManager` and
`tokens.NewTokenRplFixedSupply` (their error), the lookup `rp.GetContract`,
`node.NewNode`, the query `rp.Query` of the member count and the RPL bond (its
error, or the value of `oSettings.Members.RplBond` afterwards), the
orchestrator (its error for a hand-off); the last two may depend on the
hand-offs made so far. -/
structure TestNetwork where
  NewOracleDaoManager : Option GoError
  GetContract : String → Except GoError CoreContract
  NewTokenRplFixedSupply : Option GoError
  NewNode : Address → Except GoError Node
  QueryRplBond : List Handoff → Except GoError (Option Int)
  Orchestrate : List Handoff → Handoff → Option GoError
  AddressHex : Address → String

/-- `RegisterNode`: registers a new Rocket Pool node; the hand-offs made so far
are `trace`. -/
def RegisterNode (env : TestNetwork) (account : Account) (timezone : String)
    (trace : List Handoff) : (Option Node × Option GoError) × List Handoff :=
  match env.NewNode account.Address with
  | .error err =>
    ((none, some (.wrapped ("error creating node " ++ env.AddressHex account.Address) err)),
      trace)
  | .ok node =>
    match env.Orchestrate trace
        (.CreateAndWaitForTransaction (.Register node timezone account.Transactor) true
          account.Transactor) with
    | some err =>
      ((none, some (.wrapped ("error registering node " ++ env.AddressHex account.Address) err)),
        trace ++ [.CreateAndWaitForTransaction (.Register node timezone account.Transactor) true
          account.Transactor])
    | none =>
      ((some node, none),
        trace ++ [.CreateAndWaitForTransaction (.Register node timezone account.Transactor) true
          account.Transactor])

/-- `BootstrapNodeToOdao`: bootstraps a node into the Oracle DAO; it gives the
node or the error, and the hand-offs to the orchestrator in order. -/
def BootstrapNodeToOdao (env : TestNetwork) (owner nodeAccount : Account)
    (timezone id url : String) : (Option Node × Option GoError) × List Handoff :=
  match env.NewOracleDaoManager with
  | some err => ((none, some (.wrapped "error getting oDAO manager binding" err)), [])
  | none =>
  match env.GetContract ContractName_RocketDAONodeTrustedActions with
  | .error err => ((none, some (.wrapped "error getting OMA contract" err)), [])
  | .ok oma =>
  match env.NewTokenRplFixedSupply with
  | some err => ((none, some (.wrapped "error getting FSRPL binding" err)), [])
  | none =>
  match NewTokenRpl env.GetContract with
  | .error err => ((none, some (.wrapped "error getting RPL binding" err)), [])
  | .ok rpl =>
  match env.GetContract ContractName_RocketTokenRPL with
  | .error err => ((none, some (.wrapped "error getting RPL contract" err)), [])
  | .ok rplContract =>
  match RegisterNode env nodeAccount timezone [] with
  | ((_, some err), trace) => ((none, some (.wrapped "error registering node" err)), trace)
  | ((node, none), trace) =>
  match env.QueryRplBond trace with
  | .error err => ((none, some (.wrapped "error getting network info" err)), trace)
  | .ok rplBond =>
  match env.Orchestrate trace
      (.BatchCreateAndWaitForTransactions
        [.BootstrapMember id url nodeAccount.Address owner.Transactor,
          .MintLegacyRpl owner nodeAccount rplBond] true owner.Transactor) with
  | some err =>
    ((none, some (.wrapped "error bootstrapping node and minting RPL" err)),
      trace ++ [.BatchCreateAndWaitForTransactions
        [.BootstrapMember id url nodeAccount.Address owner.Transactor,
          .MintLegacyRpl owner nodeAccount rplBond] true owner.Transactor])
  | none =>
  match env.Orchestrate
      (trace ++ [.BatchCreateAndWaitForTransactions
        [.BootstrapMember id url nodeAccount.Address owner.Transactor,
          .MintLegacyRpl owner nodeAccount rplBond] true owner.Transactor])
      (.BatchCreateAndWaitForTransactions
        [.FsrplApprove rplContract.address rplBond nodeAccount.Transactor,
          .SwapFixedSupplyRplForRpl rpl rplBond nodeAccount.Transactor,
          .RplApprove rpl oma.address rplBond nodeAccount.Transactor,
          .Join nodeAccount.Transactor] false nodeAccount.Transactor) with
  | some err =>
    ((none, some (.wrapped "error joining oDAO" err)),
      trace ++ [.BatchCreateAndWaitForTransactions
        [.BootstrapMember id url nodeAccount.Address owner.Transactor,
          .MintLegacyRpl owner nodeAccount rplBond] true owner.Transactor,
        .BatchCreateAndWaitForTransactions
        [.FsrplApprove rplContract.address rplBond nodeAccount.Transactor,
          .SwapFixedSupplyRplForRpl rpl rplBond nodeAccount.Transactor,
          .RplApprove rpl oma.address rplBond nodeAccount.Transactor,
          .Join nodeAccount.Transactor] false nodeAccount.Transactor])
  | none =>
    ((node, none),
      trace ++ [.BatchCreateAndWaitForTransactions
        [.BootstrapMember id url nodeAccount.Address owner.Transactor,
          .MintLegacyRpl owner nodeAccount rplBond] true owner.Transactor,
        .BatchCreateAndWaitForTransactions
        [.FsrplApprove rplContract.address rplBond nodeAccount.Transactor,
          .SwapFixedSupplyRplForRpl rpl rplBond nodeAccount.Transactor,
          .RplApprove rpl oma.address rplBond nodeAccount.Transactor,
          .Join nodeAccount.Transactor] false nodeAccount.Transactor])

/-- The hand-offs of a complete run of `BootstrapNodeToOdao`, in order: the node
registration, the batch that bootstraps the member and mints legacy RPL, and
the batch that approves legacy RPL for the RPL contract, swaps it for RPL,
approves RPL for the oDAO actions contract and joins. -/
def bootstrapPlan (owner nodeAccount : Account) (timezone id url : String) (node : Node)
    (oma rplContract : CoreContract) (rpl : TokenRpl) (rplBond : Option Int) : List Handoff :=
  [ .CreateAndWaitForTransaction (.Register node timezone nodeAccount.Transactor) true
      nodeAccount.Transactor,
    .BatchCreateAndWaitForTransactions
      [.BootstrapMember id url nodeAccount.Address owner.Transactor,
        .MintLegacyRpl owner nodeAccount rplBond] true owner.Transactor,
    .BatchCreateAndWaitForTransactions
      [.FsrplApprove rplContract.address rplBond nodeAccount.Transactor,
        .SwapFixedSupplyRplForRpl rpl rplBond nodeAccount.Transactor,
        .RplApprove rpl oma.address rplBond nodeAccount.Transactor,
        .Join nodeAccount.Transactor] false nodeAccount.Transactor ]

/-- What is claimed of a run `r` of `BootstrapNodeToOdao` (its result and its
hand-offs to the orchestrator, in order):
* when it succeeds it returns the node, and its hand-offs are the complete plan,
  with the contracts looked up and the RPL bond read by the query after the
  registration;
* in every case the hand-offs are an initial segment of a plan;
* every amount in a creator handed off is the RPL bond read by that query;
* when the orchestrator reports an error for a hand-off, that hand-off is the
  last one and an error is returned;
* when an error is returned, no node is returned. -/
def RunsInDependencyOrder (env : TestNetwork) (owner nodeAccount : Account)
    (timezone id url : String) (r : (Option Node × Option GoError) × List Handoff) : Prop :=
  (r.1.2 = none → ∃ node oma rplContract rpl rplBond,
    env.GetContract ContractName_RocketDAONodeTrustedActions = .ok oma ∧
    env.GetContract ContractName_RocketTokenRPL = .ok rplContract ∧
    NewTokenRpl env.GetContract = .ok rpl ∧
    env.NewNode nodeAccount.Address = .ok node ∧
    env.QueryRplBond (r.2.take 1) = .ok rplBond ∧
    r.1.1 = some node ∧
    r.2 = bootstrapPlan owner nodeAccount timezone id url node oma rplContract rpl rplBond) ∧
  (∃ node oma rplContract rpl rplBond,
    r.2 <+: bootstrapPlan owner nodeAccount timezone id url node oma rplContract rpl rplBond) ∧
  (∀ h ∈ r.2, ∀ creator ∈ h.creators, ∀ amount, creator.amount? = some amount →
    env.QueryRplBond (r.2.take 1) = .ok amount) ∧
  (∀ (i : Nat) (h : Handoff), r.2[i]? = some h → env.Orchestrate (r.2.take i) h ≠ none →
    r.2.length = i + 1 ∧ r.1.2 ≠ none) ∧
  (r.1.2 ≠ none → r.1.1 = none)

/-- One of the lookups that `BootstrapNodeToOdao` makes before its first
hand-off reports an error: a binding constructor, a contract lookup or
`node.NewNode`. -/
def LookupFails (env : TestNetwork) (nodeAccount : Account) : Prop :=
  env.NewOracleDaoManager ≠ none ∨
  (∃ e, env.GetContract ContractName_RocketDAONodeTrustedActions = .error e) ∨
  env.NewTokenRplFixedSupply ≠ none ∨
  (∃ e, NewTokenRpl env.GetContract = .error e) ∨
  (∃ e, env.GetContract ContractName_RocketTokenRPL = .error e) ∨
  (∃ e, env.NewNode nodeAccount.Address = .error e)

/-- The hand-offs that a run `r` of `BootstrapNodeToOdao` has to make (a run
that hands over nothing, or stops early, does not have this property):
* when a lookup before the first hand-off fails, nothing is handed over and an
  error is returned instead of a node;
* when the lookups succeed, with the node and the contracts they give, then for
  every `k`: if the orchestrator answers the first `k` hand-offs of the plan
  without error (and, from the second hand-off on, the query after the
  registration reads the RPL bond `rplBond`), the run makes the first `k + 1`
  hand-offs of the plan, exactly these and in this order; and once all three
  are answered without error the run is the complete plan and returns the
  node and no error. -/
def CompletesPlan (env : TestNetwork) (owner nodeAccount : Account)
    (timezone id url : String) (r : (Option Node × Option GoError) × List Handoff) : Prop :=
  (LookupFails env nodeAccount → r.2 = [] ∧ r.1.1 = none ∧ r.1.2 ≠ none) ∧
  (∀ (node : Node) (oma rplContract : CoreContract) (rpl : TokenRpl) (rplBond : Option Int),
    env.NewOracleDaoManager = none →
    env.GetContract ContractName_RocketDAONodeTrustedActions = .ok oma →
    env.NewTokenRplFixedSupply = none →
    NewTokenRpl env.GetContract = .ok rpl →
    env.GetContract ContractName_RocketTokenRPL = .ok rplContract →
    env.NewNode nodeAccount.Address = .ok node →
    ∀ k : Nat,
      (∀ (j : Nat) (h : Handoff), j < k →
        (bootstrapPlan owner nodeAccount timezone id url node oma rplContract rpl rplBond)[j]?
          = some h →
        env.Orchestrate
          ((bootstrapPlan owner nodeAccount timezone id url node oma rplContract rpl
            rplBond).take j) h = none) →
      (1 ≤ k → env.QueryRplBond
        ((bootstrapPlan owner nodeAccount timezone id url node oma rplContract rpl
          rplBond).take 1) = .ok rplBond) →
      (bootstrapPlan owner nodeAccount timezone id url node oma rplContract rpl rplBond).take
          (k + 1) <+: r.2 ∧
      (3 ≤ k → r = ((some node, none),
        bootstrapPlan owner nodeAccount timezone id url node oma rplContract rpl rplBond)))

/-! ## Sample collaborators, for the concrete instances -/

/-- The hash 0x0101...01. -/
def sampleHash : Hash := ⟨List.replicate 32 1, by decide⟩

/-- A proposals contract whose packer returns the method name's length as payload. -/
def sampleContract : Contract := ⟨sampleAddress, fun method _ => .returned (.ok [method.length])⟩

/-- A world in which every remote operation succeeds and the proposal count is
`count`. -/
def sampleWorld (count : Nat) : World where
  getContract := fun _ _ => .ok sampleContract
  getProposalCount := fun _ => .ok count
  getTransactionGasInfo := fun _ _ _ _ _ => (⟨21000, 31500⟩, none)
  transact := fun _ _ _ _ _ => .ok ⟨sampleHash⟩

/-- A manager whose contract lookup succeeds. -/
def sampleRocketPool : RocketPool := ⟨fun name => .ok ⟨name, sampleAddress⟩⟩

/-- The lot with index 7 and no detail read yet. -/
def sampleLot : AuctionLot :=
  { Details :=
      { Index := ⟨some 7⟩, Exists := false, StartBlock := ⟨none⟩, EndBlock := ⟨none⟩,
        StartPrice := ⟨none⟩, ReservePrice := ⟨none⟩, PriceAtCurrentBlock := ⟨none⟩,
        PriceByTotalBids := ⟨none⟩, CurrentPrice := ⟨none⟩, TotalRplAmount := none,
        ClaimedRplAmount := none, RemainingRplAmount := none, TotalBidAmount := none,
        IsCleared := false, RplRecovered := false }
    mgr := ⟨"rocketAuctionManager", sampleAddress⟩ }

/-- A minipool binding with zero-valued details. -/
def sampleMinipool : minipoolCommon :=
  { Details :=
      { Address := sampleAddress, Version := 3, NodeAddress := sampleAddress, Status := ⟨0⟩,
        StatusBlock := ⟨none⟩, StatusTime := ⟨none⟩, IsFinalised := false, NodeFee := ⟨none⟩,
        NodeDepositBalance := none, NodeRefundBalance := none, NodeDepositAssigned := false,
        UserDepositBalance := none, UserDepositAssigned := false,
        UserDepositAssignedTime := ⟨none⟩, IsUseLatestDelegateEnabled := false,
        DelegateAddress := sampleAddress, PreviousDelegateAddress := sampleAddress,
        EffectiveDelegateAddress := sampleAddress, PenaltyCount := ⟨none⟩, Exists := false,
        Pubkey := List.replicate 48 0, WithdrawalCredentials := Hash.zero, RplSlashed := false,
        DepositType := ⟨0⟩, IsBondReduceCancelled := false, ReduceBondTime := ⟨none⟩,
        ReduceBondValue := none, LastBondReductionTime := ⟨none⟩,
        LastBondReductionPrevValue := none, LastBondReductionPrevNodeFee := ⟨none⟩,
        QueuePosition := ⟨none⟩ }
    contract := ⟨"rocketMinipool", sampleAddress⟩
    mpMgr := ⟨"rocketMinipoolManager", sampleAddress⟩
    mpQueue := ⟨"rocketMinipoolQueue", sampleAddress⟩
    mpStatus := ⟨"rocketMinipoolStatus", sampleAddress⟩ }

/-- A node at block `currentBlock`, with deploy block `deployBlock`, on which no
window holds a MinipoolPrestaked log. -/
def emptyLogsNode (currentBlock deployBlock : Nat) : PrestakeNode where
  BlockNumber := .ok currentBlock
  QueryDeployBlock := fun _ => .ok (some (deployBlock : Int))
  GetLogs := fun _ _ _ _ => .ok []
  UnpackLog := fun _ => (MinipoolPrestakeEvent.new, none)
  AddressHex := fun _ => "0x0102030405060708090A0b0c0d0e0f1011121314"
  BytesToValidatorPubkey := fun b => (b ++ List.replicate 48 0).take 48
  BytesToValidatorSignature := fun b => (b ++ List.replicate 96 0).take 96

/-- A log of the sample minipool. -/
def sampleLog : Log := ⟨sampleAddress, [sampleHash], [1, 2, 3], 18500000⟩

/-- A node at block 18500000, with deploy block 18000000, whose first window
holds a log that `UnpackLog` fails to decode, leaving the event as `event`. -/
def failingUnpackNode (event : MinipoolPrestakeEvent) : PrestakeNode where
  BlockNumber := .ok 18500000
  QueryDeployBlock := fun _ => .ok (some 18000000)
  GetLogs := fun _ _ _ _ => .ok [sampleLog]
  UnpackLog := fun _ => (event, some (.external "abi: cannot unmarshal log data"))
  AddressHex := fun _ => "0x0102030405060708090A0b0c0d0e0f1011121314"
  BytesToValidatorPubkey := fun b => (b ++ List.replicate 48 0).take 48
  BytesToValidatorSignature := fun b => (b ++ List.replicate 96 0).take 96

/-- A manager whose `GetContracts` finds every contract asked for. -/
def sampleGetContracts : List String → Except GoError (List CoreContract) :=
  fun names => .ok (names.map (fun name => ⟨name, sampleAddress⟩))

/-- The test account of the owner. -/
def sampleOwner : Account := ⟨sampleAddress, none⟩

/-- The test account of the node, at the address 0x1514...02. -/
def sampleNodeAccount : Account := ⟨⟨(List.range 20).map (21 - ·), by decide⟩, none⟩

/-- A test network on which every lookup, the query (RPL bond 1750 RPL) and
every hand-off succeed. -/
def sampleTestNetwork : TestNetwork where
  NewOracleDaoManager := none
  GetContract := fun name => .ok ⟨name, sampleAddress⟩
  NewTokenRplFixedSupply := none
  NewNode := fun address => .ok ⟨address⟩
  QueryRplBond := fun _ => .ok (some 1750000000000000000000)
  Orchestrate := fun _ _ => none
  AddressHex := fun _ => "0x1514131211100f0E0D0c0B0a0908070605040302"

/-! ## Theorems -/

theorem bitLenAux_spec : ∀ (fuel n : Nat), n < 2 ^ fuel →
    n < 2 ^ bitLenAux fuel n ∧ (n ≠ 0 → 2 ^ (bitLenAux fuel n - 1) ≤ n)
  | 0, n, h => by
    simp at h
    subst h
    simp [bitLenAux]
  | fuel + 1, n, h => by
    unfold bitLenAux
    by_cases hn : n = 0
    · simp [hn]
    · simp only [hn, if_false]
      have hlt : n / 2 < 2 ^ fuel := by
        rw [Nat.div_lt_iff_lt_mul (by decide)]
        rw [pow_succ] at h
        exact h
      obtain ⟨h1, h2⟩ := bitLenAux_spec fuel (n / 2) hlt
      refine ⟨?_, fun _ => ?_⟩
      · rw [pow_succ]
        omega
      · simp only [Nat.add_sub_cancel]
        by_cases h0 : n / 2 = 0
        · have : bitLenAux fuel (n / 2) = 0 := by
            rw [h0]; cases fuel <;> simp [bitLenAux]
          rw [this]; simp; omega
        · have h3 := h2 h0
          have : bitLenAux fuel (n / 2) = (bitLenAux fuel (n / 2) - 1) + 1 := by
            have : bitLenAux fuel (n / 2) ≠ 0 := by
              intro h4
              rw [h4] at h1
              simp at h1
              exact h0 h1
            omega
          rw [this, pow_succ]
          omega

theorem lt_two_pow_bitLen (n : Nat) : n < 2 ^ bitLen n :=
  (bitLenAux_spec n n (Nat.lt_two_pow n)).1

theorem two_pow_bitLen_le (n : Nat) (h : n ≠ 0) : 2 ^ (bitLen n - 1) ≤ n :=
  (bitLenAux_spec n n (Nat.lt_two_pow n)).2 h

theorem bitLen_le_of_lt (n k : Nat) (h : n < 2 ^ k) : bitLen n ≤ k := by
  by_cases hn : n = 0
  · subst hn
    simp [bitLen, bitLenAux]
  · have h1 := two_pow_bitLen_le n hn
    have h2 : 2 ^ (bitLen n - 1) < 2 ^ k := lt_of_le_of_lt h1 h
    have h3 := (Nat.pow_lt_pow_iff_right (by decide : 1 < 2)).1 h2
    omega

theorem ReadBits_length : ∀ (n x : Nat), (ReadBits n x).length = n
  | 0, _ => rfl
  | n + 1, x => by simp [ReadBits, ReadBits_length n]

theorem SetBytes_append_singleton (l : Bytes) (b : Nat) :
    SetBytes (l ++ [b]) = SetBytes l * 256 + b := by
  simp [SetBytes, List.foldl_append]

theorem SetBytes_ReadBits : ∀ (n x : Nat), SetBytes (ReadBits n x) = x % 256 ^ n
  | 0, x => by simp [ReadBits, SetBytes, Nat.mod_one]
  | n + 1, x => by
    rw [ReadBits, SetBytes_append_singleton, SetBytes_ReadBits n, pow_succ]
    have := Nat.mod_mul (a := 256) (b := 256 ^ n) (x := x)
    rw [Nat.mul_comm (256 ^ n) 256, this]
    omega

theorem ReadBits_lt : ∀ (n x : Nat), ∀ b ∈ ReadBits n x, b < 256
  | 0, _ => by simp [ReadBits]
  | n + 1, x => by
    intro b hb
    simp only [ReadBits, List.mem_append, List.mem_singleton] at hb
    rcases hb with hb | hb
    · exact ReadBits_lt n _ b hb
    · omega

theorem ldiff_two_pow_sub_one (k m : Nat) :
    Nat.ldiff (2 ^ k - 1) m = 2 ^ k - 1 - m % 2 ^ k := by
  apply Nat.eq_of_testBit_eq
  intro i
  have hlt : m % 2 ^ k < 2 ^ k := Nat.mod_lt _ (by positivity)
  have : 2 ^ k - 1 - m % 2 ^ k = 2 ^ k - (m % 2 ^ k + 1) := by omega
  rw [Nat.testBit_ldiff, this, Nat.testBit_two_pow_sub_succ hlt, Nat.testBit_two_pow_sub_one,
    Nat.testBit_mod_two_pow]
  cases decide (i < k) <;> simp

theorem U256_eq_emod (x : Int) : U256 x = x % 2 ^ 256 := by
  unfold U256 tt256m1
  cases x with
  | ofNat m =>
    show ((Nat.land m (2 ^ 256 - 1) : Nat) : Int) = _
    have : Nat.land m (2 ^ 256 - 1) = m % 2 ^ 256 := Nat.and_pow_two_sub_one_eq_mod m 256
    rw [this]
    simp
  | negSucc m =>
    show ((Nat.ldiff (2 ^ 256 - 1) m : Nat) : Int) = _
    rw [ldiff_two_pow_sub_one]
    rw [Int.negSucc_emod _ (by positivity)]
    have hlt : m % 2 ^ 256 < 2 ^ 256 := Nat.mod_lt _ (by positivity)
    have h1 : ((2 ^ 256 - 1 - m % 2 ^ 256 : Nat) : Int)
        = ((2 ^ 256 - 1 : Nat) : Int) - ((m % 2 ^ 256 : Nat) : Int) :=
      Nat.cast_sub (Nat.le_sub_one_of_lt hlt)
    rw [h1]
    norm_num

theorem PaddedBigBytes_of_lt (x : Nat) (h : x < 2 ^ 256) :
    (PaddedBigBytes (x : Int) 32).length = 32 ∧ SetBytes (PaddedBigBytes (x : Int) 32) = x := by
  have hbl : bitLen x ≤ 256 := bitLen_le_of_lt x 256 h
  have h256 : (256 : Nat) ^ 32 = 2 ^ 256 := by norm_num
  unfold PaddedBigBytes
  simp only [Int.natAbs_ofNat, ge_iff_le]
  split
  · rename_i hge
    have hb : bitLen x = 256 := by omega
    simp only [bigBytes, Int.natAbs_ofNat, hb]
    refine ⟨ReadBits_length _ _, ?_⟩
    rw [SetBytes_ReadBits]
    apply Nat.mod_eq_of_lt
    rw [show (256 + 7) / 8 = 32 from rfl, h256]
    exact h
  · refine ⟨ReadBits_length _ _, ?_⟩
    rw [SetBytes_ReadBits, h256]
    exact Nat.mod_eq_of_lt h

theorem U256_toNat_lt (x : Int) : (U256 x).toNat < 2 ^ 256 ∧ ((U256 x).toNat : Int) = x % 2 ^ 256 := by
  rw [U256_eq_emod]
  have h0 : (0 : Int) ≤ x % 2 ^ 256 := Int.emod_nonneg _ (by norm_num)
  have h1 : x % 2 ^ 256 < 2 ^ 256 := Int.emod_lt_of_pos _ (by norm_num)
  refine ⟨?_, Int.toNat_of_nonneg h0⟩
  zify
  rw [Int.toNat_of_nonneg h0]
  exact h1

theorem U256Bytes_length (x : Int) : (U256Bytes x).length = 32 := by
  unfold U256Bytes
  have h := PaddedBigBytes_of_lt (U256 x).toNat (U256_toNat_lt x).1
  rw [(U256_toNat_lt x).2, ← U256_eq_emod] at h
  exact h.1

theorem SetBytes_U256Bytes (x : Int) : (SetBytes (U256Bytes x) : Int) = x % 2 ^ 256 := by
  unfold U256Bytes
  have h := PaddedBigBytes_of_lt (U256 x).toNat (U256_toNat_lt x).1
  have h2 := (U256_toNat_lt x).2
  rw [h2, ← U256_eq_emod] at h
  rw [h.2, h2]

theorem LeftPadBytes_address (a : Address) :
    LeftPadBytes a.bytes 32 = List.replicate 12 0 ++ a.bytes := by
  simp [LeftPadBytes, a.size_eq]

theorem encodeArg_valid (c : SettingTypeConsts) (i settingType : Nat) (value : AnyValue)
    (h : ValidEntry c settingType value) :
    ∃ e, encodeArg c i settingType value = .returned (.ok e) ∧ encodingOf value = some e ∧
      e.length = 32 := by
  rcases h with ⟨ht, x, hv⟩ | ⟨ht, b, hv⟩ | ⟨ht, a, hv⟩
  · subst ht hv
    exact ⟨U256Bytes x, by simp [encodeArg], rfl, U256Bytes_length x⟩
  · subst ht hv
    have hne := c.uint256_ne_bool
    cases b
    · exact ⟨PaddedBigBytes 0 32, by simp [encodeArg, Ne.symm hne], rfl, by decide⟩
    · exact ⟨PaddedBigBytes 1 32, by simp [encodeArg, Ne.symm hne], rfl, by decide⟩
  · subst ht hv
    have h1 := c.uint256_ne_address
    have h2 := c.bool_ne_address
    refine ⟨LeftPadBytes a.bytes 32, by simp [encodeArg, Ne.symm h1, Ne.symm h2], rfl, ?_⟩
    rw [LeftPadBytes_address]
    simp [a.size_eq]

theorem take_succ_set (l : List Bytes) (i : Nat) (e : Bytes) (h : i < l.length) :
    (l.set i e).take (i + 1) = l.take i ++ [e] := by
  rw [List.set_eq_take_append_cons_drop, if_pos h]
  have hlen : (l.take i).length = i := by simp; omega
  rw [List.take_append_eq_append_take, hlen]
  simp [List.take_of_length_le, hlen]

/-- The loop runs through a prefix of valid entries without returning: it
reaches the entry after the prefix with the encodings of the prefix stored in
`results`, which is otherwise unchanged. -/
theorem encodeLoop_through_valid (c : SettingTypeConsts) :
    ∀ (ts₁ : List Nat) (vs₁ : List AnyValue), List.Forall₂ (ValidEntry c) ts₁ vs₁ →
    ∀ (pre rest : List AnyValue) (ts₂ : List Nat) (results : List Bytes),
      pre.length + ts₁.length ≤ results.length →
      ∃ encs : List Bytes, vs₁.map encodingOf = encs.map some ∧ (∀ e ∈ encs, e.length = 32) ∧
        encodeLoop c (pre ++ vs₁ ++ rest) pre.length (ts₁ ++ ts₂) results =
          encodeLoop c (pre ++ vs₁ ++ rest) (pre.length + ts₁.length) ts₂
            (results.take pre.length ++ encs ++ results.drop (pre.length + ts₁.length)) := by
  intro ts₁ vs₁ hv
  induction hv with
  | nil =>
    intro pre rest ts₂ results _
    exact ⟨[], rfl, by simp, by simp⟩
  | @cons t v ts vs htv _ ih =>
    intro pre rest ts₂ results hlen
    simp only [List.length_cons] at hlen
    obtain ⟨e, he, henc, he32⟩ := encodeArg_valid c pre.length t v htv
    have hget : (pre ++ v :: vs ++ rest)[pre.length]? = some v := by
      rw [List.append_assoc, List.getElem?_append_right (Nat.le_refl _)]
      simp
    have hset : ((results.set pre.length e)).length = results.length := by simp
    obtain ⟨encs, hmap, h32, hloop⟩ :=
      ih (pre ++ [v]) rest ts₂ (results.set pre.length e) (by simp; omega)
    refine ⟨e :: encs, by simp [henc, hmap], ?_, ?_⟩
    · intro x hx
      rcases List.mem_cons.1 hx with rfl | hx
      · exact he32
      · exact h32 x hx
    · have happ : pre ++ [v] ++ vs ++ rest = pre ++ v :: vs ++ rest := by simp
      rw [happ] at hloop
      simp only [List.length_append, List.length_singleton] at hloop
      rw [List.cons_append, encodeLoop, hget]
      simp only [he]
      rw [hloop, take_succ_set _ _ _ (by omega), List.drop_set_of_lt _ _ (by omega)]
      simp only [List.length_cons, List.append_assoc, List.singleton_append, List.cons_append]
      rw [show pre.length + 1 + ts.length = pre.length + (ts.length + 1) by omega]
      simp

/-- On valid lists of equal length the function returns the encodings of the
values, in order, each on 32 bytes. -/
theorem abiEncodeMultiValues_ok (c : SettingTypeConsts) (settingTypes : List Nat)
    (values : List AnyValue) (h : List.Forall₂ (ValidEntry c) settingTypes values) :
    ∃ results : List Bytes,
      abiEncodeMultiValues c settingTypes values = .returned (some results, none) ∧
      values.map encodingOf = results.map some ∧ ∀ e ∈ results, e.length = 32 := by
  have hlen := h.length_eq
  unfold abiEncodeMultiValues
  simp only [hlen, ne_eq, not_true_eq_false, if_false]
  by_cases h0 : values.length = 0
  · have : values = [] := List.length_eq_zero.1 h0
    subst this
    exact ⟨[], by simp, rfl, by simp⟩
  · simp only [h0, if_false]
    obtain ⟨encs, hmap, h32, hloop⟩ := encodeLoop_through_valid c settingTypes values h [] [] []
      (List.replicate values.length []) (by simp [hlen])
    simp only [List.nil_append, List.append_nil, List.length_nil, Nat.zero_add, List.take_zero,
      hlen] at hloop
    refine ⟨encs, ?_, hmap, h32⟩
    rw [hloop]
    simp [encodeLoop]

theorem getElem?_of_map_eq (values : List AnyValue) (results : List Bytes)
    (hmap : values.map encodingOf = results.map some) (i : Nat) (v : AnyValue)
    (hv : values[i]? = some v) : ∃ e, results[i]? = some e ∧ encodingOf v = some e := by
  have h := congrArg (fun l => l[i]?) hmap
  simp only [List.getElem?_map, hv, Option.map_some'] at h
  cases hr : results[i]? with
  | none => rw [hr] at h; simp at h
  | some e =>
    rw [hr] at h
    simp only [Option.map_some', Option.some.injEq] at h
    exact ⟨e, rfl, h⟩

/-- The entry of a `*big.Int` under `Uint256` in valid lists is `U256Bytes` of it. -/
theorem abiEncodeMultiValues_bigInt_entry (c : SettingTypeConsts) (settingTypes : List Nat)
    (values : List AnyValue) (hvalid : List.Forall₂ (ValidEntry c) settingTypes values)
    (i : Nat) (v : Int) (hv : values[i]? = some (.bigInt (some v))) :
    ∃ results : List Bytes,
      abiEncodeMultiValues c settingTypes values = .returned (some results, none) ∧
      results[i]? = some (U256Bytes v) := by
  obtain ⟨results, hres, hmap, _⟩ := abiEncodeMultiValues_ok c settingTypes values hvalid
  obtain ⟨e, he, henc⟩ := getElem?_of_map_eq values results hmap i _ hv
  simp only [encodingOf, Option.some.injEq] at henc
  exact ⟨results, hres, by rw [he, henc]⟩

theorem PaddedBigBytes_one : PaddedBigBytes 1 32 = List.replicate 31 0 ++ [1] := by decide

theorem PaddedBigBytes_zero : PaddedBigBytes 0 32 = List.replicate 32 0 := by decide

theorem SetBytes_foldl (bs : Bytes) : ∀ acc : Nat,
    bs.foldl (fun acc b => acc * 256 + b) acc = acc * 256 ^ bs.length + SetBytes bs := by
  induction bs with
  | nil => intro acc; simp [SetBytes]
  | cons b bs ih =>
    intro acc
    simp only [SetBytes, List.foldl_cons, List.length_cons]
    rw [ih (acc * 256 + b), ih (0 * 256 + b)]
    simp only [SetBytes]
    ring

/-- Go's `SetBytes` reads the number that the bytes denote big-endian. -/
theorem bigEndianValue_eq_SetBytes (bs : Bytes) : bigEndianValue bs = SetBytes bs := by
  induction bs with
  | nil => rfl
  | cons b bs ih =>
    have h := SetBytes_foldl bs (0 * 256 + b)
    simp only [bigEndianValue, ih]
    simp only [SetBytes, List.foldl_cons] at h ⊢
    rw [h]
    ring

theorem bigEndianValue_lt (bs : Bytes) (h : ∀ b ∈ bs, b < 256) :
    bigEndianValue bs < 256 ^ bs.length := by
  induction bs with
  | nil => simp [bigEndianValue]
  | cons b bs ih =>
    have hb : b < 256 := h b (List.mem_cons_self _ _)
    have hbs := ih (fun x hx => h x (List.mem_cons_of_mem _ hx))
    simp only [bigEndianValue, List.length_cons, pow_succ]
    have : b * 256 ^ bs.length ≤ 255 * 256 ^ bs.length :=
      Nat.mul_le_mul_right _ (by omega)
    omega

/-- Two byte strings of the same length, of bytes below 256, that denote the
same number are the same string. -/
theorem bigEndianValue_injective : ∀ (e e' : Bytes), e.length = e'.length →
    (∀ b ∈ e, b < 256) → (∀ b ∈ e', b < 256) → bigEndianValue e = bigEndianValue e' → e = e'
  | [], [], _, _, _, _ => rfl
  | [], _ :: _, hlen, _, _, _ => by simp at hlen
  | _ :: _, [], hlen, _, _, _ => by simp at hlen
  | b :: bs, b' :: bs', hlen, h, h', hval => by
    have hl : bs.length = bs'.length := by simpa using hlen
    have hlt := bigEndianValue_lt bs (fun x hx => h x (List.mem_cons_of_mem _ hx))
    have hlt' := bigEndianValue_lt bs' (fun x hx => h' x (List.mem_cons_of_mem _ hx))
    simp only [bigEndianValue] at hval
    rw [hl] at hval hlt
    have hpos : 0 < 256 ^ bs'.length := Nat.pow_pos (by norm_num)
    have hbb : b = b' := by
      have h1 := congrArg (· / 256 ^ bs'.length) hval
      simp only at h1
      rw [Nat.add_comm, Nat.add_mul_div_right _ _ hpos, Nat.div_eq_of_lt hlt,
        Nat.add_comm (b' * _), Nat.add_mul_div_right _ _ hpos, Nat.div_eq_of_lt hlt'] at h1
      simpa using h1
    subst hbb
    have hv : bigEndianValue bs = bigEndianValue bs' := Nat.add_left_cancel hval
    rw [bigEndianValue_injective bs bs' hl (fun x hx => h x (List.mem_cons_of_mem _ hx))
      (fun x hx => h' x (List.mem_cons_of_mem _ hx)) hv]

/-- The encoding of a value is one byte string: `IsAbiWord` determines the
entry. -/
theorem IsAbiWord.unique (v : AnyValue) (e e' : Bytes) (h : IsAbiWord v e)
    (h' : IsAbiWord v e') : e = e' := by
  cases v with
  | bigInt p =>
    cases p with
    | none => exact absurd h (by simp [IsAbiWord])
    | some x =>
      simp only [IsAbiWord] at h h'
      apply bigEndianValue_injective e e' (h.1.trans h'.1.symm) h.2.1 h'.2.1
      have := h.2.2.trans h'.2.2.symm
      exact_mod_cast this
  | bool b =>
    simp only [IsAbiWord] at h h'
    rw [h, h']
  | address a =>
    simp only [IsAbiWord] at h h'
    rw [h, h']
  | other n => exact absurd h (by simp [IsAbiWord])

theorem U256Bytes_lt (x : Int) : ∀ b ∈ U256Bytes x, b < 256 := by
  unfold U256Bytes PaddedBigBytes
  split
  · exact ReadBits_lt _ _
  · exact ReadBits_lt _ _

/-- What the code builds for a value is its encoding as the ABI has it. -/
theorem IsAbiWord_of_encodingOf (v : AnyValue) (e : Bytes) (h : encodingOf v = some e) :
    IsAbiWord v e := by
  cases v with
  | bigInt p =>
    cases p with
    | none => simp [encodingOf] at h
    | some x =>
      simp only [encodingOf, Option.some.injEq] at h
      subst h
      refine ⟨U256Bytes_length x, U256Bytes_lt x, ?_⟩
      rw [bigEndianValue_eq_SetBytes]
      exact SetBytes_U256Bytes x
  | bool b =>
    simp only [encodingOf, Option.some.injEq] at h
    subst h
    cases b
    · simp only [IsAbiWord, Bool.false_eq_true, if_false]
      rw [PaddedBigBytes_zero]
      rfl
    · simp only [IsAbiWord, if_true]
      exact PaddedBigBytes_one
  | address a =>
    simp only [encodingOf, Option.some.injEq] at h
    subst h
    exact LeftPadBytes_address a
  | other n => simp [encodingOf] at h

/-- C1: on lists of equal length in which every setting type is Uint256, Bool
or Address and every value has the matching Go type, `abiEncodeMultiValues`
returns no error and a list with one entry per value; entry `i` is the encoding
of `values[i]`, as the ABI has it and whatever the helper functions of the code
are (for a `*big.Int` the 32 bytes that denote it big-endian modulo `2 ^ 256`,
for a bool 31 zero bytes and the byte 1 or 0, for an address 12 zero bytes and
its 20 bytes), and has exactly 32 bytes. -/
theorem abiEncodeMultiValues_valid (c : SettingTypeConsts) (settingTypes : List Nat)
    (values : List AnyValue) (hvalid : List.Forall₂ (ValidEntry c) settingTypes values) :
    ∃ results : List Bytes,
      abiEncodeMultiValues c settingTypes values = .returned (some results, none) ∧
      results.length = settingTypes.length ∧ results.length = values.length ∧
      ∀ (i : Nat) (v : AnyValue), values[i]? = some v →
        ∃ e, results[i]? = some e ∧ IsAbiWord v e ∧ e.length = 32 := by
  obtain ⟨results, hres, hmap, h32⟩ := abiEncodeMultiValues_ok c settingTypes values hvalid
  have hlen : results.length = values.length := by
    have := congrArg List.length hmap
    simpa using this.symm
  refine ⟨results, hres, by rw [hlen, hvalid.length_eq], hlen, ?_⟩
  intro i v hv
  obtain ⟨e, he, henc⟩ := getElem?_of_map_eq values results hmap i v hv
  exact ⟨e, he, IsAbiWord_of_encodingOf v e henc, h32 e (List.getElem?_mem he)⟩

/-- C1, instance: the integer 258, `true` and the sample address under the
setting types 0, 1, 2; the three entries are the words 0x00..0102, 0x00..01
and the address after 12 zero bytes. -/
theorem abiEncodeMultiValues_valid_witness :
    List.Forall₂ (ValidEntry iotaConsts) [0, 1, 2]
        [.bigInt (some 258), .bool true, .address sampleAddress] ∧
      abiEncodeMultiValues iotaConsts [0, 1, 2]
          [.bigInt (some 258), .bool true, .address sampleAddress]
        = .returned (some [List.replicate 30 0 ++ [1, 2], List.replicate 31 0 ++ [1],
            List.replicate 12 0 ++ sampleAddress.bytes], none) ∧
      ∃ results : List Bytes,
        abiEncodeMultiValues iotaConsts [0, 1, 2]
            [.bigInt (some 258), .bool true, .address sampleAddress]
          = .returned (some results, none) ∧
        results.length = [0, 1, 2].length ∧
        results.length =
          [AnyValue.bigInt (some 258), AnyValue.bool true, AnyValue.address sampleAddress].length ∧
        ∀ (i : Nat) (v : AnyValue),
          [AnyValue.bigInt (some 258), AnyValue.bool true, AnyValue.address sampleAddress][i]?
              = some v →
            ∃ e, results[i]? = some e ∧ IsAbiWord v e ∧ e.length = 32 :=
  have hv : List.Forall₂ (ValidEntry iotaConsts) [0, 1, 2]
      [.bigInt (some 258), .bool true, .address sampleAddress] :=
    .cons (Or.inl ⟨rfl, 258, rfl⟩)
      (.cons (Or.inr (Or.inl ⟨rfl, true, rfl⟩))
        (.cons (Or.inr (Or.inr ⟨rfl, sampleAddress, rfl⟩)) .nil))
  ⟨hv, by decide, abiEncodeMultiValues_valid iotaConsts _ _ hv⟩

/-- C2: for every integer `v` with `0 ≤ v < 2 ^ 256`, the entry that
`abiEncodeMultiValues` produces for `v` under setting type Uint256 reads back,
as a big-endian unsigned integer, to `v`; so distinct in-range values get
distinct entries. -/
theorem abiEncodeMultiValues_uint256_roundtrip (c : SettingTypeConsts)
    (settingTypes : List Nat) (values : List AnyValue)
    (hvalid : List.Forall₂ (ValidEntry c) settingTypes values) (i : Nat) (v : Int)
    (ht : settingTypes[i]? = some c.ProposalSettingType_Uint256)
    (hv : values[i]? = some (.bigInt (some v))) (h0 : 0 ≤ v) (h1 : v < 2 ^ 256) :
    ∃ (results : List Bytes) (e : Bytes),
      abiEncodeMultiValues c settingTypes values = .returned (some results, none) ∧
      results[i]? = some e ∧ e = U256Bytes v ∧ (SetBytes e : Int) = v ∧
      ∀ w : Int, 0 ≤ w → w < 2 ^ 256 → U256Bytes w = e → w = v := by
  have _ := ht
  obtain ⟨results, hres, he⟩ := abiEncodeMultiValues_bigInt_entry c settingTypes values hvalid i v hv
  have hdec : ∀ w : Int, 0 ≤ w → w < 2 ^ 256 → (SetBytes (U256Bytes w) : Int) = w := by
    intro w hw0 hw1
    rw [SetBytes_U256Bytes, Int.emod_eq_of_lt hw0 hw1]
  refine ⟨results, U256Bytes v, hres, he, rfl, hdec v h0 h1, ?_⟩
  intro w hw0 hw1 heq
  rw [← hdec w hw0 hw1, heq, hdec v h0 h1]

set_option maxRecDepth 100000 in
theorem abiEncodeMultiValues_uint256_roundtrip_witness :
    ∃ (results : List Bytes) (e : Bytes),
      abiEncodeMultiValues iotaConsts [1, 0] [.bool false, .bigInt (some 258)]
        = .returned (some results, none) ∧
      results[1]? = some e ∧ e = U256Bytes 258 ∧ (SetBytes e : Int) = 258 ∧
      ∀ w : Int, 0 ≤ w → w < 2 ^ 256 → U256Bytes w = e → w = 258 :=
  abiEncodeMultiValues_uint256_roundtrip iotaConsts [1, 0] [.bool false, .bigInt (some 258)]
    (.cons (Or.inr (Or.inl ⟨rfl, false, rfl⟩)) (.cons (Or.inl ⟨rfl, 258, rfl⟩) .nil))
    1 258 rfl rfl (by decide) (by norm_num)

set_option maxRecDepth 100000 in
/-- C3, counterexample: paired with Uint256, the out-of-range value `2 ^ 256`
is not rejected; the function returns no error and 32 zero bytes, the encoding
of `0`. -/
theorem abiEncodeMultiValues_overflow_counterexample :
    abiEncodeMultiValues iotaConsts [iotaConsts.ProposalSettingType_Uint256]
        [.bigInt (some (2 ^ 256))]
      = .returned (some [List.replicate 32 0], none) ∧
    U256Bytes 0 = List.replicate 32 0 := by
  decide

/-- C3, amended: for every `*big.Int` value `v` outside the uint256 range
(`v < 0` or `v ≥ 2 ^ 256`) paired with setting type Uint256,
`abiEncodeMultiValues` returns no error; the entry for `v` has 32 bytes and
reads back as `v` reduced modulo `2 ^ 256`, which is not `v`. -/
theorem abiEncodeMultiValues_uint256_wraps (c : SettingTypeConsts)
    (settingTypes : List Nat) (values : List AnyValue)
    (hvalid : List.Forall₂ (ValidEntry c) settingTypes values) (i : Nat) (v : Int)
    (ht : settingTypes[i]? = some c.ProposalSettingType_Uint256)
    (hv : values[i]? = some (.bigInt (some v))) (hout : v < 0 ∨ 2 ^ 256 ≤ v) :
    ∃ (results : List Bytes) (e : Bytes),
      abiEncodeMultiValues c settingTypes values = .returned (some results, none) ∧
      results[i]? = some e ∧ e.length = 32 ∧ (SetBytes e : Int) = v % 2 ^ 256 ∧
      (SetBytes e : Int) ≠ v := by
  have _ := ht
  obtain ⟨results, hres, he⟩ := abiEncodeMultiValues_bigInt_entry c settingTypes values hvalid i v hv
  refine ⟨results, U256Bytes v, hres, he, U256Bytes_length v, SetBytes_U256Bytes v, ?_⟩
  rw [SetBytes_U256Bytes]
  have h0 : (0 : Int) ≤ v % 2 ^ 256 := Int.emod_nonneg _ (by norm_num)
  have h1 : v % 2 ^ 256 < 2 ^ 256 := Int.emod_lt_of_pos _ (by norm_num)
  intro heq
  rw [heq] at h0 h1
  rcases hout with h | h
  · exact absurd h0 (not_le.2 h)
  · exact absurd h1 (not_lt.2 h)

theorem abiEncodeMultiValues_uint256_wraps_witness :
    ∃ (results : List Bytes) (e : Bytes),
      abiEncodeMultiValues iotaConsts [0] [.bigInt (some (-1))] = .returned (some results, none) ∧
      results[0]? = some e ∧ e.length = 32 ∧ (SetBytes e : Int) = (-1) % 2 ^ 256 ∧
      (SetBytes e : Int) ≠ -1 :=
  abiEncodeMultiValues_uint256_wraps iotaConsts [0] [.bigInt (some (-1))]
    (.cons (Or.inl ⟨rfl, -1, rfl⟩) .nil) 0 (-1) rfl rfl (Or.inl (by decide))

/-- C5: on lists of equal length in which a setting type is none of Uint256,
Bool, Address and every earlier entry is valid, `abiEncodeMultiValues` returns
a nil result and the `unknown proposal setting type` error, whatever the value
at that entry and whatever follows it. -/
theorem abiEncodeMultiValues_unknown_type (c : SettingTypeConsts)
    (typesBefore typesAfter : List Nat) (valuesBefore valuesAfter : List AnyValue)
    (settingType : Nat) (value : AnyValue)
    (hbefore : List.Forall₂ (ValidEntry c) typesBefore valuesBefore)
    (hlen : typesAfter.length = valuesAfter.length)
    (h1 : settingType ≠ c.ProposalSettingType_Uint256)
    (h2 : settingType ≠ c.ProposalSettingType_Bool)
    (h3 : settingType ≠ c.ProposalSettingType_Address) :
    abiEncodeMultiValues c (typesBefore ++ settingType :: typesAfter)
        (valuesBefore ++ value :: valuesAfter)
      = .returned (none, some (.unknownSettingType settingType)) := by
  have hl := hbefore.length_eq
  unfold abiEncodeMultiValues
  simp only [List.length_append, List.length_cons, hl, hlen, ne_eq, not_true_eq_false, if_false,
    Nat.add_eq_zero, Nat.succ_ne_zero, and_false]
  obtain ⟨encs, _, _, hloop⟩ := encodeLoop_through_valid c typesBefore valuesBefore hbefore []
    (value :: valuesAfter) (settingType :: typesAfter)
    (List.replicate (valuesBefore.length + (valuesAfter.length + 1)) []) (by simp [hl])
  simp only [List.nil_append, List.length_nil, Nat.zero_add] at hloop
  rw [hloop, encodeLoop]
  have hget : (valuesBefore ++ value :: valuesAfter)[typesBefore.length]? = some value := by
    rw [hl, List.getElem?_append_right (Nat.le_refl _)]
    simp
  rw [hget]
  simp [encodeArg, h1, h2, h3]

theorem abiEncodeMultiValues_unknown_type_witness :
    abiEncodeMultiValues iotaConsts ([0] ++ 7 :: [1])
        ([.bigInt (some 5)] ++ .bool true :: [.other "string"])
      = .returned (none, some (.unknownSettingType 7)) :=
  abiEncodeMultiValues_unknown_type iotaConsts [0] [1] [.bigInt (some 5)] [.other "string"] 7
    (.bool true) (.cons (Or.inl ⟨rfl, 5, rfl⟩) .nil) rfl (by decide) (by decide) (by decide)

/-- C4: on lists of different lengths `abiEncodeMultiValues` returns a nil
result and a non-nil error, whatever the lists hold; `ProposeSetMulti` and
`EstimateProposeSetMultiGas`, having looked the contract up, then return that
error wrapped; and in every case the contract lookup is all they do: no payload
is built and nothing is estimated or submitted. -/
theorem ProposeSetMulti_length_mismatch (w : World) (c : SettingTypeConsts) (message : String)
    (contractNames settingPaths : List String) (settingTypes : List Nat)
    (values : List AnyValue) (blockNumber : Nat) (treeNodes : List VotingTreeNode)
    (opts : Option TransactOpts) (trace : List Op)
    (hlen : settingTypes.length ≠ values.length) :
    abiEncodeMultiValues c settingTypes values = .returned (none, some .lengthMismatch) ∧
    (∀ contract, w.getContract trace "rocketDAOProtocolProposals" = .ok contract →
      (ProposeSetMulti w c message contractNames settingPaths settingTypes values blockNumber
          treeNodes opts trace).1
        = .returned (0, Hash.zero, some (.wrapped "error ABI encoding values" .lengthMismatch)) ∧
      (EstimateProposeSetMultiGas w c message contractNames settingPaths settingTypes values
          blockNumber treeNodes opts trace).1
        = .returned (GasInfo.zero,
            some (.wrapped "error ABI encoding values" .lengthMismatch))) ∧
    (ProposeSetMulti w c message contractNames settingPaths settingTypes values blockNumber
        treeNodes opts trace).2 = trace ++ [.getContract "rocketDAOProtocolProposals"] ∧
    (EstimateProposeSetMultiGas w c message contractNames settingPaths settingTypes values
        blockNumber treeNodes opts trace).2
      = trace ++ [.getContract "rocketDAOProtocolProposals"] := by
  have henc : abiEncodeMultiValues c settingTypes values
      = .returned (none, some .lengthMismatch) := by
    simp [abiEncodeMultiValues, hlen]
  refine ⟨henc, ?_, ?_, ?_⟩
  · intro contract hc
    simp [ProposeSetMulti, EstimateProposeSetMultiGas, getRocketDAOProtocolProposals, hc, henc]
  · simp only [ProposeSetMulti, getRocketDAOProtocolProposals, henc]
    cases w.getContract trace "rocketDAOProtocolProposals" <;> rfl
  · simp only [EstimateProposeSetMultiGas, getRocketDAOProtocolProposals, henc]
    cases w.getContract trace "rocketDAOProtocolProposals" <;> rfl

theorem ProposeSetMulti_length_mismatch_witness :
    abiEncodeMultiValues iotaConsts [0, 1] [.bool true] = .returned (none, some .lengthMismatch) ∧
    (∀ contract, (sampleWorld 3).getContract [] "rocketDAOProtocolProposals" = .ok contract →
      (ProposeSetMulti (sampleWorld 3) iotaConsts "m" ["a", "b"] ["p", "q"] [0, 1] [.bool true]
          5 [] none []).1
        = .returned (0, Hash.zero, some (.wrapped "error ABI encoding values" .lengthMismatch)) ∧
      (EstimateProposeSetMultiGas (sampleWorld 3) iotaConsts "m" ["a", "b"] ["p", "q"] [0, 1]
          [.bool true] 5 [] none []).1
        = .returned (GasInfo.zero,
            some (.wrapped "error ABI encoding values" .lengthMismatch))) ∧
    (ProposeSetMulti (sampleWorld 3) iotaConsts "m" ["a", "b"] ["p", "q"] [0, 1] [.bool true]
        5 [] none []).2 = [] ++ [.getContract "rocketDAOProtocolProposals"] ∧
    (EstimateProposeSetMultiGas (sampleWorld 3) iotaConsts "m" ["a", "b"] ["p", "q"] [0, 1]
        [.bool true] 5 [] none []).2
      = [] ++ [.getContract "rocketDAOProtocolProposals"] :=
  ProposeSetMulti_length_mismatch (sampleWorld 3) iotaConsts "m" ["a", "b"] ["p", "q"] [0, 1]
    [.bool true] 5 [] none [] (by decide)

/-- In the lower half of the `uint64` range the conversion `int64(x)` keeps the
value. -/
theorem int64_of_lt (x : Nat) (h : x < 2 ^ 63) : int64 x = x := by
  have h2 : x % 2 ^ 64 = x := Nat.mod_eq_of_lt (by omega)
  unfold int64
  rw [h2, if_pos h]

/-- In the upper half of the `uint64` range the conversion `int64(x)` gives the
negative number `x - 2 ^ 64`. -/
theorem int64_of_ge (x : Nat) (h : 2 ^ 63 ≤ x) (h64 : x < 2 ^ 64) :
    int64 x = (x : Int) - 2 ^ 64 ∧ int64 x < 0 := by
  have h2 : x % 2 ^ 64 = x := Nat.mod_eq_of_lt h64
  have h3 : ¬ x < 2 ^ 63 := by omega
  simp only [int64, h2, h3, if_false, true_and]
  have : (x : Int) < 2 ^ 64 := by exact_mod_cast h64
  omega

/-- C6, at the failing input: for the `uint64` value `2 ^ 64 - 1` the wire
integer built by `NewAuctionLot`, by `GetLotPriceAtBlock` and by
`CancelProposal`, `VoteOnProposal`, `ExecuteProposal` and their gas estimators
is `-1`, which reads back as the `uint64` value `1`. -/
theorem uint64_wire_integer_at_max :
    int64 (2 ^ 64 - 1) = -1 ∧ big_Uint64 (-1) = 1 ∧
    (NewAuctionLot sampleRocketPool (2 ^ 64 - 1)).map (fun lot => lot.Details.Index.RawValue)
      = .ok (some (-1)) ∧
    ((sampleLot.GetLotPriceAtBlock ⟨[], false⟩ (.caller 0) (2 ^ 64 - 1)).2.calls.map Call.args)
      = [[.bigInt (some 7), .bigInt (some (-1))]] ∧
    (CancelProposal (sampleWorld 3) (2 ^ 64 - 1) none []).2
      = [.getContract "rocketDAOProtocolProposals",
          .transact sampleAddress none "cancel" [.bigInt (some (-1))]] ∧
    (VoteOnProposal (sampleWorld 3) (2 ^ 64 - 1) true none []).2
      = [.getContract "rocketDAOProtocolProposals",
          .transact sampleAddress none "vote" [.bigInt (some (-1)), .bool true]] ∧
    (ExecuteProposal (sampleWorld 3) (2 ^ 64 - 1) none []).2
      = [.getContract "rocketDAOProtocolProposals",
          .transact sampleAddress none "execute" [.bigInt (some (-1))]] ∧
    (EstimateCancelProposalGas (sampleWorld 3) (2 ^ 64 - 1) none []).2
      = [.getContract "rocketDAOProtocolProposals",
          .getTransactionGasInfo sampleAddress none "cancel" [.bigInt (some (-1))]] ∧
    (EstimateVoteOnProposalGas (sampleWorld 3) (2 ^ 64 - 1) true none []).2
      = [.getContract "rocketDAOProtocolProposals",
          .getTransactionGasInfo sampleAddress none "vote" [.bigInt (some (-1)), .bool true]] ∧
    (EstimateExecuteProposalGas (sampleWorld 3) (2 ^ 64 - 1) none []).2
      = [.getContract "rocketDAOProtocolProposals",
          .getTransactionGasInfo sampleAddress none "execute" [.bigInt (some (-1))]] := by
  have h : int64 (2 ^ 64 - 1) = -1 := by decide
  have h2 : int64 18446744073709551615 = -1 := h
  refine ⟨h, by decide, ?_, ?_, ?_, ?_, ?_, ?_, ?_, ?_⟩ <;>
    simp [NewAuctionLot, sampleRocketPool, Except.map, big_NewInt, h2,
      AuctionLot.GetLotPriceAtBlock, AddCall, sampleLot, CancelProposal, VoteOnProposal,
      ExecuteProposal, EstimateCancelProposalGas, EstimateVoteOnProposalGas,
      EstimateExecuteProposalGas, getRocketDAOProtocolProposals, sampleWorld,
      Contract.Transact, Contract.GetTransactionGasInfo, sampleContract]

/-- C7, counterexample: when the proposal count read is `2 ^ 64 - 1`, a
successful `SubmitProposal` returns the ID `0`, not the count plus one. -/
theorem SubmitProposal_max_count_counterexample :
    (sampleWorld (2 ^ 64 - 1)).getProposalCount [.getContract "rocketDAOProtocolProposals"]
      = .ok (2 ^ 64 - 1) ∧
    (SubmitProposal (sampleWorld (2 ^ 64 - 1)) "m" [1, 2] 5 [] none []).1
      = (0, sampleHash, none) ∧
    (0 : Nat) ≠ (2 ^ 64 - 1) + 1 := by
  refine ⟨rfl, ?_, by decide⟩
  simp [SubmitProposal, getRocketDAOProtocolProposals, GetProposalCount, Contract.Transact,
    sampleWorld]

/-- C7, amended: whenever `SubmitProposal` succeeds, the contract lookup, the
proposal-count read and the `propose` transaction have succeeded in this order
and were all it did; it returns the hash of that transaction and the ID
`(count + 1) mod 2 ^ 64`, which is exactly one greater than the count read for
every count below `2 ^ 64 - 1`. -/
theorem SubmitProposal_success (w : World) (message : String) (payload : Bytes)
    (blockNumber : Nat) (treeNodes : List VotingTreeNode) (opts : Option TransactOpts)
    (trace : List Op)
    (hok : (SubmitProposal w message payload blockNumber treeNodes opts trace).1.2.2 = none) :
    ∃ (contract : Contract) (count : Nat) (tx : Transaction),
      w.getContract trace "rocketDAOProtocolProposals" = .ok contract ∧
      w.getProposalCount (trace ++ [.getContract "rocketDAOProtocolProposals"]) = .ok count ∧
      w.transact (trace ++ [.getContract "rocketDAOProtocolProposals"] ++ [.getProposalCount])
          contract opts "propose"
          [.string message, .bytes payload, .uint32 blockNumber, .treeNodes treeNodes] = .ok tx ∧
      (SubmitProposal w message payload blockNumber treeNodes opts trace).1
        = ((count + 1) % 2 ^ 64, tx.Hash, none) ∧
      (count < 2 ^ 64 - 1 →
        (SubmitProposal w message payload blockNumber treeNodes opts trace).1.1 = count + 1) ∧
      (SubmitProposal w message payload blockNumber treeNodes opts trace).2
        = trace ++ [.getContract "rocketDAOProtocolProposals"] ++ [.getProposalCount] ++
            [.transact contract.address opts "propose"
              [.string message, .bytes payload, .uint32 blockNumber, .treeNodes treeNodes]] := by
  simp only [SubmitProposal, getRocketDAOProtocolProposals, GetProposalCount,
    Contract.Transact] at hok ⊢
  cases h1 : w.getContract trace "rocketDAOProtocolProposals" with
  | error err => simp [h1] at hok
  | ok contract =>
    simp only [h1] at hok ⊢
    cases h2 : w.getProposalCount (trace ++ [.getContract "rocketDAOProtocolProposals"]) with
    | error err => simp [h2] at hok
    | ok count =>
      simp only [h2] at hok ⊢
      cases h3 : w.transact
          (trace ++ [.getContract "rocketDAOProtocolProposals"] ++ [.getProposalCount])
          contract opts "propose"
          [.string message, .bytes payload, .uint32 blockNumber, .treeNodes treeNodes] with
      | error err =>
        simp only [h3] at hok
        exact absurd hok (by simp)
      | ok tx =>
        simp only [h3]
        exact ⟨contract, count, tx, rfl, rfl, h3, rfl, fun hlt => Nat.mod_eq_of_lt (by omega),
          rfl⟩

theorem SubmitProposal_success_witness :
    ∃ (contract : Contract) (count : Nat) (tx : Transaction),
      (sampleWorld 3).getContract [] "rocketDAOProtocolProposals" = .ok contract ∧
      (sampleWorld 3).getProposalCount ([] ++ [.getContract "rocketDAOProtocolProposals"])
        = .ok count ∧
      (sampleWorld 3).transact
          ([] ++ [.getContract "rocketDAOProtocolProposals"] ++ [.getProposalCount])
          contract none "propose"
          [.string "m", .bytes [1, 2], .uint32 5, .treeNodes []] = .ok tx ∧
      (SubmitProposal (sampleWorld 3) "m" [1, 2] 5 [] none []).1
        = ((count + 1) % 2 ^ 64, tx.Hash, none) ∧
      (count < 2 ^ 64 - 1 →
        (SubmitProposal (sampleWorld 3) "m" [1, 2] 5 [] none []).1.1 = count + 1) ∧
      (SubmitProposal (sampleWorld 3) "m" [1, 2] 5 [] none []).2
        = [] ++ [.getContract "rocketDAOProtocolProposals"] ++ [.getProposalCount] ++
            [.transact contract.address none "propose"
              [.string "m", .bytes [1, 2], .uint32 5, .treeNodes []]] :=
  SubmitProposal_success (sampleWorld 3) "m" [1, 2] 5 [] none [] rfl

theorem EstimatesOnly.step (trace : List Op) (op : Op) (h : op.isLookupOrGasInfo = true) :
    EstimatesOnly trace (trace ++ [op]) := by
  refine ⟨[op], rfl, ?_⟩
  intro o ho
  rw [List.mem_singleton] at ho
  subst ho
  cases o <;> simp_all [Op.isLookupOrGasInfo, Op.isTransact]

theorem EstimatesOnly.lookup (trace : List Op) (name : String) :
    EstimatesOnly trace (trace ++ [.getContract name]) :=
  EstimatesOnly.step trace _ rfl

theorem EstimatesOnly.gasInfo (trace : List Op) (contract : Address)
    (opts : Option TransactOpts) (method : String) (args : List Arg) :
    EstimatesOnly trace (trace ++ [.getTransactionGasInfo contract opts method args]) :=
  EstimatesOnly.step trace _ rfl

theorem EstimatesOnly.pack (trace : List Op) (contract : Address) (method : String)
    (args : List Arg) : EstimatesOnly trace (trace ++ [.abiPack contract method args]) := by
  refine ⟨[.abiPack contract method args], rfl, ?_⟩
  intro o ho
  rw [List.mem_singleton] at ho
  subst ho
  simp [Op.isTransact, Op.isRemote]

theorem EstimatesOnly.trans {t₁ t₂ t₃ : List Op} (h₁ : EstimatesOnly t₁ t₂)
    (h₂ : EstimatesOnly t₂ t₃) : EstimatesOnly t₁ t₃ := by
  obtain ⟨a, rfl, ha⟩ := h₁
  obtain ⟨b, rfl, hb⟩ := h₂
  refine ⟨a ++ b, by simp, ?_⟩
  intro o ho
  rcases List.mem_append.1 ho with h | h
  · exact ha o h
  · exact hb o h

theorem EstimateProposalGas_estimatesOnly (w : World) (message : String) (payload : Bytes)
    (blockNumber : Nat) (treeNodes : List VotingTreeNode) (opts : Option TransactOpts)
    (trace : List Op) :
    EstimatesOnly trace
      (EstimateProposalGas w message payload blockNumber treeNodes opts trace).2 := by
  simp only [EstimateProposalGas, getRocketDAOProtocolProposals, Contract.GetTransactionGasInfo]
  cases w.getContract trace "rocketDAOProtocolProposals" with
  | error err => exact EstimatesOnly.lookup _ _
  | ok contract =>
    exact EstimatesOnly.trans (EstimatesOnly.lookup trace "rocketDAOProtocolProposals")
      (EstimatesOnly.gasInfo _ _ _ _ _)

/-- C8: for every input and every behaviour of the collaborators, none of the
gas-estimation functions of the Protocol DAO proposals binding submits a
transaction: on every path (success, error or panic) the remote operations it
performs are only the contract lookup and `GetTransactionGasInfo`. -/
theorem estimators_never_submit (w : World) (c : SettingTypeConsts)
    (message contractName settingPath invoiceID : String) (payload : Bytes)
    (contractNames settingPaths : List String) (settingTypes : List Nat)
    (values : List AnyValue) (boolValue : Bool) (uintValue : Option Int)
    (addressValue : Address) (proposalId blockNumber : Nat) (treeNodes : List VotingTreeNode)
    (opts : Option TransactOpts) (trace : List Op) :
    EstimatesOnly trace
      (EstimateProposalGas w message payload blockNumber treeNodes opts trace).2 ∧
    EstimatesOnly trace
      (EstimateProposeSetMultiGas w c message contractNames settingPaths settingTypes values
        blockNumber treeNodes opts trace).2 ∧
    EstimatesOnly trace
      (EstimateProposeSetBoolGas w message contractName settingPath boolValue blockNumber
        treeNodes opts trace).2 ∧
    EstimatesOnly trace
      (EstimateProposeSetUintGas w message contractName settingPath uintValue blockNumber
        treeNodes opts trace).2 ∧
    EstimatesOnly trace
      (EstimateProposeSetAddressGas w message contractName settingPath addressValue blockNumber
        treeNodes opts trace).2 ∧
    EstimatesOnly trace
      (EstimateProposeSetRewardsPercentageGas w message contractName settingPath uintValue
        blockNumber treeNodes opts trace).2 ∧
    EstimatesOnly trace
      (EstimateProposeSpendTreasuryGas w message invoiceID addressValue uintValue blockNumber
        treeNodes opts trace).2 ∧
    EstimatesOnly trace (EstimateCancelProposalGas w proposalId opts trace).2 ∧
    EstimatesOnly trace (EstimateVoteOnProposalGas w proposalId boolValue opts trace).2 ∧
    EstimatesOnly trace (EstimateExecuteProposalGas w proposalId opts trace).2 := by
  refine ⟨EstimateProposalGas_estimatesOnly _ _ _ _ _ _ _, ?_, ?_, ?_, ?_, ?_, ?_, ?_, ?_, ?_⟩
  · simp only [EstimateProposeSetMultiGas, getRocketDAOProtocolProposals, Contract.Pack]
    cases w.getContract trace "rocketDAOProtocolProposals" with
    | error err => exact EstimatesOnly.lookup _ _
    | ok contract =>
      refine EstimatesOnly.trans (EstimatesOnly.lookup trace "rocketDAOProtocolProposals") ?_
      simp only []
      cases abiEncodeMultiValues c settingTypes values with
      | panicked => exact ⟨[], by simp, by simp⟩
      | returned r =>
        obtain ⟨encodedValues, err⟩ := r
        cases err with
        | some err => exact ⟨[], by simp, by simp⟩
        | none =>
          simp only []
          cases contract.pack "proposalSettingMulti"
              [.strings contractNames, .strings settingPaths, .settingTypes settingTypes,
                .bytesList encodedValues] with
          | panicked => exact EstimatesOnly.pack _ _ _ _
          | returned r =>
            cases r with
            | error err => exact EstimatesOnly.pack _ _ _ _
            | ok payload =>
              exact EstimatesOnly.trans (EstimatesOnly.pack _ _ _ _)
                (EstimateProposalGas_estimatesOnly _ _ _ _ _ _ _)
  · simp only [EstimateProposeSetBoolGas, getRocketDAOProtocolProposals, Contract.Pack]
    cases w.getContract trace "rocketDAOProtocolProposals" with
    | error err => exact EstimatesOnly.lookup _ _
    | ok contract =>
      refine EstimatesOnly.trans (EstimatesOnly.lookup trace "rocketDAOProtocolProposals") ?_
      simp only []
      cases contract.pack "proposalSettingBool" [.string contractName, .string settingPath, .bool boolValue] with
      | panicked => exact EstimatesOnly.pack _ _ _ _
      | returned r =>
        cases r with
        | error err => exact EstimatesOnly.pack _ _ _ _
        | ok payload =>
          exact EstimatesOnly.trans (EstimatesOnly.pack _ _ _ _)
            (EstimateProposalGas_estimatesOnly _ _ _ _ _ _ _)
  · simp only [EstimateProposeSetUintGas, getRocketDAOProtocolProposals, Contract.Pack]
    cases w.getContract trace "rocketDAOProtocolProposals" with
    | error err => exact EstimatesOnly.lookup _ _
    | ok contract =>
      refine EstimatesOnly.trans (EstimatesOnly.lookup trace "rocketDAOProtocolProposals") ?_
      simp only []
      cases contract.pack "proposalSettingUint" [.string contractName, .string settingPath, .bigInt uintValue] with
      | panicked => exact EstimatesOnly.pack _ _ _ _
      | returned r =>
        cases r with
        | error err => exact EstimatesOnly.pack _ _ _ _
        | ok payload =>
          exact EstimatesOnly.trans (EstimatesOnly.pack _ _ _ _)
            (EstimateProposalGas_estimatesOnly _ _ _ _ _ _ _)
  · simp only [EstimateProposeSetAddressGas, getRocketDAOProtocolProposals, Contract.Pack]
    cases w.getContract trace "rocketDAOProtocolProposals" with
    | error err => exact EstimatesOnly.lookup _ _
    | ok contract =>
      refine EstimatesOnly.trans (EstimatesOnly.lookup trace "rocketDAOProtocolProposals") ?_
      simp only []
      cases contract.pack "proposalSettingAddress" [.string contractName, .string settingPath, .address addressValue] with
      | panicked => exact EstimatesOnly.pack _ _ _ _
      | returned r =>
        cases r with
        | error err => exact EstimatesOnly.pack _ _ _ _
        | ok payload =>
          exact EstimatesOnly.trans (EstimatesOnly.pack _ _ _ _)
            (EstimateProposalGas_estimatesOnly _ _ _ _ _ _ _)
  · simp only [EstimateProposeSetRewardsPercentageGas, getRocketDAOProtocolProposals, Contract.Pack]
    cases w.getContract trace "rocketDAOProtocolProposals" with
    | error err => exact EstimatesOnly.lookup _ _
    | ok contract =>
      refine EstimatesOnly.trans (EstimatesOnly.lookup trace "rocketDAOProtocolProposals") ?_
      simp only []
      cases contract.pack "proposalSettingRewardsClaimer" [.string contractName, .bigInt uintValue] with
      | panicked => exact EstimatesOnly.pack _ _ _ _
      | returned r =>
        cases r with
        | error err => exact EstimatesOnly.pack _ _ _ _
        | ok payload =>
          exact EstimatesOnly.trans (EstimatesOnly.pack _ _ _ _)
            (EstimateProposalGas_estimatesOnly _ _ _ _ _ _ _)
  · simp only [EstimateProposeSpendTreasuryGas, getRocketDAOProtocolProposals, Contract.Pack]
    cases w.getContract trace "rocketDAOProtocolProposals" with
    | error err => exact EstimatesOnly.lookup _ _
    | ok contract =>
      refine EstimatesOnly.trans (EstimatesOnly.lookup trace "rocketDAOProtocolProposals") ?_
      simp only []
      cases contract.pack "proposalSpendTreasury" [.string invoiceID, .address addressValue, .bigInt uintValue] with
      | panicked => exact EstimatesOnly.pack _ _ _ _
      | returned r =>
        cases r with
        | error err => exact EstimatesOnly.pack _ _ _ _
        | ok payload =>
          exact EstimatesOnly.trans (EstimatesOnly.pack _ _ _ _)
            (EstimateProposalGas_estimatesOnly _ _ _ _ _ _ _)
  · simp only [EstimateCancelProposalGas, getRocketDAOProtocolProposals, Contract.GetTransactionGasInfo]
    cases w.getContract trace "rocketDAOProtocolProposals" with
    | error err => exact EstimatesOnly.lookup _ _
    | ok contract =>
      exact EstimatesOnly.trans (EstimatesOnly.lookup trace "rocketDAOProtocolProposals")
        (EstimatesOnly.gasInfo _ _ _ _ _)
  · simp only [EstimateVoteOnProposalGas, getRocketDAOProtocolProposals, Contract.GetTransactionGasInfo]
    cases w.getContract trace "rocketDAOProtocolProposals" with
    | error err => exact EstimatesOnly.lookup _ _
    | ok contract =>
      exact EstimatesOnly.trans (EstimatesOnly.lookup trace "rocketDAOProtocolProposals")
        (EstimatesOnly.gasInfo _ _ _ _ _)
  · simp only [EstimateExecuteProposalGas, getRocketDAOProtocolProposals, Contract.GetTransactionGasInfo]
    cases w.getContract trace "rocketDAOProtocolProposals" with
    | error err => exact EstimatesOnly.lookup _ _
    | ok contract =>
      exact EstimatesOnly.trans (EstimatesOnly.lookup trace "rocketDAOProtocolProposals")
        (EstimatesOnly.gasInfo _ _ _ _ _)

/-- Every read of the lot leaves a batch that is closed for submission as it
is, and the lot too: nothing is appended, and the queuing error of `AddCall`
is not reported, the methods having no result. -/
theorem single_reads_on_closed_batch (c : AuctionLot) (mc : MultiCaller) (out : Slot)
    (blockNumber : Nat) (bidder : Address) (hclosed : mc.closed = true) :
    c.GetLotExists mc = (c, mc) ∧ c.GetLotStartBlock mc = (c, mc) ∧
    c.GetLotEndBlock mc = (c, mc) ∧ c.GetLotStartPrice mc = (c, mc) ∧
    c.GetLotReservePrice mc = (c, mc) ∧ c.GetLotPriceAtCurrentBlock mc = (c, mc) ∧
    c.GetLotPriceByTotalBids mc = (c, mc) ∧ c.GetLotCurrentPrice mc = (c, mc) ∧
    c.GetLotTotalRplAmount mc = (c, mc) ∧ c.GetLotClaimedRplAmount mc = (c, mc) ∧
    c.GetLotRemainingRplAmount mc = (c, mc) ∧ c.GetLotTotalBidAmount mc = (c, mc) ∧
    c.GetLotIsCleared mc = (c, mc) ∧ c.GetLotRplRecovered mc = (c, mc) ∧
    c.GetLotPriceAtBlock mc out blockNumber = (c, mc) ∧
    c.GetLotAddressBidAmount mc out bidder = (c, mc) := by
  simp [AuctionLot.GetLotExists, AuctionLot.GetLotStartBlock,
    AuctionLot.GetLotEndBlock, AuctionLot.GetLotStartPrice, AuctionLot.GetLotReservePrice,
    AuctionLot.GetLotPriceAtCurrentBlock, AuctionLot.GetLotPriceByTotalBids,
    AuctionLot.GetLotCurrentPrice, AuctionLot.GetLotTotalRplAmount,
    AuctionLot.GetLotClaimedRplAmount, AuctionLot.GetLotRemainingRplAmount,
    AuctionLot.GetLotTotalBidAmount, AuctionLot.GetLotIsCleared, AuctionLot.GetLotRplRecovered,
    AuctionLot.GetLotPriceAtBlock, AuctionLot.GetLotAddressBidAmount, AddCall, hclosed]

/-- C9, counterexample: on the empty batch that is already closed for
submission, `AddCall` reports the queuing error and `GetLotExists` of the
sample lot appends no call request; the batch has 0 requests afterwards, not
1, so the read did not append exactly one request. -/
theorem single_reads_closed_batch_counterexample :
    (AddCall ⟨[], true⟩ sampleLot.mgr (.details .Exists) "getLotExists"
      [.bigInt sampleLot.Details.Index.RawValue]) = (⟨[], true⟩, some .BatchClosed) ∧
    sampleLot.GetLotExists ⟨[], true⟩ = (sampleLot, ⟨[], true⟩) ∧
    (sampleLot.GetLotExists ⟨[], true⟩).2.calls.length = 0 ∧
    ¬ AppendsOneRead sampleLot ⟨[], true⟩ "getLotExists" (.details .Exists)
      (sampleLot.GetLotExists ⟨[], true⟩) := by
  refine ⟨rfl, rfl, rfl, ?_⟩
  rintro ⟨call, hcalls, -⟩
  have hlen := congrArg List.length hcalls
  simp [AuctionLot.GetLotExists, AddCall] at hlen

/-- C9, amended: for every lot and every batch that is not closed for
submission, each single-read method of `AuctionLot` appends exactly one call
request to the end of the batch, targeting the auction manager contract with
that method's fixed name and the lot index as first argument; the requests
already queued stay unchanged and in order, the batch stays open, and no field
of the lot's `Details` changes. -/
theorem single_reads_append_one (c : AuctionLot) (mc : MultiCaller) (out : Slot)
    (blockNumber : Nat) (bidder : Address) (hopen : mc.closed = false) :
    AppendsOneRead c mc "getLotExists" (.details .Exists) (c.GetLotExists mc) ∧
    AppendsOneRead c mc "getLotStartBlock" (.details .StartBlock) (c.GetLotStartBlock mc) ∧
    AppendsOneRead c mc "getLotEndBlock" (.details .EndBlock) (c.GetLotEndBlock mc) ∧
    AppendsOneRead c mc "getLotStartPrice" (.details .StartPrice) (c.GetLotStartPrice mc) ∧
    AppendsOneRead c mc "getLotReservePrice" (.details .ReservePrice)
      (c.GetLotReservePrice mc) ∧
    AppendsOneRead c mc "getLotPriceAtCurrentBlock" (.details .PriceAtCurrentBlock)
      (c.GetLotPriceAtCurrentBlock mc) ∧
    AppendsOneRead c mc "getLotPriceByTotalBids" (.details .PriceByTotalBids)
      (c.GetLotPriceByTotalBids mc) ∧
    AppendsOneRead c mc "getLotCurrentPrice" (.details .CurrentPrice)
      (c.GetLotCurrentPrice mc) ∧
    AppendsOneRead c mc "getLotTotalRPLAmount" (.details .TotalRplAmount)
      (c.GetLotTotalRplAmount mc) ∧
    AppendsOneRead c mc "getLotClaimedRPLAmount" (.details .ClaimedRplAmount)
      (c.GetLotClaimedRplAmount mc) ∧
    AppendsOneRead c mc "getLotRemainingRPLAmount" (.details .RemainingRplAmount)
      (c.GetLotRemainingRplAmount mc) ∧
    AppendsOneRead c mc "getLotTotalBidAmount" (.details .TotalBidAmount)
      (c.GetLotTotalBidAmount mc) ∧
    AppendsOneRead c mc "getLotIsCleared" (.details .IsCleared) (c.GetLotIsCleared mc) ∧
    AppendsOneRead c mc "getLotRPLRecovered" (.details .RplRecovered)
      (c.GetLotRplRecovered mc) ∧
    AppendsOneRead c mc "getLotPriceAtBlock" out (c.GetLotPriceAtBlock mc out blockNumber) ∧
    AppendsOneRead c mc "getLotAddressBidAmount" out
      (c.GetLotAddressBidAmount mc out bidder) := by
  obtain ⟨calls, closed⟩ := mc
  simp only at hopen
  subst hopen
  refine ⟨?_, ?_, ?_, ?_, ?_, ?_, ?_, ?_, ?_, ?_, ?_, ?_, ?_, ?_, ?_, ?_⟩ <;>
    exact ⟨_, rfl, rfl, rfl, rfl, rfl, rfl, rfl⟩

/-- C9, instance: the sample lot on the empty open batch, with the caller's
destination 0, the block 7 and the sample address as bidder. -/
theorem single_reads_append_one_witness :
    (⟨[], false⟩ : MultiCaller).closed = false ∧
    AppendsOneRead sampleLot ⟨[], false⟩ "getLotExists" (.details .Exists)
      (sampleLot.GetLotExists ⟨[], false⟩) ∧
    AppendsOneRead sampleLot ⟨[], false⟩ "getLotPriceAtBlock" (.caller 0)
      (sampleLot.GetLotPriceAtBlock ⟨[], false⟩ (.caller 0) 7) :=
  ⟨rfl,
    (single_reads_append_one sampleLot ⟨[], false⟩ (.caller 0) 7 sampleAddress rfl).1,
    (single_reads_append_one sampleLot ⟨[], false⟩ (.caller 0) 7 sampleAddress
      rfl).2.2.2.2.2.2.2.2.2.2.2.2.2.2.1⟩

/-- The 14 requests of `GetAllDetails` on a batch that is not closed for
submission, by method name and destination, in the order in which they are
queued. -/
theorem GetAllDetails_calls (c : AuctionLot) (calls : List Call) :
    c.GetAllDetails ⟨calls, false⟩ = (c, ⟨calls ++
      [ ⟨c.mgr, "getLotExists", [.bigInt c.Details.Index.RawValue], .details .Exists⟩,
        ⟨c.mgr, "getLotStartBlock", [.bigInt c.Details.Index.RawValue], .details .StartBlock⟩,
        ⟨c.mgr, "getLotEndBlock", [.bigInt c.Details.Index.RawValue], .details .EndBlock⟩,
        ⟨c.mgr, "getLotStartPrice", [.bigInt c.Details.Index.RawValue], .details .StartPrice⟩,
        ⟨c.mgr, "getLotReservePrice", [.bigInt c.Details.Index.RawValue],
          .details .ReservePrice⟩,
        ⟨c.mgr, "getLotPriceAtCurrentBlock", [.bigInt c.Details.Index.RawValue],
          .details .PriceAtCurrentBlock⟩,
        ⟨c.mgr, "getLotPriceByTotalBids", [.bigInt c.Details.Index.RawValue],
          .details .PriceByTotalBids⟩,
        ⟨c.mgr, "getLotCurrentPrice", [.bigInt c.Details.Index.RawValue],
          .details .CurrentPrice⟩,
        ⟨c.mgr, "getLotTotalRPLAmount", [.bigInt c.Details.Index.RawValue],
          .details .TotalRplAmount⟩,
        ⟨c.mgr, "getLotClaimedRPLAmount", [.bigInt c.Details.Index.RawValue],
          .details .ClaimedRplAmount⟩,
        ⟨c.mgr, "getLotRemainingRPLAmount", [.bigInt c.Details.Index.RawValue],
          .details .RemainingRplAmount⟩,
        ⟨c.mgr, "getLotTotalBidAmount", [.bigInt c.Details.Index.RawValue],
          .details .TotalBidAmount⟩,
        ⟨c.mgr, "getLotIsCleared", [.bigInt c.Details.Index.RawValue], .details .IsCleared⟩,
        ⟨c.mgr, "getLotRPLRecovered", [.bigInt c.Details.Index.RawValue],
          .details .RplRecovered⟩ ], false⟩) := by
  simp [AuctionLot.GetAllDetails, AuctionLot.GetLotExists, AuctionLot.GetLotStartBlock,
    AuctionLot.GetLotEndBlock, AuctionLot.GetLotStartPrice, AuctionLot.GetLotReservePrice,
    AuctionLot.GetLotPriceAtCurrentBlock, AuctionLot.GetLotPriceByTotalBids,
    AuctionLot.GetLotCurrentPrice, AuctionLot.GetLotTotalRplAmount,
    AuctionLot.GetLotClaimedRplAmount, AuctionLot.GetLotRemainingRplAmount,
    AuctionLot.GetLotTotalBidAmount, AuctionLot.GetLotIsCleared, AuctionLot.GetLotRplRecovered,
    AddCall]

/-- On a batch that is closed for submission `GetAllDetails` appends nothing:
each of its 14 reads leaves the batch and the lot as they are. -/
theorem GetAllDetails_on_closed_batch (c : AuctionLot) (calls : List Call) :
    c.GetAllDetails ⟨calls, true⟩ = (c, ⟨calls, true⟩) := by
  simp [AuctionLot.GetAllDetails, AuctionLot.GetLotExists, AuctionLot.GetLotStartBlock,
    AuctionLot.GetLotEndBlock, AuctionLot.GetLotStartPrice, AuctionLot.GetLotReservePrice,
    AuctionLot.GetLotPriceAtCurrentBlock, AuctionLot.GetLotPriceByTotalBids,
    AuctionLot.GetLotCurrentPrice, AuctionLot.GetLotTotalRplAmount,
    AuctionLot.GetLotClaimedRplAmount, AuctionLot.GetLotRemainingRplAmount,
    AuctionLot.GetLotTotalBidAmount, AuctionLot.GetLotIsCleared, AuctionLot.GetLotRplRecovered,
    AddCall]

/-- C10, counterexample: on the empty batch that is already closed for
submission, `GetAllDetails` of the sample lot appends no call request: the
batch has 0 requests afterwards, not 14. -/
theorem GetAllDetails_closed_batch_counterexample :
    sampleLot.GetAllDetails ⟨[], true⟩ = (sampleLot, ⟨[], true⟩) ∧
    (sampleLot.GetAllDetails ⟨[], true⟩).2.calls.length = 0 ∧
    ¬ ∃ added : List Call,
      (sampleLot.GetAllDetails ⟨[], true⟩).2.calls
        = (⟨[], true⟩ : MultiCaller).calls ++ added ∧ added.length = 14 := by
  refine ⟨rfl, rfl, ?_⟩
  rintro ⟨added, hcalls, hlen⟩
  have h := congrArg List.length hcalls
  rw [GetAllDetails_on_closed_batch] at h
  simp [hlen] at h

/-- C10, amended: for every lot and every batch that is not closed for
submission, `GetAllDetails` appends exactly 14 call requests to the batch, in
the order exists, start block, end block, start price, reserve price, price at
current block, price by total bids, current price, total RPL, claimed RPL,
remaining RPL, total bid amount, cleared, RPL recovered; every field of
`AuctionLotDetails` other than `Index` is the destination of exactly one of
them (and `Index` of none), the method names are pairwise distinct, and each
request carries the lot index as its only argument. -/
theorem GetAllDetails_queues_fourteen (c : AuctionLot) (mc : MultiCaller)
    (hopen : mc.closed = false) :
    ∃ added : List Call,
      (c.GetAllDetails mc).2.calls = mc.calls ++ added ∧ added.length = 14 ∧
      added.map Call.output =
        [.details .Exists, .details .StartBlock, .details .EndBlock, .details .StartPrice,
          .details .ReservePrice, .details .PriceAtCurrentBlock, .details .PriceByTotalBids,
          .details .CurrentPrice, .details .TotalRplAmount, .details .ClaimedRplAmount,
          .details .RemainingRplAmount, .details .TotalBidAmount, .details .IsCleared,
          .details .RplRecovered] ∧
      added.map Call.method =
        ["getLotExists", "getLotStartBlock", "getLotEndBlock", "getLotStartPrice",
          "getLotReservePrice", "getLotPriceAtCurrentBlock", "getLotPriceByTotalBids",
          "getLotCurrentPrice", "getLotTotalRPLAmount", "getLotClaimedRPLAmount",
          "getLotRemainingRPLAmount", "getLotTotalBidAmount", "getLotIsCleared",
          "getLotRPLRecovered"] ∧
      (∀ field : DetailsField,
        (added.filter (fun call => call.output = .details field)).length
          = if field = .Index then 0 else 1) ∧
      (added.map Call.method).Nodup ∧
      (∀ call ∈ added, call.args = [.bigInt c.Details.Index.RawValue] ∧ call.target = c.mgr) ∧
      (c.GetAllDetails mc).1 = c ∧ (c.GetAllDetails mc).2.closed = false := by
  obtain ⟨calls, closed⟩ := mc
  simp only at hopen
  subst hopen
  rw [GetAllDetails_calls]
  refine ⟨_, rfl, rfl, rfl, rfl, ?_, ?_, ?_, rfl, rfl⟩
  · intro field
    cases field <;> simp [List.filter]
  · simp only [List.map]
    decide
  · intro call hcall
    simp only [List.mem_cons, List.mem_singleton, List.not_mem_nil, or_false] at hcall
    rcases hcall with h | h | h | h | h | h | h | h | h | h | h | h | h | h <;>
      subst h <;> exact ⟨rfl, rfl⟩

/-- C10, instance: the sample lot on the empty open batch; the 14 requests are
the whole batch afterwards. -/
theorem GetAllDetails_queues_fourteen_witness :
    (⟨[], false⟩ : MultiCaller).closed = false ∧
    (sampleLot.GetAllDetails ⟨[], false⟩).2.calls.length = 14 := by
  refine ⟨rfl, ?_⟩
  obtain ⟨added, hcalls, hlen, -⟩ := GetAllDetails_queues_fourteen sampleLot ⟨[], false⟩ rfl
  rw [hcalls]
  simpa using hlen

theorem encodeArg_mismatch (c : SettingTypeConsts) (i settingType : Nat) (value : AnyValue)
    (h : TypeMismatch c settingType value) :
    ∃ err, encodeArg c i settingType value = .returned (.error err) ∧
      NamesIndex c settingType i err := by
  rcases h with ⟨ht, hv⟩ | ⟨ht, hv⟩ | ⟨ht, hv⟩
  · refine ⟨.notBigInt i, ?_, Or.inl ⟨ht, rfl⟩⟩
    subst ht
    cases value with
    | bigInt p => exact absurd rfl (hv p)
    | bool b => simp [encodeArg]
    | address a => simp [encodeArg]
    | other n => simp [encodeArg]
  · refine ⟨.notBool i, ?_, Or.inr (Or.inl ⟨ht, rfl⟩)⟩
    subst ht
    have hne := c.uint256_ne_bool
    cases value with
    | bigInt p => simp [encodeArg, Ne.symm hne]
    | bool b => exact absurd rfl (hv b)
    | address a => simp [encodeArg, Ne.symm hne]
    | other n => simp [encodeArg, Ne.symm hne]
  · refine ⟨.notAddress i, ?_, Or.inr (Or.inr ⟨ht, rfl⟩)⟩
    subst ht
    have h1 := c.uint256_ne_address
    have h2 := c.bool_ne_address
    cases value with
    | bigInt p => simp [encodeArg, Ne.symm h1, Ne.symm h2]
    | bool b => simp [encodeArg, Ne.symm h1, Ne.symm h2]
    | address a => exact absurd rfl (hv a)
    | other n => simp [encodeArg, Ne.symm h1, Ne.symm h2]

/-- C18: on lists of equal length, if `i` is the smallest index at which the
value's Go type does not match its setting type and every earlier entry is
valid, `abiEncodeMultiValues` returns a nil result (no partial list) and the
error that names index `i`. -/
theorem abiEncodeMultiValues_type_mismatch (c : SettingTypeConsts)
    (typesBefore typesAfter : List Nat) (valuesBefore valuesAfter : List AnyValue)
    (settingType : Nat) (value : AnyValue)
    (hbefore : List.Forall₂ (ValidEntry c) typesBefore valuesBefore)
    (hlen : typesAfter.length = valuesAfter.length)
    (hmis : TypeMismatch c settingType value) :
    ∃ err, abiEncodeMultiValues c (typesBefore ++ settingType :: typesAfter)
        (valuesBefore ++ value :: valuesAfter) = .returned (none, some err) ∧
      NamesIndex c settingType typesBefore.length err := by
  have hl := hbefore.length_eq
  obtain ⟨err, herr, hname⟩ := encodeArg_mismatch c typesBefore.length settingType value hmis
  refine ⟨err, ?_, hname⟩
  unfold abiEncodeMultiValues
  simp only [List.length_append, List.length_cons, hl, hlen, ne_eq, not_true_eq_false, if_false,
    Nat.add_eq_zero, Nat.succ_ne_zero, and_false]
  obtain ⟨encs, _, _, hloop⟩ := encodeLoop_through_valid c typesBefore valuesBefore hbefore []
    (value :: valuesAfter) (settingType :: typesAfter)
    (List.replicate (valuesBefore.length + (valuesAfter.length + 1)) []) (by simp [hl])
  simp only [List.nil_append, List.length_nil, Nat.zero_add] at hloop
  rw [hloop, encodeLoop]
  have hget : (valuesBefore ++ value :: valuesAfter)[typesBefore.length]? = some value := by
    rw [hl, List.getElem?_append_right (Nat.le_refl _)]
    simp
  rw [hget]
  simp only [herr]

theorem abiEncodeMultiValues_type_mismatch_witness :
    ∃ err, abiEncodeMultiValues iotaConsts ([0, 1] ++ 2 :: [1])
        ([.bigInt (some 5), .bool false] ++ .bool true :: [.other "string"])
          = .returned (none, some err) ∧
      NamesIndex iotaConsts 2 [0, 1].length err :=
  abiEncodeMultiValues_type_mismatch iotaConsts [0, 1] [1] [.bigInt (some 5), .bool false]
    [.other "string"] 2 (.bool true)
    (.cons (Or.inl ⟨rfl, 5, rfl⟩) (.cons (Or.inr (Or.inl ⟨rfl, false, rfl⟩)) .nil)) rfl
    (Or.inr (Or.inr ⟨rfl, fun _ h => by cases h⟩))

theorem Address.eq_of_bytes_eq (a b : Address) (h : a.bytes = b.bytes) : a = b := by
  cases a
  cases b
  simp only [Address.mk.injEq]
  exact h

/-- C19: in the result of `abiEncodeMultiValues`, the entry for a Bool value is
31 zero bytes followed by `0x01` when the value is true and 32 zero bytes when
it is false, and the entry for an Address value is 12 zero bytes followed by
the 20 bytes of the address in order; so equal entries come from equal bools
and from equal addresses. -/
theorem abiEncodeMultiValues_bool_address_entries (c : SettingTypeConsts)
    (settingTypes : List Nat) (values : List AnyValue)
    (hvalid : List.Forall₂ (ValidEntry c) settingTypes values) :
    ∃ results : List Bytes,
      abiEncodeMultiValues c settingTypes values = .returned (some results, none) ∧
      (∀ (i : Nat) (b : Bool), values[i]? = some (.bool b) →
        results[i]? = some (if b then List.replicate 31 0 ++ [1] else List.replicate 32 0)) ∧
      (∀ (i : Nat) (a : Address), values[i]? = some (.address a) →
        results[i]? = some (List.replicate 12 0 ++ a.bytes) ∧
        (List.replicate 12 0 ++ a.bytes).length = 32) ∧
      (∀ (i j : Nat) (b b' : Bool), values[i]? = some (.bool b) →
        values[j]? = some (.bool b') → results[i]? = results[j]? → b = b') ∧
      (∀ (i j : Nat) (a a' : Address), values[i]? = some (.address a) →
        values[j]? = some (.address a') → results[i]? = results[j]? → a = a') := by
  obtain ⟨results, hres, hmap, _⟩ := abiEncodeMultiValues_ok c settingTypes values hvalid
  have hbool : ∀ (i : Nat) (b : Bool), values[i]? = some (.bool b) →
      results[i]? = some (if b then List.replicate 31 0 ++ [1] else List.replicate 32 0) := by
    intro i b hv
    obtain ⟨e, he, henc⟩ := getElem?_of_map_eq values results hmap i _ hv
    simp only [encodingOf, Option.some.injEq] at henc
    rw [he, ← henc]
    cases b
    · simp only [Bool.false_eq_true, if_false]
      rw [PaddedBigBytes_zero]
    · simp only [if_true]
      rw [PaddedBigBytes_one]
  have haddr : ∀ (i : Nat) (a : Address), values[i]? = some (.address a) →
      results[i]? = some (List.replicate 12 0 ++ a.bytes) := by
    intro i a hv
    obtain ⟨e, he, henc⟩ := getElem?_of_map_eq values results hmap i _ hv
    simp only [encodingOf, Option.some.injEq] at henc
    rw [he, ← henc, LeftPadBytes_address]
  refine ⟨results, hres, hbool, ?_, ?_, ?_⟩
  · intro i a hv
    exact ⟨haddr i a hv, by simp [a.size_eq]⟩
  · intro i j b b' hi hj heq
    rw [hbool i b hi, hbool j b' hj] at heq
    cases b <;> cases b' <;> first | rfl | (exact absurd heq (by decide))
  · intro i j a a' hi hj heq
    rw [haddr i a hi, haddr j a' hj] at heq
    simp only [Option.some.injEq, List.append_cancel_left_eq] at heq
    exact Address.eq_of_bytes_eq a a' heq

theorem abiEncodeMultiValues_bool_address_entries_witness :
    ∃ results : List Bytes,
      abiEncodeMultiValues iotaConsts [1, 2, 1]
          [.bool true, .address sampleAddress, .bool false] = .returned (some results, none) ∧
      (∀ (i : Nat) (b : Bool),
        [AnyValue.bool true, AnyValue.address sampleAddress, AnyValue.bool false][i]?
            = some (.bool b) →
        results[i]? = some (if b then List.replicate 31 0 ++ [1] else List.replicate 32 0)) ∧
      (∀ (i : Nat) (a : Address),
        [AnyValue.bool true, AnyValue.address sampleAddress, AnyValue.bool false][i]?
            = some (.address a) →
        results[i]? = some (List.replicate 12 0 ++ a.bytes) ∧
        (List.replicate 12 0 ++ a.bytes).length = 32) ∧
      (∀ (i j : Nat) (b b' : Bool),
        [AnyValue.bool true, AnyValue.address sampleAddress, AnyValue.bool false][i]?
            = some (.bool b) →
        [AnyValue.bool true, AnyValue.address sampleAddress, AnyValue.bool false][j]?
            = some (.bool b') →
        results[i]? = results[j]? → b = b') ∧
      (∀ (i j : Nat) (a a' : Address),
        [AnyValue.bool true, AnyValue.address sampleAddress, AnyValue.bool false][i]?
            = some (.address a) →
        [AnyValue.bool true, AnyValue.address sampleAddress, AnyValue.bool false][j]?
            = some (.address a') →
        results[i]? = results[j]? → a = a') :=
  abiEncodeMultiValues_bool_address_entries iotaConsts [1, 2, 1]
    [.bool true, .address sampleAddress, .bool false]
    (.cons (Or.inr (Or.inl ⟨rfl, true, rfl⟩))
      (.cons (Or.inr (Or.inr ⟨rfl, sampleAddress, rfl⟩))
        (.cons (Or.inr (Or.inl ⟨rfl, false, rfl⟩)) .nil)))

/-- C20: for every input and every behaviour of the collaborators,
`SubmitProposal` submits the `propose` transaction at most once (it is never
submitted again after a failure); when the contract lookup or the
proposal-count read fails nothing is submitted; and on every failure path (a
failed lookup, count read or submission) it returns proposal ID 0, the zero
hash and a non-nil error. -/
theorem SubmitProposal_at_most_once (w : World) (message : String) (payload : Bytes)
    (blockNumber : Nat) (treeNodes : List VotingTreeNode) (opts : Option TransactOpts)
    (trace : List Op) :
    (∃ added : List Op,
      (SubmitProposal w message payload blockNumber treeNodes opts trace).2 = trace ++ added ∧
      (added.filter Op.isTransact).length ≤ 1 ∧
      ∀ op ∈ added, op.isTransact = true → ∃ contract, op = .transact contract opts "propose"
        [.string message, .bytes payload, .uint32 blockNumber, .treeNodes treeNodes]) ∧
    (∀ err, w.getContract trace "rocketDAOProtocolProposals" = .error err →
      SubmitProposal w message payload blockNumber treeNodes opts trace
        = ((0, Hash.zero, some err), trace ++ [.getContract "rocketDAOProtocolProposals"])) ∧
    (∀ contract err, w.getContract trace "rocketDAOProtocolProposals" = .ok contract →
      w.getProposalCount (trace ++ [.getContract "rocketDAOProtocolProposals"]) = .error err →
      SubmitProposal w message payload blockNumber treeNodes opts trace
        = ((0, Hash.zero, some err),
            trace ++ [.getContract "rocketDAOProtocolProposals"] ++ [.getProposalCount])) ∧
    (∀ contract count err, w.getContract trace "rocketDAOProtocolProposals" = .ok contract →
      w.getProposalCount (trace ++ [.getContract "rocketDAOProtocolProposals"]) = .ok count →
      w.transact (trace ++ [.getContract "rocketDAOProtocolProposals"] ++ [.getProposalCount])
          contract opts "propose"
          [.string message, .bytes payload, .uint32 blockNumber, .treeNodes treeNodes]
        = .error err →
      SubmitProposal w message payload blockNumber treeNodes opts trace
        = ((0, Hash.zero, some (.wrapped "error submitting Protocol DAO proposal" err)),
            trace ++ [.getContract "rocketDAOProtocolProposals"] ++ [.getProposalCount] ++
              [.transact contract.address opts "propose"
                [.string message, .bytes payload, .uint32 blockNumber,
                  .treeNodes treeNodes]])) ∧
    ((SubmitProposal w message payload blockNumber treeNodes opts trace).1.2.2 ≠ none →
      (SubmitProposal w message payload blockNumber treeNodes opts trace).1.1 = 0 ∧
      (SubmitProposal w message payload blockNumber treeNodes opts trace).1.2.1 = Hash.zero) := by
  simp only [SubmitProposal, getRocketDAOProtocolProposals, GetProposalCount, Contract.Transact]
  cases h1 : w.getContract trace "rocketDAOProtocolProposals" with
  | error e =>
    refine ⟨⟨[.getContract "rocketDAOProtocolProposals"], rfl, by decide, ?_⟩, ?_, ?_, ?_, ?_⟩
    · intro op hop ht
      rw [List.mem_singleton] at hop
      subst hop
      exact absurd ht (by decide)
    · intro err herr
      cases herr
      rfl
    · intro contract err herr
      cases herr
    · intro contract count err herr
      cases herr
    · intro _
      exact ⟨rfl, rfl⟩
  | ok contract =>
    simp only []
    cases h2 : w.getProposalCount (trace ++ [.getContract "rocketDAOProtocolProposals"]) with
    | error e =>
      refine ⟨⟨[.getContract "rocketDAOProtocolProposals", .getProposalCount], by simp,
        by decide, ?_⟩, ?_, ?_, ?_, ?_⟩
      · intro op hop ht
        simp only [List.mem_cons, List.mem_singleton, List.not_mem_nil, or_false] at hop
        rcases hop with rfl | rfl <;> exact absurd ht (by decide)
      · intro err herr
        cases herr
      · intro contract' err hc herr
        cases hc
        cases herr
        rfl
      · intro contract' count err hc herr
        cases herr
      · intro _
        exact ⟨rfl, rfl⟩
    | ok count =>
      simp only []
      have hadded : ∀ op ∈ [Op.getContract "rocketDAOProtocolProposals", Op.getProposalCount,
          Op.transact contract.address opts "propose"
            [.string message, .bytes payload, .uint32 blockNumber, .treeNodes treeNodes]],
          op.isTransact = true → ∃ a, op = .transact a opts "propose"
            [.string message, .bytes payload, .uint32 blockNumber, .treeNodes treeNodes] := by
        intro op hop ht
        simp only [List.mem_cons, List.mem_singleton, List.not_mem_nil, or_false] at hop
        rcases hop with rfl | rfl | rfl
        · exact absurd ht (by decide)
        · exact absurd ht (by decide)
        · exact ⟨_, rfl⟩
      cases h3 : w.transact
          (trace ++ [.getContract "rocketDAOProtocolProposals"] ++ [.getProposalCount])
          contract opts "propose"
          [.string message, .bytes payload, .uint32 blockNumber, .treeNodes treeNodes] with
      | error e =>
        refine ⟨⟨_, by simp, ?_, hadded⟩, ?_, ?_, ?_, ?_⟩
        · simp [List.filter, Op.isTransact]
        · intro err herr
          cases herr
        · intro contract' err hc herr
          cases herr
        · intro contract' count' err hc hcount herr
          cases hc
          cases hcount
          rw [h3] at herr
          cases herr
          rfl
        · intro _
          exact ⟨rfl, rfl⟩
      | ok tx =>
        refine ⟨⟨_, by simp, ?_, hadded⟩, ?_, ?_, ?_, ?_⟩
        · simp [List.filter, Op.isTransact]
        · intro err herr
          cases herr
        · intro contract' err hc herr
          cases herr
        · intro contract' count' err hc hcount herr
          cases hc
          rw [h3] at herr
          cases herr
        · intro h
          exact absurd rfl h

/-- C11: for one auction lot, after enqueuing `GetLotExists`, `GetLotStartBlock`
and `GetLotCurrentPrice` on one batch and executing it with the results
`(true, b, 1500000000000000000)` in request order, the lot's `Details` hold
`Exists = true`, `StartBlock` equal to `b` and `CurrentPrice` equal to 1.5 (the
wire value divided by `10 ^ 18`); each result is in the destination of the
request at the same position, and nothing else of the lot has changed. -/
theorem execute_three_reads (c : AuctionLot) (b : Nat) (hb : b < 2 ^ 64) :
    ∃ c' : AuctionLot,
      Execute
          ((((c.GetLotExists ⟨[], false⟩).1.GetLotStartBlock (c.GetLotExists ⟨[], false⟩).2).1).GetLotCurrentPrice
            (((c.GetLotExists ⟨[], false⟩).1.GetLotStartBlock (c.GetLotExists ⟨[], false⟩).2).2)).1
          ((((c.GetLotExists ⟨[], false⟩).1.GetLotStartBlock (c.GetLotExists ⟨[], false⟩).2).1).GetLotCurrentPrice
            (((c.GetLotExists ⟨[], false⟩).1.GetLotStartBlock (c.GetLotExists ⟨[], false⟩).2).2)).2
          [.bool true, .uint b, .uint 1500000000000000000] = .ok (c', []) ∧
      c'.Details.Exists = true ∧
      c'.Details.StartBlock.RawValue = some (b : Int) ∧
      c'.Details.StartBlock.uint64 = some b ∧
      c'.Details.CurrentPrice.RawValue = some 1500000000000000000 ∧
      c'.Details.CurrentPrice.ratio = some (3 / 2) ∧
      c' = { c with Details := { c.Details with
        Exists := true, StartBlock := ⟨some (b : Int)⟩,
        CurrentPrice := ⟨some 1500000000000000000⟩ } } := by
  refine ⟨_, rfl, rfl, rfl, ?_, rfl, ?_, rfl⟩
  · have hb' : b < 18446744073709551616 := hb
    simp [Parameter.uint64, hb']
  · simp only [Parameter.ratio, Option.map_some', Option.some.injEq]
    norm_num

theorem execute_three_reads_witness :
    ∃ c' : AuctionLot,
      Execute
          ((((sampleLot.GetLotExists ⟨[], false⟩).1.GetLotStartBlock
              (sampleLot.GetLotExists ⟨[], false⟩).2).1).GetLotCurrentPrice
            (((sampleLot.GetLotExists ⟨[], false⟩).1.GetLotStartBlock
              (sampleLot.GetLotExists ⟨[], false⟩).2).2)).1
          ((((sampleLot.GetLotExists ⟨[], false⟩).1.GetLotStartBlock
              (sampleLot.GetLotExists ⟨[], false⟩).2).1).GetLotCurrentPrice
            (((sampleLot.GetLotExists ⟨[], false⟩).1.GetLotStartBlock
              (sampleLot.GetLotExists ⟨[], false⟩).2).2)).2
          [.bool true, .uint (18500000 : Nat), .uint 1500000000000000000] = .ok (c', []) ∧
      c'.Details.Exists = true ∧
      c'.Details.StartBlock.RawValue = some ((18500000 : Nat) : Int) ∧
      c'.Details.StartBlock.uint64 = some 18500000 ∧
      c'.Details.CurrentPrice.RawValue = some 1500000000000000000 ∧
      c'.Details.CurrentPrice.ratio = some (3 / 2) ∧
      c' = { sampleLot with Details := { sampleLot.Details with
        Exists := true, StartBlock := ⟨some ((18500000 : Nat) : Int)⟩,
        CurrentPrice := ⟨some 1500000000000000000⟩ } } :=
  execute_three_reads sampleLot 18500000 (by decide)

/-- C12: for every lot and signing options, `PlaceBid`, `ClaimBid` and
`RecoverUnclaimedRpl` each build a transaction request against the auction
manager contract for the method `placeBid`, `claimBid` and
`recoverUnclaimedRPL` respectively, with the lot index as the sole argument and
the given options passed through (the build fails with `NotWritable`, and only
so, when the contract has the method as read-only); building the request
changes no field of the lot. -/
theorem transactions_build_requests (readOnly : CoreContract → String → Bool) (c : AuctionLot)
    (opts : Option TransactOpts) :
    (c.PlaceBid readOnly opts).1 = c ∧
    (c.ClaimBid readOnly opts).1 = c ∧
    (c.RecoverUnclaimedRpl readOnly opts).1 = c ∧
    (c.PlaceBid readOnly opts).2 =
      (if readOnly c.mgr "placeBid" then .error (.NotWritable "placeBid")
       else .ok ⟨c.mgr, "placeBid", [.bigInt c.Details.Index.RawValue], opts⟩) ∧
    (c.ClaimBid readOnly opts).2 =
      (if readOnly c.mgr "claimBid" then .error (.NotWritable "claimBid")
       else .ok ⟨c.mgr, "claimBid", [.bigInt c.Details.Index.RawValue], opts⟩) ∧
    (c.RecoverUnclaimedRpl readOnly opts).2 =
      (if readOnly c.mgr "recoverUnclaimedRPL" then .error (.NotWritable "recoverUnclaimedRPL")
       else .ok ⟨c.mgr, "recoverUnclaimedRPL", [.bigInt c.Details.Index.RawValue], opts⟩) ∧
    (∀ (f : AuctionLot → AuctionLot × Except CoreError TransactionInfo) (info : TransactionInfo),
      f ∈ [fun l => l.PlaceBid readOnly opts, fun l => l.ClaimBid readOnly opts,
        fun l => l.RecoverUnclaimedRpl readOnly opts] →
      (f c).2 = .ok info →
        info.target = c.mgr ∧ info.args = [.bigInt c.Details.Index.RawValue] ∧
        info.opts = opts ∧ (f c).1.Details = c.Details) := by
  refine ⟨rfl, rfl, rfl, rfl, rfl, rfl, ?_⟩
  intro f info hf hok
  simp only [List.mem_cons, List.mem_singleton, List.not_mem_nil, or_false] at hf
  rcases hf with rfl | rfl | rfl <;>
    · simp only [AuctionLot.PlaceBid, AuctionLot.ClaimBid, AuctionLot.RecoverUnclaimedRpl,
        NewTransactionInfo] at hok
      split at hok
      · cases hok
      · cases hok
        exact ⟨rfl, rfl, rfl, rfl⟩

/-- C13, on every minipool binding: `GetRplSlashed` enqueues one
`getMinipoolRPLSlashed(address)` read on the minipool manager (on every batch
that is not closed for submission; a closed batch is left as it is), but its
destination is the `WithdrawalCredentials` field, the destination of
`GetWithdrawalCredentials`, and not the `RplSlashed` field; of the reads of the
minipool manager none has `RplSlashed` as destination. -/
theorem GetRplSlashed_destination (c : minipoolCommon) (mc : MultiCaller) :
    c.GetRplSlashed mc = (c, if mc.closed then mc else ⟨mc.calls ++
      [⟨c.mpMgr, "getMinipoolRPLSlashed", [.address c.Details.Address],
        .minipool .WithdrawalCredentials⟩], false⟩) ∧
    (∀ call ∈ (c.GetRplSlashed ⟨[], false⟩).2.calls, call.output ≠ .minipool .RplSlashed) ∧
    (c.GetRplSlashed ⟨[], false⟩).2.calls.map Call.output
      = (c.GetWithdrawalCredentials ⟨[], false⟩).2.calls.map Call.output ∧
    (∀ call ∈ (c.GetExists ⟨[], false⟩).2.calls ++ (c.GetPubkey ⟨[], false⟩).2.calls ++
        (c.GetWithdrawalCredentials ⟨[], false⟩).2.calls ++
        (c.GetRplSlashed ⟨[], false⟩).2.calls ++ (c.GetDepositType ⟨[], false⟩).2.calls,
      call.output ≠ .minipool .RplSlashed) := by
  refine ⟨?_, ?_, rfl, ?_⟩
  · obtain ⟨calls, closed⟩ := mc
    cases closed <;> rfl
  · intro call hcall
    simp only [minipoolCommon.GetRplSlashed, AddCall, List.nil_append, Bool.false_eq_true,
      if_false, List.mem_singleton] at hcall
    subst hcall
    simp
  · intro call hcall
    simp only [minipoolCommon.GetRplSlashed, minipoolCommon.GetExists,
      minipoolCommon.GetPubkey, minipoolCommon.GetWithdrawalCredentials,
      minipoolCommon.GetDepositType, AddCall, List.nil_append, List.mem_append,
      Bool.false_eq_true, if_false, List.mem_singleton] at hcall
    rcases hcall with (((h | h) | h) | h) | h <;> subst h <;> simp

/-- C17: for every 32-byte value `h`, once the contract's
`getWithdrawalCredentials` call produces `h` (the credentials have been set to
`h`), `GetWithdrawalCredentials` returns exactly `h`, unchanged, and no error;
when that call fails it returns the zero hash together with the wrapped error
(and the zero hash with the lookup's error when the contract lookup fails). -/
theorem GetWithdrawalCredentials_returns_call_output (rp : WithdrawalNode)
    (opts : Option CallOpts) (contract : BoundContract)
    (hlookup : rp.GetContract "rocketNetworkWithdrawal" = .ok contract) :
    (∀ h : Hash, rp.Call contract opts "getWithdrawalCredentials" = .ok h →
      GetWithdrawalCredentials rp opts = (h, none)) ∧
    (∀ err : GoError, rp.Call contract opts "getWithdrawalCredentials" = .error err →
      GetWithdrawalCredentials rp opts
        = (Hash.zero, some (.wrapped "Could not get network withdrawal credentials" err))) := by
  constructor
  · intro h hcall
    simp [GetWithdrawalCredentials, getRocketNetworkWithdrawal, hlookup, hcall]
  · intro err hcall
    simp [GetWithdrawalCredentials, getRocketNetworkWithdrawal, hlookup, hcall]

theorem GetWithdrawalCredentials_returns_call_output_witness :
    (∀ h : Hash,
      (WithdrawalNode.mk (fun _ => .ok ⟨sampleAddress⟩) (fun _ _ _ => .ok sampleHash)).Call
          ⟨sampleAddress⟩ none "getWithdrawalCredentials" = .ok h →
      GetWithdrawalCredentials
          (WithdrawalNode.mk (fun _ => .ok ⟨sampleAddress⟩) (fun _ _ _ => .ok sampleHash)) none
        = (h, none)) ∧
    (∀ err : GoError,
      (WithdrawalNode.mk (fun _ => .ok ⟨sampleAddress⟩) (fun _ _ _ => .ok sampleHash)).Call
          ⟨sampleAddress⟩ none "getWithdrawalCredentials" = .error err →
      GetWithdrawalCredentials
          (WithdrawalNode.mk (fun _ => .ok ⟨sampleAddress⟩) (fun _ _ _ => .ok sampleHash)) none
        = (Hash.zero, some (.wrapped "Could not get network withdrawal credentials" err))) :=
  GetWithdrawalCredentials_returns_call_output
    (WithdrawalNode.mk (fun _ => .ok ⟨sampleAddress⟩) (fun _ _ _ => .ok sampleHash)) none
    ⟨sampleAddress⟩ rfl

/-- When the contract lookup fails, `GetWithdrawalCredentials` returns the zero
hash and the lookup's error, unwrapped. -/
theorem GetWithdrawalCredentials_lookup_error (rp : WithdrawalNode) (opts : Option CallOpts)
    (err : GoError) (hlookup : rp.GetContract "rocketNetworkWithdrawal" = .error err) :
    GetWithdrawalCredentials rp opts = (Hash.zero, some err) := by
  simp [GetWithdrawalCredentials, getRocketNetworkWithdrawal, hlookup]

/-- With deploy block 0 the loop condition `i >= fromBlock` holds for every
`uint64` value `i`: when no window holds a log, the scan has not ended after
any number of evaluations of the condition. -/
theorem scanLoop_never_ends (n : PrestakeNode) (address : Address) (intervalSize : Option Int)
    (hlogs : ∀ a s f t, n.GetLogs a s f t = .ok []) :
    ∀ (fuel i windows : Nat), scanLoop n address intervalSize 0 fuel i windows = none
  | 0, _, _ => rfl
  | fuel + 1, i, windows => by
    rw [scanLoop]
    simp only [ge_iff_le, Nat.zero_le, if_true, hlogs]
    exact scanLoop_never_ends n address intervalSize hlogs fuel _ _

/-- C15, at the failing input: with current block 5 and deploy block 0, and no
log in any window, the backward scan of `GetPrestakeEvent` never ends (after
the first window `i -= 10000` wraps around to `2 ^ 64 - 9995`), so the function
does not return; with current block 20150 and deploy block 100 the scan is
still running after 10 windows, the bound being 3. -/
theorem GetPrestakeEvent_scan_does_not_end :
    (∀ fuel : Nat,
      sampleMinipool.GetPrestakeEvent (emptyLogsNode 5 0) none none fuel = none) ∧
    sub64 5 eventScanInterval = 2 ^ 64 - 9995 ∧
    (20150 - 100 + 1 + 9999) / 10000 = 3 ∧
    scanLoop (emptyLogsNode 20150 100) sampleAddress none 100 11 20150 0 = none := by
  refine ⟨?_, by decide, by decide, by rfl⟩
  intro fuel
  have h := scanLoop_never_ends (emptyLogsNode 5 0) sampleAddress none (fun _ _ _ _ => rfl)
    fuel 5 0
  simp only [minipoolCommon.GetPrestakeEvent, emptyLogsNode, big_Uint64] at h ⊢
  simp only [sampleMinipool]
  have h0 : Int.natAbs ((0 : Nat) : Int) % 2 ^ 64 = 0 := by decide
  rw [h0, h]

/-- Whenever the scan finds a log and `UnpackLog` fails on it, `GetPrestakeEvent`
goes on with the event as the failed call left it: it panics when the event's
time is nil, and otherwise returns the data built from that event with a nil
error. -/
theorem GetPrestakeEvent_after_failed_unpack (n : PrestakeNode) (c : minipoolCommon)
    (intervalSize : Option Int) (opts : Option CallOpts) (fuel currentBlock windows : Nat)
    (fromBlockBig : Int) (log : Log) (event : MinipoolPrestakeEvent) (unpackErr : GoError)
    (hblock : n.BlockNumber = .ok currentBlock)
    (hdeploy : n.QueryDeployBlock opts = .ok (some fromBlockBig))
    (hscan : scanLoop n c.Details.Address intervalSize (big_Uint64 fromBlockBig) fuel
      currentBlock 0 = some (.ok (some log), windows))
    (hunpack : n.UnpackLog log = (event, some unpackErr)) :
    c.GetPrestakeEvent n intervalSize opts fuel =
      match event.Time with
      | none => some .panicked
      | some time =>
        some (.returned
          ({ Pubkey := n.BytesToValidatorPubkey event.Pubkey
             WithdrawalCredentials := BytesToHash event.WithdrawalCredentials
             Amount := event.Amount
             Signature := n.BytesToValidatorSignature event.Signature
             DepositDataRoot := event.DepositDataRoot
             Time := .unix (big_Int64 time) }, none)) := by
  simp only [minipoolCommon.GetPrestakeEvent, hblock, hdeploy, hscan, hunpack]

/-- C16, at the failing input: a log is found in the first window and
`UnpackLog` fails on it. When the failed call leaves the event zero-valued,
`GetPrestakeEvent` panics (the event's time is nil); when it leaves the event
partly filled, with a time, the function returns data built from it and a nil
error. In neither case does it return the `error unpacking prestake data`
error. -/
theorem GetPrestakeEvent_unpack_error_dropped :
    ((failingUnpackNode MinipoolPrestakeEvent.new).UnpackLog sampleLog).2
      = some (.external "abi: cannot unmarshal log data") ∧
    sampleMinipool.GetPrestakeEvent (failingUnpackNode MinipoolPrestakeEvent.new) none none 1
      = some .panicked ∧
    sampleMinipool.GetPrestakeEvent
        (failingUnpackNode { MinipoolPrestakeEvent.new with Time := some 1700000000 }) none none 1
      = some (.returned
          ({ Pubkey := List.replicate 48 0, WithdrawalCredentials := Hash.zero, Amount := none,
             Signature := List.replicate 96 0, DepositDataRoot := Hash.zero,
             Time := .unix 1700000000 }, none)) := by
  refine ⟨rfl, ?_, ?_⟩
  · rw [GetPrestakeEvent_after_failed_unpack (failingUnpackNode MinipoolPrestakeEvent.new)
      sampleMinipool none none 1 18500000 1 18000000 sampleLog MinipoolPrestakeEvent.new
      (.external "abi: cannot unmarshal log data") rfl rfl (by rfl) rfl]
    rfl
  · rw [GetPrestakeEvent_after_failed_unpack
      (failingUnpackNode { MinipoolPrestakeEvent.new with Time := some 1700000000 })
      sampleMinipool none none 1 18500000 1 18000000 sampleLog
      { MinipoolPrestakeEvent.new with Time := some 1700000000 }
      (.external "abi: cannot unmarshal log data") rfl rfl (by rfl) rfl]
    decide

theorem sub64_of_le (a b : Nat) (hb : b ≤ a) (ha : a < 2 ^ 64) : sub64 a b = a - b := by
  unfold sub64
  have h1 : a % 2 ^ 64 = a := Nat.mod_eq_of_lt ha
  have h2 : b % 2 ^ 64 = b := Nat.mod_eq_of_lt (by omega)
  rw [h1, h2]
  have h3 : a + 2 ^ 64 - b = (a - b) + 2 ^ 64 := by omega
  rw [h3, Nat.add_mod_right]
  exact Nat.mod_eq_of_lt (by omega)

/-- Where the subtraction cannot wrap around (the deploy block is at least
`eventScanInterval`), the scan without logs ends: started at `i`, it scans
`(i - fromBlock) / 10000 + 1` windows when `i ≥ fromBlock`, and none otherwise. -/
theorem scanLoop_ends_without_wrap (n : PrestakeNode) (address : Address)
    (intervalSize : Option Int) (hlogs : ∀ a s f t, n.GetLogs a s f t = .ok [])
    (fromBlock : Nat) (hfrom : eventScanInterval ≤ fromBlock) :
    ∀ (k i windows : Nat), i < 2 ^ 64 → i < fromBlock + eventScanInterval * k →
      scanLoop n address intervalSize fromBlock (k + 1) i windows =
        some (.ok none,
          windows + (if fromBlock ≤ i then (i - fromBlock) / eventScanInterval + 1 else 0))
  | 0, i, windows, _, hi => by
    have hlt : ¬ fromBlock ≤ i := by omega
    rw [scanLoop]
    simp [hlt]
  | k + 1, i, windows, h64, hi => by
    rw [scanLoop]
    by_cases hge : fromBlock ≤ i
    · simp only [ge_iff_le, hge, if_true, hlogs]
      have hsub : sub64 i eventScanInterval = i - eventScanInterval :=
        sub64_of_le i eventScanInterval (by omega) h64
      have ih := scanLoop_ends_without_wrap n address intervalSize hlogs fromBlock hfrom k
        (i - eventScanInterval) (windows + 1) (by omega) (by
          unfold eventScanInterval at *
          omega)
      rw [hsub, ih]
      have hcount : (windows + 1 +
          if fromBlock ≤ i - eventScanInterval then
            (i - eventScanInterval - fromBlock) / eventScanInterval + 1 else 0)
          = windows + ((i - fromBlock) / eventScanInterval + 1) := by
        unfold eventScanInterval at hfrom ⊢
        by_cases h2 : fromBlock ≤ i - 10000
        · rw [if_pos h2]
          omega
        · rw [if_neg h2]
          omega
      rw [hcount]
    · simp [hge]

/-- Where the subtraction cannot wrap around (`10000 ≤ deployBlock`), and no
window holds a log, `GetPrestakeEvent` returns, given enough fuel, the
`error finding prestake log` error with empty data. -/
theorem GetPrestakeEvent_not_found_without_wrap (n : PrestakeNode) (c : minipoolCommon)
    (intervalSize : Option Int) (opts : Option CallOpts) (currentBlock deployBlock : Nat)
    (hlogs : ∀ a s f t, n.GetLogs a s f t = .ok [])
    (hblock : n.BlockNumber = .ok currentBlock)
    (hdeploy : n.QueryDeployBlock opts = .ok (some (deployBlock : Int)))
    (hcur : currentBlock < 2 ^ 64) (hdep : deployBlock < 2 ^ 64)
    (hfrom : eventScanInterval ≤ deployBlock) :
    c.GetPrestakeEvent n intervalSize opts (currentBlock / eventScanInterval + 2) =
      some (.returned (PrestakeData.empty, some (.errorf
        ("error finding prestake log for minipool " ++ n.AddressHex c.Details.Address)))) := by
  have hu : big_Uint64 (deployBlock : Int) = deployBlock := by
    simp only [big_Uint64, Int.natAbs_ofNat]
    exact Nat.mod_eq_of_lt hdep
  have hscan := scanLoop_ends_without_wrap n c.Details.Address intervalSize hlogs deployBlock
    hfrom (currentBlock / eventScanInterval + 1) currentBlock 0 hcur (by
      unfold eventScanInterval at *
      omega)
  simp only [minipoolCommon.GetPrestakeEvent, hblock, hdeploy, hu, hscan]

/-- C14, on every settings binding: `GetSettings` does not return the settings;
it panics at `settingsType.NumField()`, because the type of the receiver `c` is
the pointer type `*ProtocolDaoSettings`, whose kind is not Struct. -/
theorem GetSettings_panics (ifc : SettingInterfaces) (c : ProtocolDaoSettings) :
    c.GetSettings ifc = .panicked ∧
    (RType.ptr c.structType).NumField = .panicked ∧
    c.structType.NumField = .returned 18 := by
  refine ⟨rfl, rfl, ?_⟩
  simp [ProtocolDaoSettings.structType, RType.NumField]

theorem settingsInnerLoop_returns (ifc : SettingInterfaces) (categoryFieldVal v : RValue)
    (i : Nat) (h : categoryFieldVal.Field i = .returned v) :
    ∀ (n : Nat) (acc : List Setting × List Setting),
      ∃ acc', settingsInnerLoop ifc categoryFieldVal i n acc = .returned acc'
  | 0, acc => ⟨acc, rfl⟩
  | n + 1, (boolSettings, uintSettings) => by
    rw [settingsInnerLoop, h]
    cases v with
    | setting s =>
      simp only []
      split
      · exact settingsInnerLoop_returns ifc categoryFieldVal _ i h n _
      · split
        · exact settingsInnerLoop_returns ifc categoryFieldVal _ i h n _
        · exact settingsInnerLoop_returns ifc categoryFieldVal _ i h n _
    | struct fs => exact settingsInnerLoop_returns ifc categoryFieldVal _ i h n _
    | ptr e => exact settingsInnerLoop_returns ifc categoryFieldVal _ i h n _
    | other => exact settingsInnerLoop_returns ifc categoryFieldVal _ i h n _

theorem newProtocolDaoSettings_lengths
    (GetContracts : List String → Except GoError (List CoreContract)) (s : ProtocolDaoSettings)
    (h : newProtocolDaoSettings GetContracts = .returned (.ok s)) :
    s.Auction.length = 7 ∧ s.Deposit.length = 7 ∧ s.Inflation.length = 2 ∧
    s.Minipool.length = 6 ∧ s.Network.length = 15 ∧ s.Proposals.length = 9 ∧
    s.Node.length = 6 ∧ s.Rewards.length = 1 := by
  unfold newProtocolDaoSettings at h
  split at h
  · cases h
  · split at h
    · simp only [Outcome.returned.injEq, Except.ok.injEq] at h
      subst h
      simp
    · cases h

/-- Even on the struct itself (the receiver dereferenced), the loops of
`GetSettings` panic for a binding built by `newProtocolDaoSettings`: the inner
loop reads `categoryFieldVal.Field(i)` with the outer index `i`, which for the
third category, Inflation, with two fields, is out of range. -/
theorem reflectSettings_struct_panics (ifc : SettingInterfaces)
    (GetContracts : List String → Except GoError (List CoreContract)) (s : ProtocolDaoSettings)
    (h : newProtocolDaoSettings GetContracts = .returned (.ok s)) :
    reflectSettings ifc s.structType s.structValue = .panicked := by
  obtain ⟨h1, h2, h3, _⟩ := newProtocolDaoSettings_lengths GetContracts s h
  have hA : ∃ v, (categoryValue s.Auction).Field 0 = .returned v := by
    match hl : s.Auction, h1 with
    | a :: _, _ => exact ⟨.setting a.2, by simp [categoryValue, RValue.Field]⟩
  have hD : ∃ v, (categoryValue s.Deposit).Field 1 = .returned v := by
    match hl : s.Deposit, h2 with
    | _ :: b :: _, _ => exact ⟨.setting b.2, by simp [categoryValue, RValue.Field]⟩
  have hI : (categoryValue s.Inflation).Field 2 = .panicked := by
    match hl : s.Inflation, h3 with
    | [_, _], _ => simp [categoryValue, RValue.Field]
  obtain ⟨vA, hA⟩ := hA
  obtain ⟨vD, hD⟩ := hD
  obtain ⟨acc1, hacc1⟩ := settingsInnerLoop_returns ifc _ vA 0 hA 7 ([], [])
  obtain ⟨acc2, hacc2⟩ := settingsInnerLoop_returns ifc _ vD 1 hD 7 acc1
  have hloop : settingsOuterLoop ifc s.structType s.structValue 18 0 ([], []) = .panicked := by
    rw [settingsOuterLoop]
    simp only [ProtocolDaoSettings.structType, ProtocolDaoSettings.structValue, RType.Field,
      RValue.Field, List.cons_append, List.getElem?_cons_zero, categoryType, RType.isStruct,
      if_true, RType.NumField, List.length_map, h1]
    rw [hacc1]
    simp only []
    rw [settingsOuterLoop]
    simp only [RType.Field, RValue.Field, List.getElem?_cons_succ, List.getElem?_cons_zero,
      RType.isStruct, if_true, RType.NumField, List.length_map, h2]
    rw [hacc2]
    simp only []
    rw [settingsOuterLoop]
    simp only [RType.Field, RValue.Field, List.getElem?_cons_succ, List.getElem?_cons_zero,
      RType.isStruct, if_true, RType.NumField, List.length_map, h3]
    rw [settingsInnerLoop]
    rw [hI]
  simp only [reflectSettings]
  have hn : s.structType.NumField = .returned 18 := by
    simp [ProtocolDaoSettings.structType, RType.NumField]
  rw [hn]
  exact hloop

/-- The setting paths that `newProtocolDaoSettings` binds, field by field in
declaration order, whatever the contracts are. -/
theorem newProtocolDaoSettings_paths
    (GetContracts : List String → Except GoError (List CoreContract)) (s : ProtocolDaoSettings)
    (h : newProtocolDaoSettings GetContracts = .returned (.ok s)) :
    s.paths = [
    "auction.lot.create.enabled", "auction.lot.bidding.enabled", "auction.lot.value.minimum",
    "auction.lot.value.maximum", "auction.lot.duration", "auction.price.start",
    "auction.price.reserve", "deposit.enabled", "deposit.assign.enabled", "deposit.minimum",
    "deposit.pool.maximum", "deposit.assign.maximum", "deposit.assign.socialised.maximum",
    "deposit.fee", "rpl.inflation.interval.rate", "rpl.inflation.interval.start",
    "minipool.submit.withdrawable.enabled", "minipool.launch.timeout",
    "minipool.bond.reduction.enabled", "minipool.maximum.count",
    "minipool.user.distribute.window.start", "minipool.user.distribute.window.length",
    "network.consensus.threshold", "network.penalty.threshold", "network.penalty.per.rate",
    "network.submit.balances.enabled", "network.submit.balances.frequency",
    "network.submit.prices.enabled", "network.submit.prices.frequency",
    "network.node.fee.minimum", "network.node.fee.target", "network.node.fee.maximum",
    "network.node.fee.demand.range", "network.reth.collateral.target",
    "network.penalty.threshold", "network.penalty.per.rate", "network.submit.rewards.enabled",
    "proposal.vote.time", "proposal.vote.delay.time", "proposal.execute.time",
    "proposal.bond", "proposal.challenge.bond", "proposal.challenge.period",
    "proposal.quorum", "proposal.veto.quorum", "proposal.max.block.age",
    "node.registration.enabled", "node.smoothing.pool.registration.enabled",
    "node.deposit.enabled", "node.vacant.minipools.enabled",
    "node.per.minipool.stake.minimum", "node.per.minipool.stake.maximum",
    "rpl.rewards.claim.period.time"] ∧
    ((s.fields.map (fun f => f.2.2.contract)).drop 22).take 15
      = List.replicate 15 s.dps_network := by
  unfold newProtocolDaoSettings at h
  split at h
  · cases h
  · split at h
    · simp only [Outcome.returned.injEq, Except.ok.injEq] at h
      subst h
      constructor
      · simp [ProtocolDaoSettings.paths, ProtocolDaoSettings.fields, newBoolSetting,
          newUintSetting, newCompoundSetting]
      · simp [ProtocolDaoSettings.fields, newBoolSetting, newUintSetting, newCompoundSetting,
          List.replicate]
    · cases h

/-- In every binding built by `newProtocolDaoSettings`, the Network fields
`NodePenaltyThreshold` and `NetworkPenaltyThreshold` are bound to the same
contract with the same path, and so are `PerPenaltyRate` and
`NetworkPenaltyPerRate`; these are the only fields that share a path. -/
theorem newProtocolDaoSettings_shared_paths
    (GetContracts : List String → Except GoError (List CoreContract)) (s : ProtocolDaoSettings)
    (h : newProtocolDaoSettings GetContracts = .returned (.ok s)) :
    s.fields.length = 53 ∧
    s.fields[23]? = some ("Network", "NodePenaltyThreshold",
      newCompoundSetting "float64" s.dps_network "network.penalty.threshold") ∧
    s.fields[34]? = some ("Network", "NetworkPenaltyThreshold",
      newCompoundSetting "float64" s.dps_network "network.penalty.threshold") ∧
    s.fields[24]? = some ("Network", "PerPenaltyRate",
      newCompoundSetting "float64" s.dps_network "network.penalty.per.rate") ∧
    s.fields[35]? = some ("Network", "NetworkPenaltyPerRate",
      newCompoundSetting "float64" s.dps_network "network.penalty.per.rate") ∧
    ((s.paths.eraseIdx 35).eraseIdx 34).Nodup := by
  have hp := (newProtocolDaoSettings_paths GetContracts s h).1
  refine ⟨?_, ?_, ?_, ?_, ?_, ?_⟩
  · have hl := congrArg List.length hp
    simpa [ProtocolDaoSettings.paths] using hl
  all_goals first
    | (rw [hp]; decide)
    | (unfold newProtocolDaoSettings at h
       split at h
       · cases h
       · split at h
         · simp only [Outcome.returned.injEq, Except.ok.injEq] at h
           subst h
           simp [ProtocolDaoSettings.fields]
         · cases h)

/-- C21, on the binding built by `newProtocolDaoSettings`: the setting path does
not identify the setting. Of the 53 setting fields, `Network.NodePenaltyThreshold`
and `Network.NetworkPenaltyThreshold` are bound to the same settings contract
with the same path `network.penalty.threshold`, and `Network.PerPenaltyRate` and
`Network.NetworkPenaltyPerRate` with the same path `network.penalty.per.rate`;
without the two later fields the paths are pairwise distinct. -/
theorem setting_paths_shared :
    ∃ s : ProtocolDaoSettings,
      newProtocolDaoSettings sampleGetContracts = .returned (.ok s) ∧
      s.fields.length = 53 ∧
      s.fields[23]? = some ("Network", "NodePenaltyThreshold",
        newCompoundSetting "float64" s.dps_network "network.penalty.threshold") ∧
      s.fields[34]? = some ("Network", "NetworkPenaltyThreshold",
        newCompoundSetting "float64" s.dps_network "network.penalty.threshold") ∧
      s.fields[24]? = some ("Network", "PerPenaltyRate",
        newCompoundSetting "float64" s.dps_network "network.penalty.per.rate") ∧
      s.fields[35]? = some ("Network", "NetworkPenaltyPerRate",
        newCompoundSetting "float64" s.dps_network "network.penalty.per.rate") ∧
      ¬ PathIdentifiesSetting s ∧
      ((s.paths.eraseIdx 35).eraseIdx 34).Nodup := by
  have hex : ∃ s, newProtocolDaoSettings sampleGetContracts = .returned (.ok s) := by
    simp [newProtocolDaoSettings, sampleGetContracts, settingsContractNames]
  obtain ⟨s, hs⟩ := hex
  obtain ⟨h53, h23, h34, h24, h35, hnodup⟩ :=
    newProtocolDaoSettings_shared_paths sampleGetContracts s hs
  refine ⟨s, hs, h53, h23, h34, h24, h35, ?_, hnodup⟩
  intro hP
  exact hP 23 34 _ _ h23 h34 (by decide) rfl rfl

theorem RunsInDependencyOrder.of_no_handoff (env : TestNetwork) (owner nodeAccount : Account)
    (timezone id url : String) (err : GoError) :
    RunsInDependencyOrder env owner nodeAccount timezone id url ((none, some err), []) := by
  refine ⟨?_, ?_, ?_, ?_, ?_⟩
  · intro h
    cases h
  · exact ⟨⟨nodeAccount.Address⟩, ⟨"", nodeAccount.Address⟩, ⟨"", nodeAccount.Address⟩,
      ⟨⟨⟨"", nodeAccount.Address⟩, ""⟩, ⟨⟨"", nodeAccount.Address⟩, ""⟩,
        ⟨⟨"", nodeAccount.Address⟩, ""⟩, ⟨⟨"", nodeAccount.Address⟩, ""⟩,
        ⟨"", nodeAccount.Address⟩⟩, none, List.nil_prefix⟩
  · intro h hh
    cases hh
  · intro i h hi
    simp at hi
  · intro _
    rfl

/-- The hand-offs of `BootstrapNodeToOdao` are an initial segment of the plan,
the complete plan on success; every amount is the RPL bond read by the query;
a hand-off answered with an error is the last one, and an error is returned
instead of a node. -/
theorem BootstrapNodeToOdao_hands_off_in_order (env : TestNetwork)
    (owner nodeAccount : Account) (timezone id url : String) :
    RunsInDependencyOrder env owner nodeAccount timezone id url
      (BootstrapNodeToOdao env owner nodeAccount timezone id url) := by
  unfold BootstrapNodeToOdao
  cases h1 : env.NewOracleDaoManager with
  | some e => exact RunsInDependencyOrder.of_no_handoff _ _ _ _ _ _ _
  | none =>
  simp only []
  cases h2 : env.GetContract ContractName_RocketDAONodeTrustedActions with
  | error e => exact RunsInDependencyOrder.of_no_handoff _ _ _ _ _ _ _
  | ok oma =>
  simp only []
  cases h3 : env.NewTokenRplFixedSupply with
  | some e => exact RunsInDependencyOrder.of_no_handoff _ _ _ _ _ _ _
  | none =>
  simp only []
  cases h4 : NewTokenRpl env.GetContract with
  | error e => exact RunsInDependencyOrder.of_no_handoff _ _ _ _ _ _ _
  | ok rpl =>
  simp only []
  cases h5 : env.GetContract ContractName_RocketTokenRPL with
  | error e => exact RunsInDependencyOrder.of_no_handoff _ _ _ _ _ _ _
  | ok rplContract =>
  simp only [RegisterNode]
  cases h6 : env.NewNode nodeAccount.Address with
  | error e => exact RunsInDependencyOrder.of_no_handoff _ _ _ _ _ _ _
  | ok node =>
  simp only [List.nil_append]
  cases h7 : env.Orchestrate []
      (.CreateAndWaitForTransaction (.Register node timezone nodeAccount.Transactor) true
        nodeAccount.Transactor) with
  | some e =>
    refine ⟨?_, ?_, ?_, ?_, ?_⟩
    · intro h
      cases h
    · exact ⟨node, oma, rplContract, rpl, none, by simp [bootstrapPlan, List.prefix_cons_inj]⟩
    · intro h hh creator hc amount ha
      simp only [List.mem_singleton] at hh
      subst hh
      simp only [Handoff.creators, List.mem_singleton] at hc
      subst hc
      cases ha
    · intro i h hi _
      rcases i with _ | i
      · simp
      · simp at hi
    · intro _
      rfl
  | none =>
  simp only []
  cases h8 : env.QueryRplBond
      [.CreateAndWaitForTransaction (.Register node timezone nodeAccount.Transactor) true
        nodeAccount.Transactor] with
  | error e =>
    refine ⟨?_, ?_, ?_, ?_, ?_⟩
    · intro h
      cases h
    · exact ⟨node, oma, rplContract, rpl, none, by simp [bootstrapPlan, List.prefix_cons_inj]⟩
    · intro h hh creator hc amount ha
      simp only [List.mem_singleton] at hh
      subst hh
      simp only [Handoff.creators, List.mem_singleton] at hc
      subst hc
      cases ha
    · intro i h hi hne
      rcases i with _ | i
      · simp
      · simp at hi
    · intro _
      rfl
  | ok rplBond =>
  simp only []
  cases h9 : env.Orchestrate
      [.CreateAndWaitForTransaction (.Register node timezone nodeAccount.Transactor) true
        nodeAccount.Transactor]
      (.BatchCreateAndWaitForTransactions
        [.BootstrapMember id url nodeAccount.Address owner.Transactor,
          .MintLegacyRpl owner nodeAccount rplBond] true owner.Transactor) with
  | some e =>
    refine ⟨?_, ?_, ?_, ?_, ?_⟩
    · intro h
      cases h
    · exact ⟨node, oma, rplContract, rpl, rplBond,
        by simp [bootstrapPlan, List.prefix_cons_inj]⟩
    · intro h hh creator hc amount ha
      simp only [List.singleton_append, List.mem_cons, List.mem_singleton, List.not_mem_nil,
        or_false] at hh
      rcases hh with rfl | rfl
      · simp only [Handoff.creators, List.mem_singleton] at hc
        subst hc
        cases ha
      · simp only [Handoff.creators, List.mem_cons, List.mem_singleton, List.not_mem_nil,
          or_false] at hc
        rcases hc with rfl | rfl
        · cases ha
        · simp only [Creator.amount?, Option.some.injEq] at ha
          subst ha
          simpa using h8
    · intro i h hi hne
      rcases i with _ | _ | i
      · simp only [List.singleton_append, List.getElem?_cons_zero, Option.some.injEq] at hi
        subst hi
        simp only [List.take_zero] at hne
        exact absurd h7 hne
      · simp
      · simp at hi
    · intro _
      rfl
  | none =>
  simp only []
  cases h10 : env.Orchestrate
      ([.CreateAndWaitForTransaction (.Register node timezone nodeAccount.Transactor) true
        nodeAccount.Transactor] ++ [.BatchCreateAndWaitForTransactions
        [.BootstrapMember id url nodeAccount.Address owner.Transactor,
          .MintLegacyRpl owner nodeAccount rplBond] true owner.Transactor])
      (.BatchCreateAndWaitForTransactions
        [.FsrplApprove rplContract.address rplBond nodeAccount.Transactor,
          .SwapFixedSupplyRplForRpl rpl rplBond nodeAccount.Transactor,
          .RplApprove rpl oma.address rplBond nodeAccount.Transactor,
          .Join nodeAccount.Transactor] false nodeAccount.Transactor) with
  | some e =>
    refine ⟨?_, ?_, ?_, ?_, ?_⟩
    · intro h
      cases h
    · exact ⟨node, oma, rplContract, rpl, rplBond, by simp [bootstrapPlan]⟩
    · intro h hh creator hc amount ha
      simp only [List.singleton_append, List.cons_append, List.nil_append, List.mem_cons,
        List.mem_singleton, List.not_mem_nil, or_false] at hh
      rcases hh with rfl | rfl | rfl
      · simp only [Handoff.creators, List.mem_singleton] at hc
        subst hc
        cases ha
      · simp only [Handoff.creators, List.mem_cons, List.mem_singleton, List.not_mem_nil,
          or_false] at hc
        rcases hc with rfl | rfl
        · cases ha
        · simp only [Creator.amount?, Option.some.injEq] at ha
          subst ha
          simpa using h8
      · simp only [Handoff.creators, List.mem_cons, List.mem_singleton, List.not_mem_nil,
          or_false] at hc
        rcases hc with rfl | rfl | rfl | rfl
        · simp only [Creator.amount?, Option.some.injEq] at ha
          subst ha
          simpa using h8
        · simp only [Creator.amount?, Option.some.injEq] at ha
          subst ha
          simpa using h8
        · simp only [Creator.amount?, Option.some.injEq] at ha
          subst ha
          simpa using h8
        · cases ha
    · intro i h hi hne
      rcases i with _ | _ | _ | i
      · simp only [List.singleton_append, List.cons_append, List.nil_append,
          List.getElem?_cons_zero, Option.some.injEq] at hi
        subst hi
        simp only [List.take_zero] at hne
        exact absurd h7 hne
      · simp only [List.singleton_append, List.cons_append, List.nil_append,
          List.getElem?_cons_succ, List.getElem?_cons_zero, Option.some.injEq] at hi
        subst hi
        simp only [List.singleton_append, List.cons_append, List.nil_append, List.take_succ_cons,
          List.take_zero] at hne
        exact absurd h9 hne
      · simp
      · simp at hi
    · intro _
      rfl
  | none =>
    refine ⟨?_, ?_, ?_, ?_, ?_⟩
    · intro _
      exact ⟨node, oma, rplContract, rpl, rplBond, h2, h5, h4, h6, by simpa using h8, rfl,
        by simp [bootstrapPlan]⟩
    · exact ⟨node, oma, rplContract, rpl, rplBond, by simp [bootstrapPlan]⟩
    · intro h hh creator hc amount ha
      simp only [List.singleton_append, List.cons_append, List.nil_append, List.mem_cons,
        List.mem_singleton, List.not_mem_nil, or_false] at hh
      rcases hh with rfl | rfl | rfl
      · simp only [Handoff.creators, List.mem_singleton] at hc
        subst hc
        cases ha
      · simp only [Handoff.creators, List.mem_cons, List.mem_singleton, List.not_mem_nil,
          or_false] at hc
        rcases hc with rfl | rfl
        · cases ha
        · simp only [Creator.amount?, Option.some.injEq] at ha
          subst ha
          simpa using h8
      · simp only [Handoff.creators, List.mem_cons, List.mem_singleton, List.not_mem_nil,
          or_false] at hc
        rcases hc with rfl | rfl | rfl | rfl
        · simp only [Creator.amount?, Option.some.injEq] at ha
          subst ha
          simpa using h8
        · simp only [Creator.amount?, Option.some.injEq] at ha
          subst ha
          simpa using h8
        · simp only [Creator.amount?, Option.some.injEq] at ha
          subst ha
          simpa using h8
        · cases ha
    · intro i h hi hne
      rcases i with _ | _ | _ | i
      · simp only [List.singleton_append, List.cons_append, List.nil_append,
          List.getElem?_cons_zero, Option.some.injEq] at hi
        subst hi
        simp only [List.take_zero] at hne
        exact absurd h7 hne
      · simp only [List.singleton_append, List.cons_append, List.nil_append,
          List.getElem?_cons_succ, List.getElem?_cons_zero, Option.some.injEq] at hi
        subst hi
        simp only [List.singleton_append, List.cons_append, List.nil_append, List.take_succ_cons,
          List.take_zero] at hne
        exact absurd h9 hne
      · simp only [List.singleton_append, List.cons_append, List.nil_append,
          List.getElem?_cons_succ, List.getElem?_cons_zero, Option.some.injEq] at hi
        subst hi
        simp only [List.singleton_append, List.cons_append, List.nil_append, List.take_succ_cons,
          List.take_zero] at hne
        exact absurd h10 hne
      · simp at hi
    · intro h
      exact absurd rfl h

/-- The requests built by the creators declared in the sources carry the amount
they are given: `MintLegacyRpl` as second argument of `mint`, `TokenRpl.Approve`
as second argument of `approve`, `TokenRpl.SwapFixedSupplyRplForRpl` as the
argument of `swapTokens`. -/
theorem creators_carry_amount (readOnly : CoreContract → String → Bool)
    (GetContract : String → Except GoError CoreContract) (ownerAccount toAccount : Account)
    (rpl : TokenRpl) (spender : Address) (amount : Option Int) (opts : Option TransactOpts)
    (info : TransactionInfo) :
    (MintLegacyRpl readOnly GetContract ownerAccount toAccount amount = .ok info →
      info.method = "mint" ∧ info.args = [.address toAccount.Address, .bigInt amount] ∧
      info.opts = ownerAccount.Transactor) ∧
    (rpl.Approve readOnly spender amount opts = .ok info →
      info.target = rpl.rpl ∧ info.method = "approve" ∧
      info.args = [.address spender, .bigInt amount] ∧ info.opts = opts) ∧
    (rpl.SwapFixedSupplyRplForRpl readOnly amount opts = .ok info →
      info.target = rpl.rpl ∧ info.method = "swapTokens" ∧ info.args = [.bigInt amount] ∧
      info.opts = opts) := by
  refine ⟨?_, ?_, ?_⟩
  · intro h
    unfold MintLegacyRpl at h
    cases hc : GetContract ContractName_RocketTokenRPLFixedSupply with
    | error e =>
      rw [hc] at h
      cases h
    | ok fsrpl =>
      rw [hc] at h
      simp only [NewTransactionInfo] at h
      cases hro : readOnly fsrpl "mint" with
      | true =>
        rw [hro] at h
        cases h
      | false =>
        rw [hro] at h
        simp only [Bool.false_eq_true, if_false, Except.ok.injEq] at h
        subst h
        exact ⟨rfl, rfl, rfl⟩
  · intro h
    simp only [TokenRpl.Approve, NewTransactionInfo] at h
    split at h
    · cases h
    · cases h
      exact ⟨rfl, rfl, rfl, rfl⟩
  · intro h
    simp only [TokenRpl.SwapFixedSupplyRplForRpl, NewTransactionInfo] at h
    split at h
    · cases h
    · cases h
      exact ⟨rfl, rfl, rfl, rfl⟩

theorem CompletesPlan.of_failed_lookup (env : TestNetwork) (owner nodeAccount : Account)
    (timezone id url : String) (err : GoError) (hfail : LookupFails env nodeAccount) :
    CompletesPlan env owner nodeAccount timezone id url ((none, some err), []) := by
  refine ⟨fun _ => ⟨rfl, rfl, by simp⟩, ?_⟩
  intro node oma rplContract rpl rplBond g1 g2 g3 g4 g5 g6
  exfalso
  rcases hfail with h | ⟨e, h⟩ | h | ⟨e, h⟩ | ⟨e, h⟩ | ⟨e, h⟩
  · exact h g1
  · rw [g2] at h
    cases h
  · exact h g3
  · rw [g4] at h
    cases h
  · rw [g5] at h
    cases h
  · rw [g6] at h
    cases h

/-- The run of `BootstrapNodeToOdao` hands over what the plan asks for, as far
as the orchestrator and the query allow. -/
theorem BootstrapNodeToOdao_completes_plan (env : TestNetwork)
    (owner nodeAccount : Account) (timezone id url : String) :
    CompletesPlan env owner nodeAccount timezone id url
      (BootstrapNodeToOdao env owner nodeAccount timezone id url) := by
  unfold BootstrapNodeToOdao
  cases h1 : env.NewOracleDaoManager with
  | some e => exact CompletesPlan.of_failed_lookup _ _ _ _ _ _ _ (Or.inl (by simp [h1]))
  | none =>
  simp only []
  cases h2 : env.GetContract ContractName_RocketDAONodeTrustedActions with
  | error e =>
    exact CompletesPlan.of_failed_lookup _ _ _ _ _ _ _ (Or.inr (Or.inl ⟨e, h2⟩))
  | ok oma =>
  simp only []
  cases h3 : env.NewTokenRplFixedSupply with
  | some e =>
    exact CompletesPlan.of_failed_lookup _ _ _ _ _ _ _ (Or.inr (Or.inr (Or.inl (by simp [h3]))))
  | none =>
  simp only []
  cases h4 : NewTokenRpl env.GetContract with
  | error e =>
    exact CompletesPlan.of_failed_lookup _ _ _ _ _ _ _
      (Or.inr (Or.inr (Or.inr (Or.inl ⟨e, h4⟩))))
  | ok rpl =>
  simp only []
  cases h5 : env.GetContract ContractName_RocketTokenRPL with
  | error e =>
    exact CompletesPlan.of_failed_lookup _ _ _ _ _ _ _
      (Or.inr (Or.inr (Or.inr (Or.inr (Or.inl ⟨e, h5⟩)))))
  | ok rplContract =>
  simp only [RegisterNode]
  cases h6 : env.NewNode nodeAccount.Address with
  | error e =>
    exact CompletesPlan.of_failed_lookup _ _ _ _ _ _ _
      (Or.inr (Or.inr (Or.inr (Or.inr (Or.inr ⟨e, h6⟩)))))
  | ok node =>
  have hok : ¬ LookupFails env nodeAccount := by
    simp [LookupFails, h1, h2, h3, h4, h5, h6]
  simp only [List.nil_append]
  refine ⟨fun hf => absurd hf hok, ?_⟩
  intro node' oma' rplContract' rpl' rplBond' g1 g2 g3 g4 g5 g6 k hj hq
  obtain rfl : oma = oma' := by
    rw [h2] at g2
    exact Except.ok.inj g2
  obtain rfl : rpl = rpl' := by
    rw [h4] at g4
    exact Except.ok.inj g4
  obtain rfl : rplContract = rplContract' := by
    rw [h5] at g5
    exact Except.ok.inj g5
  obtain rfl : node = node' := by
    rw [h6] at g6
    exact Except.ok.inj g6
  have hj0 : 1 ≤ k → env.Orchestrate []
      (.CreateAndWaitForTransaction (.Register node timezone nodeAccount.Transactor) true
        nodeAccount.Transactor) = none := fun hk => hj 0 _ (by omega) rfl
  have hj1 : 2 ≤ k → env.Orchestrate
      [.CreateAndWaitForTransaction (.Register node timezone nodeAccount.Transactor) true
        nodeAccount.Transactor]
      (.BatchCreateAndWaitForTransactions
        [.BootstrapMember id url nodeAccount.Address owner.Transactor,
          .MintLegacyRpl owner nodeAccount rplBond'] true owner.Transactor) = none :=
    fun hk => hj 1 _ (by omega) rfl
  have hj2 : 3 ≤ k → env.Orchestrate
      [.CreateAndWaitForTransaction (.Register node timezone nodeAccount.Transactor) true
        nodeAccount.Transactor,
       .BatchCreateAndWaitForTransactions
        [.BootstrapMember id url nodeAccount.Address owner.Transactor,
          .MintLegacyRpl owner nodeAccount rplBond'] true owner.Transactor]
      (.BatchCreateAndWaitForTransactions
        [.FsrplApprove rplContract.address rplBond' nodeAccount.Transactor,
          .SwapFixedSupplyRplForRpl rpl rplBond' nodeAccount.Transactor,
          .RplApprove rpl oma.address rplBond' nodeAccount.Transactor,
          .Join nodeAccount.Transactor] false nodeAccount.Transactor) = none :=
    fun hk => hj 2 _ (by omega) rfl
  have hq1 : 1 ≤ k → env.QueryRplBond
      [.CreateAndWaitForTransaction (.Register node timezone nodeAccount.Transactor) true
        nodeAccount.Transactor] = .ok rplBond' := hq
  clear hj hq
  cases h7 : env.Orchestrate []
      (.CreateAndWaitForTransaction (.Register node timezone nodeAccount.Transactor) true
        nodeAccount.Transactor) with
  | some e =>
    have hk : k = 0 := by
      by_contra hne
      have := hj0 (by omega)
      rw [h7] at this
      cases this
    subst hk
    exact ⟨by simp [bootstrapPlan], fun h => absurd h (by omega)⟩
  | none =>
  simp only []
  cases h8 : env.QueryRplBond
      [.CreateAndWaitForTransaction (.Register node timezone nodeAccount.Transactor) true
        nodeAccount.Transactor] with
  | error e =>
    have hk : k = 0 := by
      by_contra hne
      have := hq1 (by omega)
      rw [h8] at this
      cases this
    subst hk
    exact ⟨by simp [bootstrapPlan], fun h => absurd h (by omega)⟩
  | ok rplBond =>
  simp only []
  by_cases hk0 : k = 0
  · subst hk0
    refine ⟨?_, fun h => absurd h (by omega)⟩
    simp only [bootstrapPlan, Nat.zero_add, List.take_succ_cons, List.take_zero]
    split <;> [skip; split] <;> simp [List.prefix_cons_inj]
  · obtain rfl : rplBond = rplBond' := by
      have := hq1 (by omega)
      rw [h8] at this
      exact Except.ok.inj this
    cases h9 : env.Orchestrate
        [.CreateAndWaitForTransaction (.Register node timezone nodeAccount.Transactor) true
          nodeAccount.Transactor]
        (.BatchCreateAndWaitForTransactions
          [.BootstrapMember id url nodeAccount.Address owner.Transactor,
            .MintLegacyRpl owner nodeAccount rplBond] true owner.Transactor) with
    | some e =>
      have hk : k = 1 := by
        by_contra hne
        have := hj1 (by omega)
        rw [h9] at this
        cases this
      subst hk
      exact ⟨by simp [bootstrapPlan], fun h => absurd h (by omega)⟩
    | none =>
    simp only []
    cases h10 : env.Orchestrate
        ([.CreateAndWaitForTransaction (.Register node timezone nodeAccount.Transactor) true
          nodeAccount.Transactor] ++ [.BatchCreateAndWaitForTransactions
          [.BootstrapMember id url nodeAccount.Address owner.Transactor,
            .MintLegacyRpl owner nodeAccount rplBond] true owner.Transactor])
        (.BatchCreateAndWaitForTransactions
          [.FsrplApprove rplContract.address rplBond nodeAccount.Transactor,
            .SwapFixedSupplyRplForRpl rpl rplBond nodeAccount.Transactor,
            .RplApprove rpl oma.address rplBond nodeAccount.Transactor,
            .Join nodeAccount.Transactor] false nodeAccount.Transactor) with
    | some e =>
      have hk : k ≤ 2 := by
        by_contra hne
        have := hj2 (by omega)
        simp only [List.singleton_append] at h10
        rw [h10] at this
        cases this
      refine ⟨?_, fun h => absurd h (by omega)⟩
      have : k + 1 = 2 ∨ k + 1 = 3 := by omega
      rcases this with h | h <;> rw [h] <;> simp [bootstrapPlan, List.prefix_cons_inj]
    | none =>
      refine ⟨?_, fun _ => by simp [bootstrapPlan]⟩
      have : k + 1 = 2 ∨ k + 1 = 3 ∨ 3 < k + 1 := by omega
      rcases this with h | h | h
      · rw [h]
        simp [bootstrapPlan, List.prefix_cons_inj]
      · rw [h]
        simp [bootstrapPlan, List.prefix_cons_inj]
      · rw [List.take_of_length_le (by simp [bootstrapPlan]; omega)]
        simp [bootstrapPlan]

/-- C22: in `BootstrapNodeToOdao` the write requests are handed to the
orchestrator in dependency order: the node registration first, then the batch
[bootstrap member, mint legacy RPL], then the batch [approve legacy RPL for the
RPL contract, swap legacy RPL for RPL, approve RPL for the oDAO actions
contract, join], each approval standing before the step that spends it; every
amount in these requests is the RPL bond read by the query that precedes them;
when a step fails nothing is handed to the orchestrator after it and an error
is returned instead of a node; and as long as no step fails the next hand-off
of the plan is made, up to the complete plan and the node. -/
theorem BootstrapNodeToOdao_in_dependency_order (env : TestNetwork)
    (owner nodeAccount : Account) (timezone id url : String) :
    RunsInDependencyOrder env owner nodeAccount timezone id url
      (BootstrapNodeToOdao env owner nodeAccount timezone id url) ∧
    CompletesPlan env owner nodeAccount timezone id url
      (BootstrapNodeToOdao env owner nodeAccount timezone id url) :=
  ⟨BootstrapNodeToOdao_hands_off_in_order env owner nodeAccount timezone id url,
    BootstrapNodeToOdao_completes_plan env owner nodeAccount timezone id url⟩

/-- C22, instance: on the test network where every lookup, the query (RPL bond
1750 RPL) and every hand-off succeed, the run is the complete plan of three
hand-offs and returns the node. -/
theorem BootstrapNodeToOdao_in_dependency_order_witness :
    ∃ rpl : TokenRpl, NewTokenRpl sampleTestNetwork.GetContract = .ok rpl ∧
      BootstrapNodeToOdao sampleTestNetwork sampleOwner sampleNodeAccount "Etc/UTC" "node-1"
          "https://node-1.example" =
        ((some ⟨sampleNodeAccount.Address⟩, none),
          bootstrapPlan sampleOwner sampleNodeAccount "Etc/UTC" "node-1" "https://node-1.example"
            ⟨sampleNodeAccount.Address⟩ ⟨"rocketDAONodeTrustedActions", sampleAddress⟩
            ⟨"rocketTokenRPL", sampleAddress⟩ rpl (some 1750000000000000000000)) :=
  ⟨_, rfl,
    ((BootstrapNodeToOdao_in_dependency_order sampleTestNetwork sampleOwner sampleNodeAccount
      "Etc/UTC" "node-1" "https://node-1.example").2.2 ⟨sampleNodeAccount.Address⟩
      ⟨"rocketDAONodeTrustedActions", sampleAddress⟩ ⟨"rocketTokenRPL", sampleAddress⟩ _
      (some 1750000000000000000000) rfl rfl rfl rfl rfl rfl 3 (fun _ _ _ _ => rfl)
      (fun _ => rfl)).2 (le_refl 3)⟩

end RocketpoolGo
